import Mathlib

/-!
# ebijam24: equipment, unit and combat core

A shallow embedding of `internal/game/equipment.go` and of the unit logic of
`internal/game/dude.go`, with the properties of the written specification
stated over it.

Conventions of the embedding.

* A Go method with a pointer receiver that mutates its receiver becomes a
  function returning the new record (and the Go return value, when there is
  one).
* Go `int` is `Int`; the counters involved (levels, uses, gold, hit points)
  stay far away from the 64-bit limits.
* `EquipmentQuality` is a `float32` that only ever holds the integral values
  `0 .. 4` and is only changed in steps of one; it is an `Int` here.
* Rendering (sprite stacks, floating text) and the message feed are
  write-only sinks and are left out of the state.
* Random draws are explicit inputs (`Rolls`); code of the repository that is
  not part of the sources (stats, perks, enemies, rooms) is an explicit
  parameter (`World`).
-/

namespace Game

/-! ## Data model -/

/-- The string-typed enumeration `ProfessionKind` of `profession.go`. -/
inductive ProfessionKind where
  | Vagabond
  | Knight
  | Cleric
  | Ranger
deriving DecidableEq

/-- The string-typed enumeration `EquipmentType` of `equipment.go`. -/
inductive EquipmentType where
  | Weapon
  | Armor
  | Accessory
deriving DecidableEq

/-- Quality constants of `equipment.go`. -/
def EquipmentQualityCommon : Int := 0

def EquipmentQualityUncommon : Int := 1

def EquipmentQualityRare : Int := 2

def EquipmentQualityEpic : Int := 3

def EquipmentQualityLegendary : Int := 4

/-- Modelled from the spec: the `Stats` record, whose declaration (stats.go) is
not among the sources. The fields are the ones the sources read and write:
"level, totalHp, currentHp, strength, wisdom, defense, agility,
confidence/cowardice, luck". -/
structure Stats where
  level : Int := 0
  totalHp : Int := 0
  currentHp : Int := 0
  strength : Int := 0
  wisdom : Int := 0
  defense : Int := 0
  agility : Int := 0
  cowardice : Int := 0
  luck : Int := 0
deriving DecidableEq

/-- Modelled from the spec: a `Perk` value, seen through `Name()` and
`Quality()`; the perk implementations are not among the sources. Its
`Check(event)` is the `Check` field of `World`. -/
structure Perk where
  Name : String
  Quality : Int
deriving DecidableEq

/-- The `Equipment` struct of `equipment.go` (without `stack` and `Draw`).
`id` stands for the identity of the Go pointer `*Equipment`. -/
structure Equipment where
  id : Nat := 0
  name : String := ""
  level : Int := 0
  quality : Int := 0
  uses : Int := 0
  totalUses : Int := 0
  description : String := ""
  equipmentType : EquipmentType := EquipmentType.Weapon
  perk : Option Perk := none
  stats : Option Stats := none
  professions : List ProfessionKind := []
deriving DecidableEq

/-! ## equipment.go -/

/-- The method `Equipment.ChangeQuality(delta)`. The two loops of the source call
`ChangeQuality(1)` (resp. `ChangeQuality(-1)`) `|delta|` times. -/
def Equipment.ChangeQuality (e : Equipment) (delta : Int) : Equipment :=
  if delta = 0 then e
  else if e.quality = EquipmentQualityCommon ∧ delta < 0 then
    if e.uses > 0 then { e with uses := e.uses - 1 } else e
  else if e.quality = EquipmentQualityLegendary ∧ delta > 0 then
    if e.uses < e.totalUses then { e with uses := e.uses + 1 } else e
  else if h : delta > 1 then
    Nat.iterate (fun x => Equipment.ChangeQuality x 1) delta.toNat e
  else if h' : delta < -1 then
    Nat.iterate (fun x => Equipment.ChangeQuality x (-1)) (-delta).toNat e
  else
    let e1 := { e with quality := e.quality + 1 * delta,
                       totalUses := e.totalUses + delta,
                       uses := e.uses + delta }
    let e2 := if e1.uses > e1.totalUses then { e1 with uses := e1.totalUses } else e1
    if e2.uses < 0 then { e2 with uses := 0 } else e2
termination_by delta.natAbs
decreasing_by
  all_goals simp_wf
  all_goals omega

/-- The method `Equipment.LevelUp()`. -/
def Equipment.LevelUp (e : Equipment) : Equipment :=
  if e.stats.isNone then e
  else
    let e1 := { e with level := e.level + 1 }
    if e1.level = 5 ∧ e1.quality < EquipmentQualityLegendary then
      { e1.ChangeQuality 1 with level := 0 }
    else e1

/-- The method `Equipment.LevelDown()`. -/
def Equipment.LevelDown (e : Equipment) : Equipment :=
  if e.stats.isNone then e
  else
    let e1 := { e with level := e.level - 1 }
    if e1.level < 0 ∧ e1.quality > EquipmentQualityCommon then
      { e1.ChangeQuality (-1) with level := 4 }
    else e1

/-- The multiplier `m` of `Equipment.Stats()`:
`(quality * 0.15 + 1) * (level * 0.02 + 1)`, in exact rational arithmetic. -/
def Equipment.multiplier (e : Equipment) : ℚ :=
  let qualityMultiplier : ℚ := ((e.quality : ℚ) * (15 / 100)) + 1
  let levelMultiplier : ℚ := ((e.level : ℚ) * (2 / 100)) + 1
  qualityMultiplier * levelMultiplier

/-- The closure `applyMultiplier` of `Equipment.Stats()`:
`int(math.Floor(float64(s) * m))`. -/
def applyMultiplier (m : ℚ) (s : Int) : Int :=
  Int.floor ((s : ℚ) * m)

/-- The method `Equipment.Stats()`. The literal of the source sets six fields and leaves
the others (`level`, `currentHp`, `luck`) at their zero value. -/
def Equipment.Stats (e : Equipment) : Stats :=
  match e.stats with
  | none => {}
  | some s =>
    let m := e.multiplier
    { totalHp := applyMultiplier m s.totalHp,
      strength := applyMultiplier m s.strength,
      wisdom := applyMultiplier m s.wisdom,
      defense := applyMultiplier m s.defense,
      agility := applyMultiplier m s.agility,
      cowardice := applyMultiplier m s.cowardice }

/-! ## The unit and its collaborators -/

/-- The enumeration `DudeActivity` of `dude.go`. -/
inductive DudeActivity where
  | Idle
  | FirstEntering
  | StairsToUp
  | StairsFromDown
  | GoingUp
  | Centering
  | Moving
  | Leaving
  | GoingDown
  | EnterPortal
  | Ded
  | BornAgain
  | Waiting
  | FightBoss
deriving DecidableEq

/-- Modelled from the spec: the `Enemy` collaborator ("stats, name, reward
table"), whose source is not among the sources. What `Damage`, `Hit`, `XP` and
`Gold` do with it is given by `World`. -/
structure Enemy where
  name : String := ""
  stats : Stats := {}
  xp : Int := 0
  gold : Int := 0
deriving DecidableEq

/-- Modelled from the spec: a handle for the `Room` the unit is in; rooms are
owned by the tower, whose source is not among the sources. -/
structure Room where
  id : Nat := 0
  level : Int := 0
deriving DecidableEq

/-- Modelled from the spec: a handle for the `Story` the unit is in. -/
structure Story where
  level : Int := 0
deriving DecidableEq

/-- The event variants used by `dude.go` and `gamebuild.go`. The `dude` and
`enemy` fields of the Go structs point back to the receiver of `Trigger` and
to its enemy, and are not repeated here. -/
inductive Event where
  | DudeHit (amount : Int)
  | CombatRoom
  | DudeMiss
  | DudeCrit (amount : Int)
  | DudeDodge
  | GoldGain (amount : Int)
  | GoldLoss (amount : Int)
  | EnterRoom
  | CenterRoom
  | LeaveRoom
  | Equip (equipment : Equipment)
  | Unequip (equipment : Equipment)
  | Sell (equipment : Equipment)
deriving DecidableEq

/-- The activities `Trigger` can hand back to the driver: `DudeDeadActivity`,
or whatever a room effect returned. -/
inductive Activity where
  | DudeDead
  | RoomEffect (tag : Nat)
deriving DecidableEq

/-- The map `equipped map[EquipmentType]*Equipment`: one optional item per
slot. A slot holding `none` is a key that is absent. -/
structure Equipped where
  weapon : Option Equipment := none
  armor : Option Equipment := none
  accessory : Option Equipment := none
deriving DecidableEq

/-- The lookup `d.equipped[t]`. -/
def Equipped.get (m : Equipped) : EquipmentType → Option Equipment
  | EquipmentType.Weapon => m.weapon
  | EquipmentType.Armor => m.armor
  | EquipmentType.Accessory => m.accessory

/-- The update `d.equipped[t] = eq` (and `delete(d.equipped, t)` for `none`). -/
def Equipped.set (m : Equipped) (t : EquipmentType) (v : Option Equipment) : Equipped :=
  match t with
  | EquipmentType.Weapon => { m with weapon := v }
  | EquipmentType.Armor => { m with armor := v }
  | EquipmentType.Accessory => { m with accessory := v }

/-- The items of the map, as `range d.equipped` visits them (in slot order). -/
def Equipped.values (m : Equipped) : List Equipment :=
  m.weapon.toList ++ m.armor.toList ++ m.accessory.toList

/-- Applies `f` to every item of the map, as a `range` loop calling a mutating
method on each item does. -/
def Equipped.mapItems (m : Equipped) (f : Equipment → Equipment) : Equipped :=
  { weapon := m.weapon.map f, armor := m.armor.map f, accessory := m.accessory.map f }

/-- The `Dude` struct of `dude.go` (without the sprite stacks and the
floating-point `variation` and `trueRotation`). -/
structure Dude where
  name : String := ""
  invincible : Bool := false
  xp : Int := 0
  gold : Int := 0
  profession : ProfessionKind := ProfessionKind.Vagabond
  stats : Stats := {}
  equipped : Equipped := {}
  inventory : List Equipment := []
  story : Option Story := none
  room : Option Room := none
  timer : Int := 0
  activity : DudeActivity := DudeActivity.Idle
  activityDone : Bool := false
  enemy : Option Enemy := none
  dirtyEquipment : Bool := false
  dirtyStats : Bool := false
deriving DecidableEq

/-- The fields of `render.Stack` (`stack.go`) that `Dude.Update` writes.
`HeightOffset` and `Transparency` are floats, exact rationals here. -/
structure Stack where
  MaxSliceIndex : Int := 0
  VgroupOffset : Int := 0
  SliceOffset : Int := 0
  HeightOffset : ℚ := 0
  Transparency : ℚ := 0
deriving DecidableEq

/-- The code of the repository that the sources call but do not contain, as
parameters: the operations of `Stats`, `Perk.Check`,
`Perk.LevelDown`, `Equipment.LevelWithQuality`, the `Enemy` methods and the
`Room` hooks. -/
structure World where
  /-- The value `NewStats(nil, false)`. -/
  NewStats : Stats
  /-- The method `Stats.Add(other)`. -/
  Add : Stats → Stats → Stats
  /-- The method `Stats.ApplyDefense(amount)`. -/
  ApplyDefense : Stats → Int → Int
  /-- The method `Stats.LevelUp(isBossReward)`. -/
  LevelUp : Stats → Bool → Stats
  /-- The method `Stats.LevelDown()`. -/
  LevelDown : Stats → Stats
  /-- The method `Perk.Check(event)`. -/
  Check : Perk → Event → Bool
  /-- The method `Equipment.LevelWithQuality()`. -/
  LevelWithQuality : Equipment → Int
  /-- The method `Enemy.Damage(amount)`: the enemy afterwards, and whether it was killed. -/
  Damage : Enemy → Int → Enemy × Bool
  /-- The method `Enemy.Hit()`. -/
  Hit : Enemy → Int
  /-- The method `Enemy.XP()`. -/
  XP : Enemy → Int
  /-- The method `Enemy.Gold()`. -/
  Gold : Enemy → Int
  /-- The method `Room.RollLoot(luck)`. -/
  RollLoot : Room → Int → Option Equipment
  /-- The method `Room.GetRoomEffect(event)`, which may act on the unit. -/
  GetRoomEffect : Option Room → Dude → Event → Dude × Option Activity
  /-- The method `Perk.LevelDown()`. -/
  PerkLevelDown : Perk → Perk
  /-- The method `Enemy.Update(d)`, which is handed the unit and so its stack. -/
  EnemyUpdate : Enemy → Dude → Stack → Dude × Stack

/-- The outcomes of the random draws of one call: `critRoll` is
`randRoll < critChance` and `missRoll` is `rand.Float64() < missChance` in
`GetDamage`; `dodgeRoll` is `rand.Float64() < chance` in `ApplyDamage`. -/
structure Rolls where
  critRoll : Bool := false
  missRoll : Bool := false
  dodgeRoll : Bool := false
deriving DecidableEq

/-- The calls a `Trigger` makes to the enemy and to the room, in order. -/
inductive Call where
  | Damage (amount : Int)
  | Hit
  | RollLoot (luck : Int)
  | GetRoomEffect (event : Event)
deriving DecidableEq

/-- What a call of `Trigger` leaves behind: the unit, the returned activity
(`none` is Go's `nil`), and the calls made to the enemy and the room. -/
structure Outcome where
  dude : Dude
  activity : Option Activity := none
  calls : List Call := []

/-- The method `Equipment.Activate(event)`. -/
def Equipment.Activate (w : World) (e : Equipment) (event : Event) : Equipment :=
  match e.perk with
  | none => e
  | some perk =>
    if e.uses = 0 then e
    else
      let activated := w.Check perk event
      if !activated then e
      else
        let e1 := { e with uses := e.uses - 1 }
        if e1.uses < 0 then { e1 with uses := 0 } else e1

/-! ## dude.go -/

/-- The method `Dude.SetActivity(a)`. -/
def Dude.SetActivity (d : Dude) (a : DudeActivity) : Dude :=
  { d with activity := a, timer := 0 }

/-- The method `Dude.IsDead()` for a non-nil receiver: the unit afterwards (an invincible
unit at or below 0 hit points is refilled) and the answer. -/
def Dude.IsDead (d : Dude) : Dude × Bool :=
  let d1 : Dude :=
    if d.invincible ∧ d.stats.currentHp ≤ 0 then
      { d with stats := { d.stats with currentHp := d.stats.totalHp } }
    else d
  (d1, decide (d1.stats.currentHp ≤ 0 ∨ d1.activity = DudeActivity.Ded))

/-- The method `Dude.GetCalculatedStats()`. -/
def Dude.GetCalculatedStats (w : World) (d : Dude) : Stats :=
  let stats := w.Add w.NewStats d.stats
  let stats := d.equipped.values.foldl (fun s eq => w.Add s eq.Stats) stats
  { stats with currentHp := d.stats.currentHp }

/-- The method `Dude.Level()`. -/
def Dude.Level (d : Dude) : Int := d.stats.level

/-- The method `Dude.NextLevelXP()`. -/
def Dude.NextLevelXP (d : Dude) : Int := 50 * d.Level

/-- The method `Dude.AddXP(xp)`. -/
def Dude.AddXP (w : World) (d : Dude) (xp : Int) : Dude :=
  let d1 := { d with xp := d.xp + xp }
  let nextLevelXP := d1.NextLevelXP
  let d2 :=
    if d1.xp ≥ nextLevelXP then
      { d1 with xp := d1.xp - nextLevelXP, stats := w.LevelUp d1.stats false }
    else d1
  { d2 with dirtyStats := true }

/-- The method `Dude.GetDamage()`: the unit afterwards, the amount and `wasCrit`. The
multiplier is `2.0` on a crit, `0.0` on a miss and `1.0` otherwise. -/
def Dude.GetDamage (w : World) (r : Rolls) (d : Dude) : Dude × Int × Bool :=
  let stats := d.GetCalculatedStats w
  if r.critRoll then (d.AddXP w 1, stats.strength * 2, true)
  else if r.missRoll then (d, stats.strength * 0, false)
  else (d, stats.strength * 1, false)

/-- The method `Dude.ApplyDamage(amount)`: the unit afterwards, the amount taken and
whether the attack was dodged. -/
def Dude.ApplyDamage (w : World) (r : Rolls) (d : Dude) (amount : Int) : Dude × Int × Bool :=
  let (d0, dead) := d.IsDead
  if dead then (d0, 0, false)
  else
    let stats := d0.GetCalculatedStats w
    if r.dodgeRoll then (d0.AddXP w 1, 0, true)
    else
      let amount := w.ApplyDefense stats amount
      let d1 : Dude :=
        { d0 with stats := { d0.stats with currentHp := d0.stats.currentHp - amount } }
      let d2 : Dude :=
        if d1.stats.currentHp ≤ 0 then
          if d1.invincible then
            { d1 with stats := { d1.stats with currentHp := d1.stats.totalHp } }
          else { d1 with stats := { d1.stats with currentHp := 0 } }
        else d1
      let d3 : Dude := if d2.stats.currentHp = 0 then d2.SetActivity DudeActivity.Ded else d2
      ({ d3 with dirtyStats := true }, amount, false)

/-- The method `Dude.UpdateGold(amount)`. -/
def Dude.UpdateGold (d : Dude) (amount : Int) : Dude :=
  let d1 := { d with gold := d.gold + amount }
  if d1.gold < 0 then { d1 with gold := 0 } else d1

/-- The method `Dude.CanEquip(eq)`. -/
def Dude.CanEquip (d : Dude) (eq : Equipment) : Bool :=
  let equippable := decide (eq.professions.length = 0)
  if !equippable then
    if eq.professions.any (fun p => p == d.profession) then true else false
  else false

/-- The method `Dude.ShouldEquip(eq)`. -/
def Dude.ShouldEquip (w : World) (d : Dude) (eq : Equipment) : Bool :=
  let equippable :=
    decide (eq.professions.length = 0) || eq.professions.any (fun p => p == d.profession)
  match d.equipped.get eq.equipmentType with
  | none => equippable
  | some equipped =>
    let newItemBetter := decide (w.LevelWithQuality eq > w.LevelWithQuality equipped)
    match equipped.perk, eq.perk with
    | none, _ => equippable && newItemBetter
    | some _, none => false
    | some ep, some np =>
      let newItemPerkBetter := np.Name == ep.Name && decide (np.Quality ≥ ep.Quality)
      equippable && newItemPerkBetter && newItemBetter

/-- The loop at the head of `Dude.Trigger`: every equipped item gets
`Activate(e)`. -/
def Dude.activateEquipped (w : World) (d : Dude) (e : Event) : Dude :=
  { d with equipped := d.equipped.mapItems (fun eq => eq.Activate w e) }

/-- The method `Dude.Trigger(e)` for the events whose handling makes no further call of
`Trigger`, that is every event but `EventCombatRoom` (which `Dude.Trigger`
below handles; it is the only event that triggers other events, and those are
all handled here). -/
def Dude.TriggerLeaf (w : World) (d : Dude) (e : Event) : Outcome :=
  let d0 := d.activateEquipped w e
  match e with
  | Event.DudeHit _ =>
    let (d1, dead) := d0.IsDead
    if dead then { dude := d1, activity := some Activity.DudeDead } else { dude := d1 }
  | Event.EnterRoom =>
    let (d1, act) := w.GetRoomEffect d0.room d0 e
    { dude := d1, activity := act, calls := [Call.GetRoomEffect e] }
  | Event.CenterRoom =>
    let (d1, act) := w.GetRoomEffect d0.room d0 e
    { dude := d1, activity := act, calls := [Call.GetRoomEffect e] }
  | Event.LeaveRoom =>
    let (d1, act) := w.GetRoomEffect d0.room d0 e
    { dude := d1, activity := act, calls := [Call.GetRoomEffect e] }
  | Event.Equip _ => { dude := d0 }
  | Event.Unequip _ => { dude := { d0 with dirtyEquipment := true } }
  | Event.GoldGain amount => { dude := d0.UpdateGold amount }
  | Event.GoldLoss amount => { dude := d0.UpdateGold amount }
  | _ => { dude := d0 }

/-- The method `Dude.Unequip(t)`: the unit afterwards and the item taken off. -/
def Dude.Unequip (w : World) (d : Dude) (t : EquipmentType) : Dude × Option Equipment :=
  match d.equipped.get t with
  | some e =>
    let d1 := (d.TriggerLeaf w (Event.Unequip e)).dude
    let e1 := d1.equipped.get t
    ({ d1 with equipped := d1.equipped.set t none, dirtyEquipment := true }, e1)
  | none => (d, none)

/-- The method `Dude.Equip(eq)`: the unit afterwards and the item that was replaced. The
item is stored in the slot before `EventEquip` is triggered, so its own perk
is activated there as well. -/
def Dude.Equip (w : World) (d : Dude) (eq : Equipment) : Dude × Option Equipment :=
  let (d1, e) := d.Unequip w eq.equipmentType
  let d2 : Dude :=
    match e with
    | some old => (d1.TriggerLeaf w (Event.Unequip old)).dude
    | none => d1
  let d3 : Dude := { d2 with equipped := d2.equipped.set eq.equipmentType (some eq) }
  let d4 : Dude := (d3.TriggerLeaf w (Event.Equip eq)).dude
  let d5 : Dude := { d4 with inventory := d4.inventory.eraseP (fun x => x.id == eq.id) }
  ({ d5 with dirtyEquipment := true }, e)

/-- The method `Dude.AddToInventory(eq)`. -/
def Dude.AddToInventory (w : World) (d : Dude) (eq : Equipment) : Dude :=
  let d1 : Dude := { d with inventory := d.inventory ++ [eq] }
  let shouldEquip := d1.ShouldEquip w eq
  let hasProfession :=
    if eq.professions.length = 0 then true
    else eq.professions.any (fun p => p == d1.profession)
  let shouldEquip := shouldEquip && hasProfession
  if shouldEquip then (d1.Equip w eq).1 else d1

/-- The attack roll inside the `EventCombatRoom` case of `Dude.Trigger`: the
lines from `damage, isCrit := d.GetDamage()` up to the call of
`d.enemy.Damage`. It returns the unit after the roll and after the
`EventDudeMiss` or `EventDudeCrit` it triggers, together with `damage`. -/
def Dude.rollAttack (w : World) (r : Rolls) (d : Dude) : Dude × Int :=
  let (d2, damage, isCrit) := d.GetDamage w r
  if damage = 0 then ((d2.TriggerLeaf w Event.DudeMiss).dude, damage)
  else if isCrit then ((d2.TriggerLeaf w (Event.DudeCrit damage)).dude, damage)
  else (d2, damage)

/-- The method `Dude.Trigger(e)`. In the `EventCombatRoom` case the rolled `damage` is used
by the source for its messages only. -/
def Dude.Trigger (w : World) (r : Rolls) (d : Dude) (e : Event) : Outcome :=
  match e with
  | Event.CombatRoom =>
    let d0 := d.activateEquipped w e
    let (d1, dead) := d0.IsDead
    if dead then { dude := d1 }
    else
      match d1.enemy with
      | none =>
        let (d2, act) := w.GetRoomEffect d1.room d1 e
        { dude := d2, activity := act, calls := [Call.GetRoomEffect e] }
      | some enemy =>
        let (d3, _damage) := d1.rollAttack w r
        let (enemy1, enemyKilled) := w.Damage enemy d3.stats.strength
        let d4 : Dude := { d3 with enemy := some enemy1 }
        if enemyKilled then
          let xp := w.XP enemy1
          let gold := w.Gold enemy1
          let d5 : Dude := (d4.TriggerLeaf w (Event.GoldGain gold)).dude
          let d6 : Dude := d5.AddXP w xp
          let (d7, lootCalls) : Dude × List Call :=
            match d6.room with
            | some room =>
              let luck := (d6.GetCalculatedStats w).luck
              match w.RollLoot room luck with
              | some loot => (d6.AddToInventory w loot, [Call.RollLoot luck])
              | none => (d6, [Call.RollLoot luck])
            | none => (d6, [])
          let d8 : Dude := { d7 with enemy := none }
          let (d9, act) := w.GetRoomEffect d8.room d8 e
          { dude := d9, activity := act,
            calls := [Call.Damage d3.stats.strength] ++ lootCalls ++ [Call.GetRoomEffect e] }
        else
          let (d5, takenDamage, isDodge) := d4.ApplyDamage w r (w.Hit enemy1)
          let hit : Outcome :=
            if !isDodge then d5.TriggerLeaf w (Event.DudeHit takenDamage)
            else d5.TriggerLeaf w Event.DudeDodge
          if !isDodge ∧ hit.activity.isSome then
            { dude := hit.dude, activity := hit.activity,
              calls := [Call.Damage d3.stats.strength, Call.Hit] }
          else
            let (d6, dead1) := hit.dude.IsDead
            if dead1 then
              { dude := { d6 with enemy := none }, activity := some Activity.DudeDead,
                calls := [Call.Damage d3.stats.strength, Call.Hit] }
            else
              let (d7, act) := w.GetRoomEffect d6.room d6 e
              { dude := d7, activity := act,
                calls := [Call.Damage d3.stats.strength, Call.Hit, Call.GetRoomEffect e] }
  | _ => d.TriggerLeaf w e

/-- The gold-loss branch of `Dude.Cursify(roomLevel)`, entered when
`curseRoll <= threshold*0.75`: the event is triggered and a negative gold is
set to 0. -/
def Dude.cursifyGoldLoss (w : World) (r : Rolls) (d : Dude) (roomLevel : Int) : Dude :=
  let goldLoss := roomLevel * 5
  let d1 : Dude := (d.Trigger w r (Event.GoldLoss goldLoss)).dude
  if d1.gold < 0 then { d1 with gold := 0 } else d1

/-- The method `Equipment.Activate(event)` with its calls of `perk.Check`
recorded: the equipment afterwards, and the events `Check` was called with. -/
def Equipment.ActivateTraced (w : World) (e : Equipment) (event : Event) :
    Equipment × List Event :=
  match e.perk with
  | none => (e, [])
  | some perk =>
    if e.uses = 0 then (e, [])
    else
      let activated := w.Check perk event
      if !activated then (e, [event])
      else
        let e1 := { e with uses := e.uses - 1 }
        if e1.uses < 0 then ({ e1 with uses := 0 }, [event]) else (e1, [event])

/-- The method `Dude.Heal(amount)`: the unit afterwards and the amount healed.
The division in `(stats.wisdom / 10) + 1` is Go's integer division, which
truncates toward zero. -/
def Dude.Heal (w : World) (d : Dude) (amount : Int) : Dude × Int :=
  let (d0, dead) := d.IsDead
  if dead then (d0, 0)
  else
    let initialHP := d0.stats.currentHp
    let stats := d0.GetCalculatedStats w
    let amount1 := amount * (Int.tdiv stats.wisdom 10 + 1)
    let d1 : Dude :=
      { d0 with stats := { d0.stats with currentHp := d0.stats.currentHp + amount1 } }
    let d2 : Dude :=
      if d1.stats.currentHp > stats.totalHp then
        { d1 with stats := { d1.stats with currentHp := stats.totalHp } }
      else d1
    let amount2 := d2.stats.currentHp - initialHP
    let d3 : Dude :=
      if amount2 > 0 ∧ d2.story.isSome then { d2 with dirtyStats := true } else d2
    (d3, amount2)

/-- The method `Dude.FullHeal()`. -/
def Dude.FullHeal (w : World) (d : Dude) : Dude :=
  let stats := d.GetCalculatedStats w
  let (d0, dead) := d.IsDead
  if !dead then { (d0.Heal w stats.totalHp).1 with dirtyStats := true } else d0

/-- The body of the `if enemyKilled` branch in the `EventCombatRoom` case of
`Dude.Trigger`, restated on its own for the unit `d` whose enemy, after
`Damage`, is `enemy1`: gold gain, XP, loot roll and clearing of the enemy
reference. It returns the unit and the calls made to the room in that branch.
`Trigger_killed_eq` shows that `Dude.Trigger` runs exactly this. -/
def Dude.killedBranch (w : World) (d : Dude) (enemy1 : Enemy) : Dude × List Call :=
  let d4 : Dude := { d with enemy := some enemy1 }
  let xp := w.XP enemy1
  let gold := w.Gold enemy1
  let d5 : Dude := (d4.TriggerLeaf w (Event.GoldGain gold)).dude
  let d6 : Dude := d5.AddXP w xp
  let (d7, lootCalls) : Dude × List Call :=
    match d6.room with
    | some room =>
      let luck := (d6.GetCalculatedStats w).luck
      match w.RollLoot room luck with
      | some loot => (d6.AddToInventory w loot, [Call.RollLoot luck])
      | none => (d6, [Call.RollLoot luck])
    | none => (d6, [])
  ({ d7 with enemy := none }, lootCalls)

/-- Modelled from the spec: the catalog entry that `assets.LoadEquipment(name)`
returns (the assets package is not among the sources), with the fields
`NewEquipment` reads (`Type_` is its field `Type`). `Stats` holds the values of the keys "totalHp",
"strength", "wisdom", "defense", "agility", "cowardice" and "luck". -/
structure BaseEquipment where
  Name : String := ""
  Description : String := ""
  Type_ : EquipmentType := EquipmentType.Weapon
  Professions : List ProfessionKind := []
  Perk : String := ""
  Stats : Stats := {}
deriving DecidableEq

/-- The function `NewEquipment(name, level, quality, perk)`. `base` is what
`assets.LoadEquipment(name)` returned (`none` for an error, on which the
function returns `nil`), `id` the identity of the new object and
`healOnRoomEnter` the value `PerkHealOnRoomEnter{PerkQualityCommon}`. -/
def NewEquipment (id : Nat) (base : Option BaseEquipment) (healOnRoomEnter : Perk)
    (level : Int) (quality : Int) (perk : Option Perk) : Option Equipment :=
  match base with
  | none => none
  | some baseEquipment =>
    let perk1 : Option Perk :=
      match perk with
      | some p => some p
      | none => if baseEquipment.Perk = "Heal On Room Enter" then some healOnRoomEnter else none
    some
      { id := id,
        name := baseEquipment.Name,
        level := level,
        quality := quality,
        uses := quality + 1,
        totalUses := quality + 1,
        description := baseEquipment.Description,
        equipmentType := baseEquipment.Type_,
        professions := baseEquipment.Professions,
        perk := perk1,
        stats := some
          { totalHp := baseEquipment.Stats.totalHp,
            strength := baseEquipment.Stats.strength,
            wisdom := baseEquipment.Stats.wisdom,
            defense := baseEquipment.Stats.defense,
            agility := baseEquipment.Stats.agility,
            cowardice := baseEquipment.Stats.cowardice,
            luck := baseEquipment.Stats.luck } }

/-- The closure `logisticScaling` of `Dude.GetDamage`, with `luckScaling = 0.1`,
over the real numbers. -/
noncomputable def logisticScaling (x : ℝ) (max : ℝ) : ℝ :=
  max / (1 + Real.exp (-0.1 * (x - 50)))

/-- The value `critChance` of `Dude.GetDamage` as a function of the luck, over
the real numbers: `baseCritChance + logisticScaling(luck, maxCritChance-baseCritChance)`. -/
noncomputable def critChance (luck : ℝ) : ℝ :=
  0.05 + logisticScaling luck (0.25 - 0.05)

/-- The value `missChance` of `Dude.GetDamage` as a function of the luck, over
the real numbers. -/
noncomputable def missChance (luck : ℝ) : ℝ :=
  let missChanceReduction := logisticScaling luck (0.1 - 0.01)
  max (0.1 - missChanceReduction) 0.01

/-- The method `Dude.Speed()`, with float64 arithmetic taken as exact rational
arithmetic. `stats.agility/10` is a division of two Go `int`s, which truncates,
and only its result is converted to float64. -/
def Dude.Speed (w : World) (d : Dude) : ℚ :=
  let speedScale : ℚ := 1 / 10
  let baseSpeed : ℚ := 1 / 100
  if d.enemy.isSome then baseSpeed * (1 + speedScale)
  else
    let stats := d.GetCalculatedStats w
    baseSpeed * (1 + ((Int.tdiv stats.agility 10 : Int) : ℚ) * speedScale)

/-- The loop `cumulativeWeights[i] = cumulativeWeights[i-1] + weights[i]` of
`WeightedRandomProfessionKind`, from the element after `acc` on. -/
def runningSums (acc : ℚ) : List ℚ → List ℚ
  | [] => []
  | w :: ws => (acc + w) :: runningSums (acc + w) ws

/-- The function `WeightedRandomProfessionKind(dudes)`, with `r` the draw
`rand.Float64()` and float64 arithmetic taken as exact rational arithmetic. -/
def WeightedRandomProfessionKind (dudes : List Dude) (r : ℚ) : ProfessionKind :=
  let professionCount : ProfessionKind → Int :=
    dudes.foldl (fun m d => Function.update m d.profession (m d.profession + 1)) (fun _ => 0)
  let professions : List ProfessionKind :=
    [ProfessionKind.Vagabond, ProfessionKind.Knight, ProfessionKind.Cleric,
     ProfessionKind.Ranger]
  let weights : List ℚ :=
    professions.map (fun profession =>
      let count := professionCount profession
      if count = 0 then 1 else 1 / ((count * count : Int) : ℚ))
  let cumulativeWeights : List ℚ :=
    match weights with
    | [] => []
    | w0 :: rest => w0 :: runningSums w0 rest
  let randomValue : ℚ := r * cumulativeWeights.getLastD 0
  match (professions.zip cumulativeWeights).find? (fun pc => decide (randomValue < pc.2)) with
  | some pc => pc.1
  | none => ProfessionKind.Vagabond

/-! ## dude.go: curses and traps -/

/-- The four sub-effects of `Dude.Cursify`, in the order of the source. -/
inductive CurseEffect where
  | GoldLoss
  | EquipmentDelevel
  | PerkDelevel
  | DudeDelevel
deriving DecidableEq

/-- The random draws of one call of `Dude.Cursify`: `rand.Intn(wis) + 1`,
`rand.Intn(luck) + 1`, `rand.Float64()`, `RandomEquipmentType()` and the pick
among the equipment with perks (`rand.Intn` over a map walked in random
order). -/
structure CurseRolls where
  wisdomRoll : Int := 1
  luckRoll : Int := 1
  curseRoll : ℚ := 0
  equipmentType : EquipmentType := EquipmentType.Weapon
  perkPick : Nat := 0
deriving DecidableEq

/-- The value `threshold := 1.0 - math.Log10(float64(highestRoll+1))` of
`Dude.Cursify`, with `highestRoll := max(wisdomRoll, luckRoll)`. The function
`log10` stands for `math.Log10` on integers; float arithmetic is exact
rational arithmetic here. -/
def curseThreshold (log10 : Int → ℚ) (cr : CurseRolls) : ℚ :=
  1 - log10 (max cr.wisdomRoll cr.luckRoll + 1)

/-- The equipment-delevel branch of `Dude.Cursify`, entered when
`curseRoll <= threshold*0.5`. -/
def Dude.cursifyEquipment (d : Dude) (equipmentType : EquipmentType) : Dude :=
  let d1 : Dude :=
    match d.equipped.get equipmentType with
    | some eq => { d with equipped := d.equipped.set equipmentType (some eq.LevelDown) }
    | none => d
  { d1 with dirtyEquipment := true, dirtyStats := true }

/-- The slots that hold an equipment with a perk, as collected by the perk
branch of `Dude.Cursify`. -/
def Dude.equipmentWithPerks (d : Dude) : List EquipmentType :=
  [EquipmentType.Weapon, EquipmentType.Armor, EquipmentType.Accessory].filter
    (fun t => match d.equipped.get t with
      | some eq => eq.perk.isSome
      | none => false)

/-- The perk-delevel branch of `Dude.Cursify`, entered when
`curseRoll <= threshold*0.25`. The pick is `perkPick` modulo the number of
candidates, as `rand.Intn(len(equipmentWithPerks))` stays below that number. -/
def Dude.cursifyPerk (w : World) (d : Dude) (perkPick : Nat) : Dude :=
  let equipmentWithPerks := d.equipmentWithPerks
  let d1 : Dude :=
    if equipmentWithPerks.length > 0 then
      match equipmentWithPerks.get? (perkPick % equipmentWithPerks.length) with
      | some randomEquipType =>
        match d.equipped.get randomEquipType with
        | some eq =>
          { d with equipped :=
              d.equipped.set randomEquipType (some { eq with perk := eq.perk.map w.PerkLevelDown }) }
        | none => d
      | none => d
    else d
  { d1 with dirtyEquipment := true, dirtyStats := true }

/-- The unit-delevel branch of `Dude.Cursify`, entered when
`curseRoll <= threshold*0.1`. -/
def Dude.cursifyLevel (w : World) (d : Dude) : Dude :=
  { d with stats := w.LevelDown d.stats, dirtyStats := true }

/-- The method `Dude.Cursify(roomLevel)`: the unit afterwards and the
sub-effects whose branch ran, in order. The calculated wisdom and luck only
bound the draws `wisdomRoll` and `luckRoll`, which are inputs here; floating
text and messages are left out. -/
def Dude.Cursify (w : World) (log10 : Int → ℚ) (r : Rolls) (cr : CurseRolls) (d : Dude)
    (roomLevel : Int) : Dude × List CurseEffect :=
  let threshold := curseThreshold log10 cr
  let curseRoll := cr.curseRoll
  if curseRoll > threshold then (d, [])
  else
    let s1 : Dude × List CurseEffect :=
      if curseRoll ≤ threshold * (3 / 4) then
        (d.cursifyGoldLoss w r roomLevel, [CurseEffect.GoldLoss])
      else (d, [])
    let s2 : Dude × List CurseEffect :=
      if curseRoll ≤ threshold * (1 / 2) then
        (s1.1.cursifyEquipment cr.equipmentType, s1.2 ++ [CurseEffect.EquipmentDelevel])
      else s1
    let s3 : Dude × List CurseEffect :=
      if curseRoll ≤ threshold * (1 / 4) then
        (s2.1.cursifyPerk w cr.perkPick, s2.2 ++ [CurseEffect.PerkDelevel])
      else s2
    if curseRoll ≤ threshold * (1 / 10) then
      (s3.1.cursifyLevel w, s3.2 ++ [CurseEffect.DudeDelevel])
    else s3

/-- The random draws of one call of `Dude.TrapDamage`:
`rand.Intn(d.stats.agility + 1)` and `rand.Float64()`. -/
structure TrapRolls where
  agilityRoll : Int := 0
  trapRoll : ℚ := 0
deriving DecidableEq

/-- The result of `Dude.TrapDamage`: the unit afterwards, the returned activity
(`none` for `nil`) and the amounts `ApplyDamage` was called with. -/
structure TrapOutcome where
  dude : Dude
  activity : Option Activity := none
  damage : List Int := []
deriving DecidableEq

/-- The value `threshold := 1.0 - math.Log10(float64(agilityRoll+1))` of
`Dude.TrapDamage`. -/
def trapThreshold (log10 : Int → ℚ) (agilityRoll : Int) : ℚ :=
  1 - log10 (agilityRoll + 1)

/-- The method `Dude.TrapDamage(roomLevel)`. The result is `none` where
`rand.Intn(d.stats.agility + 1)` panics, which is for `agility + 1 ≤ 0`. -/
def Dude.TrapDamage (w : World) (log10 : Int → ℚ) (r : Rolls) (tr : TrapRolls) (d : Dude)
    (roomLevel : Int) : Option TrapOutcome :=
  let (d0, dead) := d.IsDead
  if dead then
    some { dude := d0.SetActivity DudeActivity.Ded, activity := some Activity.DudeDead }
  else if d0.stats.agility + 1 ≤ 0 then none
  else
    let threshold := trapThreshold log10 tr.agilityRoll
    if tr.trapRoll > threshold then some { dude := d0 }
    else
      let damage := (roomLevel + 1) * 3
      let (d1, _, miss) := d0.ApplyDamage w r damage
      let d2 : Dude := if !miss then { d1 with dirtyStats := true } else d1
      let (d3, dead3) := d2.IsDead
      if dead3 then
        some { dude := d3.SetActivity DudeActivity.Ded, activity := some Activity.DudeDead,
               damage := [damage] }
      else some { dude := d3, damage := [damage] }

/-! ## dude.go: the per-tick update -/

/-- The requests `Dude.Update` adds to `ActivityRequests`, without their
payload (position, facing, callback). -/
inductive Request where
  | Move
  | StoryEnterNext
  | TowerLeave
deriving DecidableEq

/-- What one call of `Dude.Update` reads from the story geometry and the
animation: the outcome of the comparisons `distance < 50+d.variation`,
`distance >= RoomPath+d.variation` and
`distance < PortalDistance-4+d.variation`, and the value of
`d.stack.SliceCount()`. -/
structure TickInput where
  nearCenter : Bool := false
  onPath : Bool := false
  atPortal : Bool := false
  sliceCount : Int := 0
deriving DecidableEq

/-- The method `Dude.Update(story, req)`: the unit and its stack afterwards and
the requests added, in order. `d.timer / 2` is Go's integer division. Left
out: `trueRotation`, the shadow, and the closing `d.stack.Update()` and
`eq.Update()`, which only advance animation frames. -/
def Dude.Update (w : World) (i : TickInput) (d : Dude) (s : Stack) :
    Dude × Stack × List Request :=
  let step : Dude × Stack × List Request :=
    match d.activity with
    | DudeActivity.Idle => (d, s, [])
    | DudeActivity.Ded => (d, s, [])
    | DudeActivity.BornAgain => (d.SetActivity DudeActivity.Moving, s, [])
    | DudeActivity.FirstEntering =>
      if i.nearCenter then
        (d.SetActivity DudeActivity.Centering, { s with HeightOffset := 0 }, [])
      else (d, s, [Request.Move])
    | DudeActivity.StairsToUp =>
      let d1 : Dude := { d with timer := d.timer + 1 }
      if d1.timer < 40 then
        (d1, { s with VgroupOffset := Int.tdiv d1.timer 2 }, [Request.Move])
      else
        (d1.SetActivity DudeActivity.StairsFromDown, { s with VgroupOffset := 0 },
          [Request.StoryEnterNext])
    | DudeActivity.StairsFromDown =>
      let d1 : Dude := { d with timer := d.timer + 1 }
      let s1 : Stack :=
        if s.SliceOffset = 0 then { s with SliceOffset := i.sliceCount, MaxSliceIndex := 1 }
        else s
      let d2 : Dude := if d1.timer ≥ 2 then { d1 with timer := 0 } else d1
      let s2 : Stack :=
        if d1.timer ≥ 2 then
          { s1 with SliceOffset := s1.SliceOffset - 1, MaxSliceIndex := s1.MaxSliceIndex + 1 }
        else s1
      if s2.SliceOffset ≤ 0 then
        (d2.SetActivity DudeActivity.Moving, { s2 with SliceOffset := 0, MaxSliceIndex := 0 },
          [Request.Move])
      else (d2, s2, [Request.Move])
    | DudeActivity.GoingUp =>
      let d1 : Dude := { d with timer := d.timer + 1 }
      let s1 : Stack :=
        if s.SliceOffset = 0 then { s with SliceOffset := i.sliceCount, MaxSliceIndex := 1 }
        else s
      let req : List Request := if s.SliceOffset = 0 then [Request.Move] else []
      let d2 : Dude := if d1.timer ≥ 15 then { d1 with timer := 0 } else d1
      let s2 : Stack :=
        if d1.timer ≥ 15 then
          { s1 with SliceOffset := s1.SliceOffset - 1, MaxSliceIndex := s1.MaxSliceIndex + 1 }
        else s1
      if s2.SliceOffset ≤ 0 then
        (d2.SetActivity DudeActivity.Centering, { s2 with SliceOffset := 0, MaxSliceIndex := 0 },
          req)
      else (d2, s2, req)
    | DudeActivity.Centering =>
      if i.onPath then (d.SetActivity DudeActivity.Moving, s, [])
      else (d, s, [Request.Move])
    | DudeActivity.Moving => (d, s, [Request.Move])
    | DudeActivity.Leaving => (d, s, [])
    | DudeActivity.GoingDown => (d, s, [])
    | DudeActivity.EnterPortal =>
      let d1 : Dude := { d with timer := d.timer + 1 }
      if d1.timer ≥ 30 then
        let s1 : Stack := { s with Transparency := ((d1.timer - 30 : Int) : ℚ) / 20 }
        if i.atPortal then
          let s2 : Stack := { s1 with Transparency := 1 }
          let d2 : Dude := d1.SetActivity DudeActivity.Idle
          let (d3, dead) := d2.IsDead
          if !dead then (d3, s2, [Request.TowerLeave]) else (d3, s2, [])
        else (d1, s1, [Request.Move])
      else (d1, s, [])
    | DudeActivity.Waiting => (d, s, [])
    | DudeActivity.FightBoss => (d, s, [])
  match step.1.enemy with
  | some enemy =>
    let after := w.EnemyUpdate enemy step.1 step.2.1
    (after.1, after.2, step.2.2)
  | none => step

/-! ## dude.go: sorting the roster -/

/-- The string value of a `ProfessionKind` constant (`profession.go`), which is
what `<` compares. -/
def ProfessionKind.value : ProfessionKind → String
  | ProfessionKind.Vagabond => "vagabond"
  | ProfessionKind.Knight => "knight"
  | ProfessionKind.Cleric => "cleric"
  | ProfessionKind.Ranger => "ranger"

/-- The type `SortProperty` with the three constants `SortDudes` switches on;
its declaration is not in the sources. `Other` stands for any other value,
which takes the `default` case. -/
inductive SortProperty where
  | Name
  | Profession
  | Level
  | Other
deriving DecidableEq

/-- The call `data.Swap(i, j)` on a slice. -/
def swapAt (xs : List Dude) (i j : Nat) : List Dude :=
  match xs.get? i, xs.get? j with
  | some a, some b => (xs.set i b).set j a
  | _, _ => xs

/-- The inner loop of Go's `insertionSort`:
`for j := i; j > 0 && less(j, j-1); j-- { swap(j, j-1) }`. -/
def insertionLoop (less : Nat → Nat → Bool) : Nat → List Dude → List Dude
  | 0, xs => xs
  | j + 1, xs => if less (j + 1) j then insertionLoop less j (swapAt xs (j + 1) j) else xs

/-- The library call `sort.SliceStable(d, less)` for a slice of at most 20
elements, where it is one insertion sort: `for i := 1; i < n; i++` around the
inner loop. The result is `none` for longer slices, where the library goes on
to merge sorted blocks of 20; that part is not covered. -/
def sliceStable (less : Nat → Nat → Bool) (d : List Dude) : Option (List Dude) :=
  if d.length ≤ 20 then
    some ((List.range' 1 (d.length - 1)).foldl (fun acc i => insertionLoop less i acc) d)
  else none

/-- The function `SortDudes(sp, dudes)`. The three comparison closures index
the parameter `dudes`, as in the source, while `sort.SliceStable` permutes the
copy `d`. An index out of range makes the comparison false here; the sort only
asks for indices below the length. -/
def SortDudes (w : World) (sp : SortProperty) (dudes : List Dude) : Option (List Dude) :=
  if dudes.length ≤ 1 then some dudes
  else
    let nameSort : Nat → Nat → Bool := fun i j =>
      match dudes.get? i, dudes.get? j with
      | some a, some b => decide (a.name < b.name)
      | _, _ => false
    let professionSort : Nat → Nat → Bool := fun i j =>
      match dudes.get? i, dudes.get? j with
      | some a, some b =>
        if a.profession = b.profession then nameSort i j
        else decide (a.profession.value < b.profession.value)
      | _, _ => false
    let levelSort : Nat → Nat → Bool := fun i j =>
      match dudes.get? i, dudes.get? j with
      | some a, some b =>
        if (a.GetCalculatedStats w).level = (b.GetCalculatedStats w).level then nameSort i j
        else decide ((a.GetCalculatedStats w).level < (b.GetCalculatedStats w).level)
      | _, _ => false
    let sortMethod : Nat → Nat → Bool :=
      match sp with
      | SortProperty.Profession => professionSort
      | SortProperty.Level => levelSort
      | SortProperty.Name => nameSort
      | SortProperty.Other => nameSort
    let d := dudes
    sliceStable sortMethod d

/-! ## The reading of the specification -/

/-- The reading of the specification for `|delta| > 1`: the single step
`ChangeQuality(sign(delta))` applied `|delta|` times in sequence. -/
def Equipment.ChangeQualityStepwise (e : Equipment) (delta : Int) : Equipment :=
  Nat.iterate (fun x => Equipment.ChangeQuality x delta.sign) delta.natAbs e

/-! ## Sample inputs -/

/-- A sample world for evaluating the definitions on concrete inputs:
`Stats.Add` sums every field and `NewStats(nil, false)` is the zero record
(the specification's "all fields summed"); defense takes its value off a hit
down to a floor of 1; no perk ever triggers; an enemy dies when its hit points
reach 0; rooms hold no loot and have no effect; a perk loses one quality step
when levelled down; the update of an enemy leaves the unit alone. -/
def sampleWorld : World where
  NewStats := {}
  Add := fun a b =>
    { level := a.level + b.level, totalHp := a.totalHp + b.totalHp,
      currentHp := a.currentHp + b.currentHp, strength := a.strength + b.strength,
      wisdom := a.wisdom + b.wisdom, defense := a.defense + b.defense,
      agility := a.agility + b.agility, cowardice := a.cowardice + b.cowardice,
      luck := a.luck + b.luck }
  ApplyDefense := fun s amount => max (amount - s.defense) 1
  LevelUp := fun s _ => { s with level := s.level + 1 }
  LevelDown := fun s => { s with level := s.level - 1 }
  Check := fun _ _ => false
  LevelWithQuality := fun e => e.level + 5 * e.quality
  Damage := fun en amount =>
    ({ en with stats := { en.stats with currentHp := en.stats.currentHp - amount } },
      decide (en.stats.currentHp - amount ≤ 0))
  Hit := fun en => en.stats.strength
  XP := fun en => en.xp
  Gold := fun en => en.gold
  RollLoot := fun _ _ => none
  GetRoomEffect := fun _ d _ => (d, none)
  PerkLevelDown := fun p => { p with Quality := p.Quality - 1 }
  EnemyUpdate := fun _ d s => (d, s)

/-- A Common sword with a stat template, as `NewEquipment` creates it. -/
def commonSword : Equipment :=
  { id := 1, name := "Sword", level := 0, quality := EquipmentQualityCommon, uses := 1,
    totalUses := 1, equipmentType := EquipmentType.Weapon,
    stats := some { strength := 2 } }

/-- A Legendary blade that has spent three of its five uses, one level below
the threshold. -/
def legendaryBlade : Equipment :=
  { id := 2, name := "Blade", level := 4, quality := EquipmentQualityLegendary, uses := 2,
    totalUses := 5, equipmentType := EquipmentType.Weapon,
    stats := some { strength := 4 } }

/-- An Epic staff with two of its four uses left. -/
def epicStaff : Equipment :=
  { id := 3, name := "Staff", level := 2, quality := EquipmentQualityEpic, uses := 2,
    totalUses := 4, equipmentType := EquipmentType.Weapon,
    stats := some { wisdom := 3 } }

/-- A Legendary amulet with three of its five uses left. -/
def legendaryAmulet : Equipment :=
  { id := 4, name := "Amulet", level := 1, quality := EquipmentQualityLegendary, uses := 3,
    totalUses := 5, equipmentType := EquipmentType.Accessory,
    stats := some { luck := 2 } }

/-- A ring whose stat template carries luck, at quality Common and level 0,
open to every profession. -/
def luckyRing : Equipment :=
  { id := 5, name := "Ring", level := 0, quality := EquipmentQualityCommon, uses := 1,
    totalUses := 1, equipmentType := EquipmentType.Accessory,
    stats := some { totalHp := 1, strength := 2, wisdom := 1, defense := 1, agility := 1,
                    cowardice := 1, luck := 3 },
    professions := [] }

/-- An Uncommon level-2 sword restricted to knights. -/
def fineSword : Equipment :=
  { id := 6, name := "Sword", level := 2, quality := EquipmentQualityUncommon, uses := 2,
    totalUses := 2, equipmentType := EquipmentType.Weapon,
    stats := some { strength := 2 }, professions := [ProfessionKind.Knight] }

/-- A level-1 knight without equipment, walking a room with a rat in it. -/
def fightingKnight : Dude :=
  { name := "Ser Test", profession := ProfessionKind.Knight, gold := 10,
    stats := { level := 1, totalHp := 7, currentHp := 7, strength := 2, wisdom := 1,
               defense := 3, agility := 1, cowardice := 5 },
    activity := DudeActivity.Moving,
    enemy := some { name := "Rat", stats := { totalHp := 9, currentHp := 9, strength := 1 },
                    xp := 3, gold := 2 } }

/-- The knight with the Common sword in the weapon slot. -/
def armedKnight : Dude :=
  { fightingKnight with equipped := { weapon := some commonSword } }

/-- An invincible unit lying at 0 hit points in activity `Ded`. -/
def invincibleFallen : Dude :=
  { name := "Immortal", invincible := true, profession := ProfessionKind.Cleric,
    stats := { level := 1, totalHp := 5, currentHp := 0, strength := 1, wisdom := 3,
               defense := 1, agility := 2, cowardice := 1 },
    activity := DudeActivity.Ded, timer := 12, xp := 4 }

/-- A unit that is not invincible, at 0 hit points in activity `Ded`. -/
def fallenCleric : Dude :=
  { name := "Mortal", invincible := false, profession := ProfessionKind.Cleric,
    stats := { level := 1, totalHp := 5, currentHp := 0, strength := 1, wisdom := 3,
               defense := 1, agility := 2, cowardice := 1 },
    activity := DudeActivity.Ded, timer := 12, xp := 4 }

/-- The draws of an attack that misses: no crit, then a miss. -/
def missRolls : Rolls := { critRoll := false, missRoll := true }

/-- The draws of an attack that crits. -/
def critRolls : Rolls := { critRoll := true }

/-- The range condition under which `ChangeQuality` is studied: the quality
lies in Common..Legendary, `0 ≤ uses ≤ totalUses`, and `quality ≤ totalUses`
(`NewEquipment` sets `totalUses` to `quality + 1`). -/
def Equipment.InRange (e : Equipment) : Prop :=
  (EquipmentQualityCommon ≤ e.quality ∧ e.quality ≤ EquipmentQualityLegendary) ∧
  (0 ≤ e.uses ∧ e.uses ≤ e.totalUses) ∧ e.quality ≤ e.totalUses

/-- An Uncommon wand whose `uses` and `totalUses` are both 0. -/
def spentWand : Equipment :=
  { id := 7, name := "Wand", level := 0, quality := EquipmentQualityUncommon, uses := 0,
    totalUses := 0, equipmentType := EquipmentType.Weapon,
    stats := some { wisdom := 1 } }

/-- A world in which every perk triggers on every event; otherwise the sample
world. -/
def eagerWorld : World := { sampleWorld with Check := fun _ _ => true }

/-- A Rare charm carrying the perk "Heal On Room Enter", with two uses left. -/
def healingCharm : Equipment :=
  { id := 8, name := "Charm", level := 1, quality := EquipmentQualityRare, uses := 2,
    totalUses := 3, equipmentType := EquipmentType.Accessory,
    perk := some { Name := "Heal On Room Enter", Quality := 0 },
    stats := some { wisdom := 1 } }

/-- A Common level-0 plate armour whose template adds 3 to `totalHp`. -/
def plateArmor : Equipment :=
  { id := 9, name := "Plate", level := 0, quality := EquipmentQualityCommon, uses := 1,
    totalUses := 1, equipmentType := EquipmentType.Armor,
    stats := some { totalHp := 3, defense := 1 } }

/-- The knight at full hit points (7 of 7) wearing the plate armour. -/
def platedKnight : Dude :=
  { fightingKnight with equipped := { armor := some plateArmor }, enemy := none }

/-- The knight without equipment whose current hit points (10) exceed its
total (7), as after taking off an item that added hit points. -/
def overhealedKnight : Dude :=
  { fightingKnight with stats := { fightingKnight.stats with currentHp := 10 }, enemy := none }

/-- An invincible unit with `totalHp` 0 at 0 hit points, walking. -/
def invincibleHusk : Dude :=
  { name := "Husk", invincible := true, profession := ProfessionKind.Vagabond,
    stats := { level := 1, totalHp := 0, currentHp := 0, strength := 3, wisdom := 1,
               defense := 2, agility := 1, cowardice := 3 },
    activity := DudeActivity.Moving }

/-- An invincible knight with 2 of 7 hit points. -/
def invincibleKnight : Dude :=
  { fightingKnight with invincible := true,
                        stats := { fightingKnight.stats with currentHp := 2 } }

/-- The draws of a call in which the dodge roll succeeds. -/
def dodgeRolls : Rolls := { dodgeRoll := true }

/-- The knight facing a rat that is down to 2 hit points, which the knight's
strength of 2 kills. -/
def knightAtKill : Dude :=
  { fightingKnight with
    enemy := some { name := "Rat", stats := { totalHp := 9, currentHp := 2, strength := 1 },
                    xp := 3, gold := 2 } }

/-- An invincible knight at 0 hit points (not in activity `Ded`) facing the
rat that is down to 2 hit points. -/
def invincibleAtKill : Dude :=
  { knightAtKill with invincible := true,
                      stats := { knightAtKill.stats with currentHp := 0 } }

/-- The catalog entry of a bow for rangers. -/
def bowEntry : BaseEquipment :=
  { Name := "Bow", Description := "A bow", Type_ := EquipmentType.Weapon,
    Professions := [ProfessionKind.Ranger], Stats := { strength := 2, agility := 1 } }

/-- A ranger without equipment and without enemy, with agility 15. -/
def swiftRanger : Dude :=
  { name := "Swift", profession := ProfessionKind.Ranger,
    stats := { level := 3, totalHp := 5, currentHp := 5, strength := 2, wisdom := 1,
               defense := 1, agility := 15 },
    activity := DudeActivity.Moving }

/-- The number of units of profession `p` in a roster. -/
def countProfession (p : ProfessionKind) (dudes : List Dude) : Nat :=
  (dudes.filter (fun d => decide (d.profession = p))).length

/-- The reading of the specification: the weight of a profession that `count`
units have, 1 if there is none and `1/count²` otherwise. -/
def professionWeight (count : Nat) : ℚ :=
  if count = 0 then 1 else 1 / ((count : ℚ) ^ 2)

/-- The reading of the specification: the first profession in the order
Vagabond, Knight, Cleric, Ranger whose cumulative weight exceeds `r` times the
sum of the weights, for the per-profession counts `c`; `none` if there is no
such profession. -/
def firstExceeding (c : ProfessionKind → Nat) (r : ℚ) : Option ProfessionKind :=
  let wV := professionWeight (c ProfessionKind.Vagabond)
  let wK := professionWeight (c ProfessionKind.Knight)
  let wC := professionWeight (c ProfessionKind.Cleric)
  let wR := professionWeight (c ProfessionKind.Ranger)
  let target := r * (wV + wK + wC + wR)
  if target < wV then some ProfessionKind.Vagabond
  else if target < wV + wK then some ProfessionKind.Knight
  else if target < wV + wK + wC then some ProfessionKind.Cleric
  else if target < wV + wK + wC + wR then some ProfessionKind.Ranger
  else none

/-- A roster of three knights. -/
def threeKnights : List Dude :=
  [{ name := "Ann", profession := ProfessionKind.Knight },
   { name := "Bob", profession := ProfessionKind.Knight },
   { name := "Cyd", profession := ProfessionKind.Knight }]

/-- A stand-in for `math.Log10` on integers, used for closed examples: exact
at 1, 10 and 100, and linear in between and beyond. -/
def sampleLog10 (n : Int) : ℚ :=
  if n ≤ 1 then 0
  else if n ≤ 10 then ((n : ℚ) - 1) / 9
  else 1 + ((n : ℚ) - 10) / 90

/-- A curse that strikes fully: both rolls 1 and the float draw 0. -/
def fullCurse : CurseRolls := { wisdomRoll := 1, luckRoll := 1, curseRoll := 0 }

/-- Trap draws that hit: agility roll 0 and float draw 1/2. -/
def hitTrapRolls : TrapRolls := { agilityRoll := 0, trapRoll := 1 / 2 }

/-- Trap draws that spare: agility roll 1 and float draw 9/10. -/
def luckyTrapRolls : TrapRolls := { agilityRoll := 1, trapRoll := 9 / 10 }

/-- The unit, its stack and the requests of the last call after `n` successive
calls of `Dude.Update`, the `k`-th of which (counted from 0) reads `g k`. -/
def Dude.UpdateN (w : World) (g : Nat → TickInput) (d : Dude) (s : Stack) :
    Nat → Dude × Stack × List Request
  | 0 => (d, s, [])
  | n + 1 =>
    Dude.Update w (g n) (Dude.UpdateN w g d s n).1 (Dude.UpdateN w g d s n).2.1

/-- The identities of the items a unit holds: the equipped ones, then the
inventory. -/
def Dude.heldIds (d : Dude) : List Nat :=
  (d.equipped.values ++ d.inventory).map (fun e => e.id)

/-- The identity of the item in slot `t`, if any. -/
def Dude.slotId (d : Dude) (t : EquipmentType) : Option Nat :=
  (d.equipped.get t).map (fun e => e.id)

/-- Three units named Cid, Abe and Bea, alike otherwise. -/
def rosterCidAbeBea : List Dude :=
  [{ name := "Cid" }, { name := "Abe" }, { name := "Bea" }]

/-! # Properties -/

/-! ## Unfolding lemmas for `ChangeQuality` -/

theorem ChangeQuality_one (e : Equipment) :
    e.ChangeQuality 1 =
      if e.quality = EquipmentQualityLegendary then
        (if e.uses < e.totalUses then { e with uses := e.uses + 1 } else e)
      else
        let e1 := { e with quality := e.quality + 1, totalUses := e.totalUses + 1,
                           uses := e.uses + 1 }
        let e2 := if e1.uses > e1.totalUses then { e1 with uses := e1.totalUses } else e1
        if e2.uses < 0 then { e2 with uses := 0 } else e2 := by
  rw [Equipment.ChangeQuality]
  simp

theorem ChangeQuality_neg_one (e : Equipment) :
    e.ChangeQuality (-1) =
      if e.quality = EquipmentQualityCommon then
        (if e.uses > 0 then { e with uses := e.uses - 1 } else e)
      else
        let e1 := { e with quality := e.quality + -1, totalUses := e.totalUses + -1,
                           uses := e.uses + -1 }
        let e2 := if e1.uses > e1.totalUses then { e1 with uses := e1.totalUses } else e1
        if e2.uses < 0 then { e2 with uses := 0 } else e2 := by
  rw [Equipment.ChangeQuality]
  simp

theorem ChangeQuality_common_neg (e : Equipment) (delta : Int)
    (hq : e.quality = EquipmentQualityCommon) (hd : delta < 0) :
    e.ChangeQuality delta = if e.uses > 0 then { e with uses := e.uses - 1 } else e := by
  rw [Equipment.ChangeQuality]
  have h0 : delta ≠ 0 := by omega
  simp [h0, hq, hd]

theorem ChangeQuality_legendary_pos (e : Equipment) (delta : Int)
    (hq : e.quality = EquipmentQualityLegendary) (hd : delta > 0) :
    e.ChangeQuality delta = if e.uses < e.totalUses then { e with uses := e.uses + 1 } else e := by
  rw [Equipment.ChangeQuality]
  have h0 : delta ≠ 0 := by omega
  have hc : ¬ (EquipmentQualityLegendary = EquipmentQualityCommon ∧ delta < 0) := by
    intro h; omega
  simp [h0, hq, hd, hc]

theorem ChangeQuality_loop_up (e : Equipment) (delta : Int) (hd : 1 < delta)
    (hq : e.quality ≠ EquipmentQualityLegendary) :
    e.ChangeQuality delta = Nat.iterate (fun x => Equipment.ChangeQuality x 1) delta.toNat e := by
  rw [Equipment.ChangeQuality]
  have h0 : delta ≠ 0 := by omega
  have h1 : ¬ delta < 0 := by omega
  simp [h0, h1, hq, hd]

theorem ChangeQuality_loop_down (e : Equipment) (delta : Int) (hd : delta < -1)
    (hq : e.quality ≠ EquipmentQualityCommon) :
    e.ChangeQuality delta =
      Nat.iterate (fun x => Equipment.ChangeQuality x (-1)) (-delta).toNat e := by
  rw [Equipment.ChangeQuality]
  have h0 : delta ≠ 0 := by omega
  have h1 : ¬ delta > 0 := by omega
  have h2 : ¬ 1 < delta := by omega
  simp [h0, h1, h2, hq, hd]

/-! ## Combat, gold, equipment statistics and damage (C1 to C5) -/

theorem Trigger_combat_calls (w : World) (r : Rolls) (d : Dude) (enemy : Enemy)
    (hdead : (d.activateEquipped w Event.CombatRoom).IsDead.2 = false)
    (henemy : (d.activateEquipped w Event.CombatRoom).IsDead.1.enemy = some enemy) :
    (d.Trigger w r Event.CombatRoom).calls.head? =
      some (Call.Damage
        ((d.activateEquipped w Event.CombatRoom).IsDead.1.rollAttack w r).1.stats.strength) := by
  unfold Dude.Trigger
  simp only [hdead, henemy]
  repeat' split
  all_goals first | rfl | contradiction

/-- C1. On the knight (base strength 2, no equipment) in combat with the rat:
when the attack roll is a miss, `GetDamage` returns 0 and yet the enemy's
`Damage` is called with 2, in every world; and on a crit (sample world)
`GetDamage` returns the doubled 4 and `Damage` is again called with 2. The
amount handed to `Damage` is the unit's base strength, not the rolled amount. -/
theorem Trigger_combat_damages_by_base_strength (w : World) :
    (fightingKnight.GetDamage w missRolls).2 = (0, false) ∧
    (fightingKnight.Trigger w missRolls Event.CombatRoom).calls.head? =
      some (Call.Damage 2) ∧
    (fightingKnight.GetDamage sampleWorld critRolls).2 = (4, true) ∧
    (fightingKnight.Trigger sampleWorld critRolls Event.CombatRoom).calls.head? =
      some (Call.Damage 2) := by
  have hmiss : fightingKnight.GetDamage w missRolls = (fightingKnight, 0, false) := by
    simp [Dude.GetDamage, missRolls]
  have hroll : fightingKnight.rollAttack w missRolls = (fightingKnight, 0) := by
    simp only [Dude.rollAttack, hmiss]
    rfl
  refine ⟨by rw [hmiss], ?_, by decide, by decide⟩
  rw [Trigger_combat_calls w missRolls fightingKnight _ rfl rfl]
  have hd : (fightingKnight.activateEquipped w Event.CombatRoom).IsDead.1 = fightingKnight := rfl
  rw [hd, hroll]
  rfl

theorem TriggerLeaf_gold (w : World) (d : Dude) (amount : Int) :
    (d.TriggerLeaf w (Event.GoldLoss amount)).dude.gold =
        (if d.gold + amount < 0 then 0 else d.gold + amount) ∧
    (d.TriggerLeaf w (Event.GoldGain amount)).dude.gold =
        (if d.gold + amount < 0 then 0 else d.gold + amount) := by
  constructor <;>
  · simp only [Dude.TriggerLeaf, Dude.UpdateGold, Dude.activateEquipped]
    split_ifs <;> rfl

/-- C2. On the knight holding 10 gold, in every world and for every draw:
`Trigger(EventGoldLoss{amount: 5})` leaves 15 gold (the loss is added),
exactly as `Trigger(EventGoldGain{amount: 5})` does, and the gold-loss branch
of `Cursify(1)` leaves 15 gold as well. -/
theorem Trigger_GoldLoss_adds_gold (w : World) (r : Rolls) :
    fightingKnight.gold = 10 ∧
    (fightingKnight.Trigger w r (Event.GoldLoss 5)).dude.gold = 15 ∧
    (fightingKnight.Trigger w r (Event.GoldGain 5)).dude.gold = 15 ∧
    (fightingKnight.cursifyGoldLoss w r 1).gold = 15 := by
  have hl : (fightingKnight.Trigger w r (Event.GoldLoss 5)).dude.gold = 15 := by
    have h := (TriggerLeaf_gold w fightingKnight 5).1
    simpa [Dude.Trigger, fightingKnight] using h
  have hg : (fightingKnight.Trigger w r (Event.GoldGain 5)).dude.gold = 15 := by
    have h := (TriggerLeaf_gold w fightingKnight 5).2
    simpa [Dude.Trigger, fightingKnight] using h
  refine ⟨rfl, hl, hg, ?_⟩
  have h5 : (1 : Int) * 5 = 5 := by norm_num
  simp only [Dude.cursifyGoldLoss, h5, hl]
  rfl

/-- C3. `Equipment.Stats()` never reports luck: its `luck` is 0 for every
equipment. On the Common level-0 ring, whose template has luck 3, the six
other attributes come back unchanged and luck comes back as 0. -/
theorem Equipment_Stats_drops_luck :
    (∀ e : Equipment, e.Stats.luck = 0) ∧
    luckyRing.stats = some { totalHp := 1, strength := 2, wisdom := 1, defense := 1,
                             agility := 1, cowardice := 1, luck := 3 } ∧
    luckyRing.Stats = { totalHp := 1, strength := 2, wisdom := 1, defense := 1,
                        agility := 1, cowardice := 1, luck := 0 } := by
  refine ⟨?_, rfl, ?_⟩
  · intro e
    unfold Equipment.Stats
    cases e.stats <;> rfl
  · simp [Equipment.Stats, luckyRing, applyMultiplier, Equipment.multiplier,
      EquipmentQualityCommon]

/-- C4 (counterexample). The invincible unit at 0 hit points in activity
`Ded`: `ApplyDamage(3)` returns (0, false) but refills its hit points to 5. -/
theorem ApplyDamage_invincible_at_zero_refills :
    invincibleFallen.stats.currentHp = 0 ∧
    (invincibleFallen.ApplyDamage sampleWorld {} 3).2 = (0, false) ∧
    (invincibleFallen.ApplyDamage sampleWorld {} 3).1.stats.currentHp = 5 := by
  decide

/-- C4 (amended). For every unit that is not invincible and whose currentHp is
0, whatever its activity, `ApplyDamage(amount)` returns (0, false) and leaves
the unit exactly as it was. -/
theorem ApplyDamage_at_zero_hp_is_noop (w : World) (r : Rolls) (d : Dude) (amount : Int)
    (hinv : d.invincible = false) (hhp : d.stats.currentHp = 0) :
    d.ApplyDamage w r amount = (d, 0, false) := by
  have hdead : d.IsDead = (d, true) := by
    simp [Dude.IsDead, hinv, hhp]
  simp [Dude.ApplyDamage, hdead]

theorem ApplyDamage_at_zero_hp_is_noop_witness :
    fallenCleric.ApplyDamage sampleWorld {} 3 = (fallenCleric, 0, false) :=
  ApplyDamage_at_zero_hp_is_noop sampleWorld {} fallenCleric 3 rfl rfl

/-- C5. `Dude.CanEquip(eq)` is true exactly when the restriction list of `eq`
contains the unit's profession; for the ring, whose list is empty
(unrestricted), it is false for the knight. -/
theorem CanEquip_false_when_unrestricted :
    (∀ (d : Dude) (eq : Equipment), d.CanEquip eq = true ↔ d.profession ∈ eq.professions) ∧
    luckyRing.professions = [] ∧
    fightingKnight.CanEquip luckyRing = false := by
  refine ⟨?_, rfl, by decide⟩
  intro d eq
  unfold Dude.CanEquip
  cases hp : eq.professions with
  | nil => simp
  | cons p ps =>
    simp
    constructor
    · rintro (h | h)
      · exact Or.inl h.symm
      · exact Or.inr h
    · rintro (h | h)
      · exact Or.inl h.symm
      · exact Or.inr h

/-! ## Choosing equipment (C6) -/

theorem equippable_iff (d : Dude) (eq : Equipment) :
    (decide (eq.professions.length = 0) ||
        eq.professions.any (fun p => p == d.profession)) = true ↔
      (eq.professions = [] ∨ d.profession ∈ eq.professions) := by
  cases hp : eq.professions with
  | nil => simp
  | cons p ps =>
    simp
    constructor
    · rintro (h | h)
      · exact Or.inl h.symm
      · exact Or.inr h
    · rintro (h | h)
      · exact Or.inl h.symm
      · exact Or.inr h

/-- C6. With `allowed` meaning that the profession list of `eq` is empty or
contains the unit's profession: `ShouldEquip(eq)` is false whenever `allowed`
fails; with the slot of `eq` empty it is true exactly when `allowed`; and with
the slot holding `cur` it is true exactly when `allowed`, the
`LevelWithQuality()` of `eq` exceeds that of `cur`, and `cur` has no perk or
`eq` has a perk of the same name and of at least the quality of the perk of
`cur`. -/
theorem ShouldEquip_iff (w : World) (d : Dude) (eq : Equipment) :
    (¬ (eq.professions = [] ∨ d.profession ∈ eq.professions) →
      d.ShouldEquip w eq = false) ∧
    (d.equipped.get eq.equipmentType = none →
      (d.ShouldEquip w eq = true ↔
        (eq.professions = [] ∨ d.profession ∈ eq.professions))) ∧
    (∀ cur : Equipment, d.equipped.get eq.equipmentType = some cur →
      (d.ShouldEquip w eq = true ↔
        (eq.professions = [] ∨ d.profession ∈ eq.professions) ∧
        w.LevelWithQuality eq > w.LevelWithQuality cur ∧
        (cur.perk = none ∨
          ∃ np ep : Perk, eq.perk = some np ∧ cur.perk = some ep ∧
            np.Name = ep.Name ∧ np.Quality ≥ ep.Quality))) := by
  have hocc : ∀ cur : Equipment, d.equipped.get eq.equipmentType = some cur →
      (d.ShouldEquip w eq = true ↔
        (eq.professions = [] ∨ d.profession ∈ eq.professions) ∧
        w.LevelWithQuality eq > w.LevelWithQuality cur ∧
        (cur.perk = none ∨
          ∃ np ep : Perk, eq.perk = some np ∧ cur.perk = some ep ∧
            np.Name = ep.Name ∧ np.Quality ≥ ep.Quality)) := by
    intro cur hcur
    unfold Dude.ShouldEquip
    simp only [hcur]
    cases hep : cur.perk with
    | none =>
      simp only [Bool.and_eq_true, equippable_iff, decide_eq_true_eq]
      tauto
    | some ep =>
      cases hnp : eq.perk with
      | none => simp
      | some np =>
        simp only [Bool.and_eq_true, equippable_iff, decide_eq_true_eq, beq_iff_eq]
        constructor
        · rintro ⟨⟨ha, hn, hq⟩, hb⟩
          exact ⟨ha, hb, Or.inr ⟨np, ep, rfl, rfl, hn, hq⟩⟩
        · rintro ⟨ha, hb, h⟩
          rcases h with h | ⟨np', ep', h1, h2, hn, hq⟩
          · cases h
          · cases h1
            cases h2
            exact ⟨⟨ha, hn, hq⟩, hb⟩
  have hemp : d.equipped.get eq.equipmentType = none →
      (d.ShouldEquip w eq = true ↔
        (eq.professions = [] ∨ d.profession ∈ eq.professions)) := by
    intro hnone
    unfold Dude.ShouldEquip
    simp only [hnone]
    exact equippable_iff d eq
  refine ⟨?_, hemp, hocc⟩
  intro hna
  cases hget : d.equipped.get eq.equipmentType with
  | none =>
    have h := hemp hget
    cases hs : d.ShouldEquip w eq with
    | false => rfl
    | true => exact absurd (h.mp hs) hna
  | some cur =>
    have h := hocc cur hget
    cases hs : d.ShouldEquip w eq with
    | false => rfl
    | true => exact absurd (h.mp hs).1 hna

theorem ShouldEquip_iff_witness :
    armedKnight.equipped.get fineSword.equipmentType = some commonSword ∧
    armedKnight.ShouldEquip sampleWorld fineSword = true :=
  ⟨rfl, ((ShouldEquip_iff sampleWorld armedKnight fineSword).2.2 commonSword rfl).mpr
    ⟨Or.inr (by decide), by decide, Or.inl rfl⟩⟩

/-! ## Levelling equipment (C7, C8) -/

theorem LevelUp_below_threshold (e : Equipment) (hs : e.stats.isSome = true)
    (hl : e.level + 1 ≠ 5) : e.LevelUp = { e with level := e.level + 1 } := by
  have hn : e.stats.isNone = false := by
    cases h : e.stats with
    | none => simp [h] at hs
    | some s => rfl
  simp [Equipment.LevelUp, hn, hl]

theorem LevelUp_iterate_below (k : Nat) (e : Equipment) (hs : e.stats.isSome = true)
    (hl0 : 0 ≤ e.level) (hl : e.level + k < 5) :
    Nat.iterate Equipment.LevelUp k e = { e with level := e.level + k } := by
  induction k generalizing e with
  | zero => simp
  | succ n ih =>
    rw [Function.iterate_succ_apply, LevelUp_below_threshold e hs (by omega)]
    rw [ih _ (by simpa using hs) (by simp; omega) (by simp; omega)]
    simp
    omega

theorem LevelUp_at_threshold (e : Equipment) (hs : e.stats.isSome = true)
    (hl : e.level = 4) (hq : e.quality < EquipmentQualityLegendary) :
    e.LevelUp.quality = e.quality + 1 ∧ e.LevelUp.level = 0 := by
  have hn : e.stats.isNone = false := by
    cases h : e.stats with
    | none => simp [h] at hs
    | some s => rfl
  have hne : e.quality ≠ EquipmentQualityLegendary := by omega
  simp only [Equipment.LevelUp, hn, hl, ChangeQuality_one]
  simp [hq, hne]
  split_ifs <;> simp

/-- C7. An equipment with a stat template at level 0 and a quality below
Legendary keeps its quality during the first four `LevelUp` calls, its level
counting the calls, and the fifth call promotes it by exactly one quality tier
and resets the level to 0. -/
theorem LevelUp_five_times_promotes_once (e : Equipment) (hs : e.stats.isSome = true)
    (hl : e.level = 0) (hq : e.quality < EquipmentQualityLegendary) :
    (∀ k : Nat, k ≤ 4 →
        (Nat.iterate Equipment.LevelUp k e).quality = e.quality ∧
        (Nat.iterate Equipment.LevelUp k e).level = k) ∧
    (Nat.iterate Equipment.LevelUp 5 e).quality = e.quality + 1 ∧
    (Nat.iterate Equipment.LevelUp 5 e).level = 0 := by
  have hk : ∀ k : Nat, k ≤ 4 →
      Nat.iterate Equipment.LevelUp k e = { e with level := e.level + k } := by
    intro k hk
    exact LevelUp_iterate_below k e hs (by omega) (by omega)
  refine ⟨?_, ?_⟩
  · intro k hk4
    rw [hk k hk4]
    simp [hl]
  · rw [Function.iterate_succ_apply', hk 4 (by omega)]
    have h := LevelUp_at_threshold { e with level := e.level + (4 : Nat) } (by simpa using hs)
      (by simp [hl]) (by simpa using hq)
    simpa using h

theorem LevelUp_five_times_promotes_once_witness :
    (∀ k : Nat, k ≤ 4 →
        (Nat.iterate Equipment.LevelUp k commonSword).quality = EquipmentQualityCommon ∧
        (Nat.iterate Equipment.LevelUp k commonSword).level = k) ∧
    (Nat.iterate Equipment.LevelUp 5 commonSword).quality = EquipmentQualityUncommon ∧
    (Nat.iterate Equipment.LevelUp 5 commonSword).level = 0 :=
  LevelUp_five_times_promotes_once commonSword (by decide) (by decide) (by decide)

theorem LevelUp_legendary (e : Equipment) (hq : e.quality = EquipmentQualityLegendary) :
    e.LevelUp = if e.stats.isNone then e else { e with level := e.level + 1 } := by
  simp [Equipment.LevelUp, hq]

theorem LevelUp_iterate_legendary (n : Nat) (e : Equipment)
    (hq : e.quality = EquipmentQualityLegendary) :
    Nat.iterate Equipment.LevelUp n e =
      if e.stats.isNone then e else { e with level := e.level + n } := by
  induction n generalizing e with
  | zero => simp
  | succ k ih =>
    rw [Function.iterate_succ_apply, LevelUp_legendary e hq]
    by_cases hn : e.stats.isNone = true
    · simp only [hn, if_true]
      rw [ih e hq]
      simp [hn]
    · simp only [hn]
      rw [ih _ (by simpa using hq)]
      simp [hn]
      omega

/-- C8 (counterexample). The Legendary blade at level 4 with 2 of 5 uses: the
`LevelUp` call that brings its level to 5 leaves `uses` at 2. -/
theorem LevelUp_legendary_threshold_keeps_uses :
    legendaryBlade.quality = EquipmentQualityLegendary ∧
    legendaryBlade.uses < legendaryBlade.totalUses ∧
    legendaryBlade.LevelUp.level = 5 ∧
    legendaryBlade.LevelUp.uses = 2 ∧
    legendaryBlade.uses = 2 := by
  decide

/-- C8 (amended). At quality Legendary any number of `LevelUp` calls leaves
the quality at Legendary and leaves `uses` and `totalUses` as they were; each
call only raises the level by one when the equipment has a stat template (and
does nothing otherwise), also at the threshold 5. -/
theorem LevelUp_legendary_only_raises_level (e : Equipment) (n : Nat)
    (hq : e.quality = EquipmentQualityLegendary) :
    (Nat.iterate Equipment.LevelUp n e).quality = EquipmentQualityLegendary ∧
    (Nat.iterate Equipment.LevelUp n e).uses = e.uses ∧
    (Nat.iterate Equipment.LevelUp n e).totalUses = e.totalUses ∧
    (Nat.iterate Equipment.LevelUp n e).level = if e.stats.isNone then e.level else e.level + n := by
  rw [LevelUp_iterate_legendary n e hq]
  by_cases hn : e.stats.isNone = true
  · simp [hn, hq]
  · simp [hn, hq]

theorem LevelUp_legendary_only_raises_level_witness :
    (Nat.iterate Equipment.LevelUp 3 legendaryBlade).quality = EquipmentQualityLegendary ∧
    (Nat.iterate Equipment.LevelUp 3 legendaryBlade).uses = 2 ∧
    (Nat.iterate Equipment.LevelUp 3 legendaryBlade).totalUses = 5 ∧
    (Nat.iterate Equipment.LevelUp 3 legendaryBlade).level = 7 :=
  LevelUp_legendary_only_raises_level legendaryBlade 3 (by decide)

/-- C9. For an equipment of interior quality (Uncommon, Rare or Epic) with
`0 ≤ uses ≤ totalUses`, `ChangeQuality(+1)` followed by `ChangeQuality(-1)`
gives back the equipment it started from: quality, level, uses, totalUses and
every other field. -/
theorem ChangeQuality_up_then_down (e : Equipment)
    (hq : e.quality = EquipmentQualityUncommon ∨ e.quality = EquipmentQualityRare ∨
      e.quality = EquipmentQualityEpic)
    (h0 : 0 ≤ e.uses) (h1 : e.uses ≤ e.totalUses) :
    (e.ChangeQuality 1).ChangeQuality (-1) = e := by
  have hne : e.quality ≠ EquipmentQualityLegendary := by
    unfold EquipmentQualityUncommon EquipmentQualityRare EquipmentQualityEpic at hq
    unfold EquipmentQualityLegendary
    omega
  have hup : e.ChangeQuality 1 =
      { e with quality := e.quality + 1, totalUses := e.totalUses + 1, uses := e.uses + 1 } := by
    rw [ChangeQuality_one]
    have hu1 : ¬ e.totalUses + 1 < e.uses + 1 := by omega
    have hu2 : ¬ e.uses + 1 < 0 := by omega
    simp [hne, hu1, hu2]
  rw [hup, ChangeQuality_neg_one]
  have hnc : e.quality + 1 ≠ EquipmentQualityCommon := by
    unfold EquipmentQualityUncommon EquipmentQualityRare EquipmentQualityEpic at hq
    unfold EquipmentQualityCommon
    omega
  have hu3 : ¬ e.totalUses < e.uses := by omega
  have hu4 : ¬ e.uses < 0 := by omega
  simp [hnc, hu3, hu4]

theorem ChangeQuality_up_then_down_witness :
    (epicStaff.ChangeQuality 1).ChangeQuality (-1) = epicStaff :=
  ChangeQuality_up_then_down epicStaff (by decide) (by decide) (by decide)

/-! ## Multi-step quality changes (C10) -/

/-- C10 (counterexample). On the Legendary amulet with 3 of 5 uses,
`ChangeQuality(2)` restores one use (uses 4) while two single steps
`ChangeQuality(1)` restore two (uses 5). -/
theorem ChangeQuality_two_at_legendary_is_one_step :
    (legendaryAmulet.ChangeQuality 2).uses = 4 ∧
    (legendaryAmulet.ChangeQualityStepwise 2).uses = 5 := by
  constructor
  · rw [ChangeQuality_legendary_pos _ _ (by decide) (by decide)]
    decide
  · have h : legendaryAmulet.ChangeQualityStepwise 2 =
        (legendaryAmulet.ChangeQuality 1).ChangeQuality 1 := rfl
    rw [h, ChangeQuality_legendary_pos legendaryAmulet 1 (by decide) (by decide)]
    rw [ChangeQuality_legendary_pos _ 1 (by decide) (by decide)]
    decide

/-- C10 (amended). For `|delta| > 1`: unless the equipment is at Common with
a negative delta or at Legendary with a positive delta when the call starts,
`ChangeQuality(delta)` is the single step `ChangeQuality(sign(delta))` applied
`|delta|` times; in those two boundary cases it is one single step only. -/
theorem ChangeQuality_stepwise_off_boundary (e : Equipment) (delta : Int)
    (hd : 1 < delta.natAbs) :
    (¬ (e.quality = EquipmentQualityCommon ∧ delta < 0) ∧
      ¬ (e.quality = EquipmentQualityLegendary ∧ 0 < delta) →
        e.ChangeQuality delta = e.ChangeQualityStepwise delta) ∧
    ((e.quality = EquipmentQualityCommon ∧ delta < 0) ∨
      (e.quality = EquipmentQualityLegendary ∧ 0 < delta) →
        e.ChangeQuality delta = e.ChangeQuality delta.sign) := by
  rcases lt_or_gt_of_ne (show delta ≠ 0 by omega) with hneg | hpos
  · have hs : delta.sign = -1 := Int.sign_eq_neg_one_of_neg hneg
    have hlt : delta < -1 := by omega
    have hn : (-delta).toNat = delta.natAbs := by omega
    refine ⟨?_, ?_⟩
    · rintro ⟨hc, -⟩
      have hq : e.quality ≠ EquipmentQualityCommon := fun h => hc ⟨h, hneg⟩
      rw [ChangeQuality_loop_down e delta hlt hq, Equipment.ChangeQualityStepwise, hs, hn]
    · rintro (⟨hq, -⟩ | ⟨-, h⟩)
      · rw [hs, ChangeQuality_common_neg e delta hq hneg,
          ChangeQuality_common_neg e (-1) hq (by decide)]
      · omega
  · have hs : delta.sign = 1 := Int.sign_eq_one_of_pos hpos
    have hgt : 1 < delta := by omega
    have hn : delta.toNat = delta.natAbs := by omega
    refine ⟨?_, ?_⟩
    · rintro ⟨-, hl⟩
      have hq : e.quality ≠ EquipmentQualityLegendary := fun h => hl ⟨h, hpos⟩
      rw [ChangeQuality_loop_up e delta hgt hq, Equipment.ChangeQualityStepwise, hs, hn]
    · rintro (⟨-, h⟩ | ⟨hq, -⟩)
      · omega
      · rw [hs, ChangeQuality_legendary_pos e delta hq hpos,
          ChangeQuality_legendary_pos e 1 hq (by decide)]

theorem ChangeQuality_stepwise_off_boundary_witness :
    1 < (-2 : Int).natAbs ∧
    epicStaff.ChangeQuality (-2) = epicStaff.ChangeQualityStepwise (-2) ∧
    legendaryAmulet.ChangeQuality 2 = legendaryAmulet.ChangeQuality 1 :=
  ⟨by decide,
   (ChangeQuality_stepwise_off_boundary epicStaff (-2) (by decide)).1 ⟨by decide, by decide⟩,
   (ChangeQuality_stepwise_off_boundary legendaryAmulet 2 (by decide)).2
     (Or.inr ⟨by decide, by decide⟩)⟩

/-! ## Ranges kept by `ChangeQuality` (C11) -/

theorem ChangeQuality_one_inRange (e : Equipment) (h : e.InRange) :
    (e.ChangeQuality 1).InRange := by
  obtain ⟨⟨hq0, hq4⟩, ⟨hu0, hu1⟩, ht⟩ := h
  rw [ChangeQuality_one]
  unfold Equipment.InRange EquipmentQualityCommon EquipmentQualityLegendary at *
  by_cases hl : e.quality = 4
  · simp only [hl, if_true]
    split_ifs <;> first | omega | (simp; omega)
  · simp only [hl, if_false]
    split_ifs <;> first | omega | (simp; omega)

theorem ChangeQuality_neg_one_inRange (e : Equipment) (h : e.InRange) :
    (e.ChangeQuality (-1)).InRange := by
  obtain ⟨⟨hq0, hq4⟩, ⟨hu0, hu1⟩, ht⟩ := h
  rw [ChangeQuality_neg_one]
  unfold Equipment.InRange EquipmentQualityCommon EquipmentQualityLegendary at *
  by_cases hc : e.quality = 0
  · simp only [hc, if_true]
    split_ifs <;> first | omega | (simp; omega)
  · simp only [hc, if_false]
    split_ifs <;> first | omega | (simp; omega) | (simp at *; omega)

theorem iterate_inRange (f : Equipment → Equipment)
    (hf : ∀ x : Equipment, x.InRange → (f x).InRange) (n : Nat) (e : Equipment)
    (h : e.InRange) : (Nat.iterate f n e).InRange := by
  induction n generalizing e with
  | zero => simpa using h
  | succ k ih =>
    rw [Function.iterate_succ_apply]
    exact ih (f e) (hf e h)

theorem ChangeQuality_inRange (e : Equipment) (delta : Int) (h : e.InRange) :
    (e.ChangeQuality delta).InRange := by
  by_cases h0 : delta = 0
  · rw [Equipment.ChangeQuality]
    simpa [h0] using h
  rcases lt_or_gt_of_ne h0 with hneg | hpos
  · by_cases hc : e.quality = EquipmentQualityCommon
    · rw [ChangeQuality_common_neg e delta hc hneg,
        ← ChangeQuality_common_neg e (-1) hc (by decide)]
      exact ChangeQuality_neg_one_inRange e h
    · by_cases h1 : delta = -1
      · rw [h1]
        exact ChangeQuality_neg_one_inRange e h
      · rw [ChangeQuality_loop_down e delta (by omega) hc]
        exact iterate_inRange _ ChangeQuality_neg_one_inRange _ e h
  · by_cases hl : e.quality = EquipmentQualityLegendary
    · rw [ChangeQuality_legendary_pos e delta hl hpos,
        ← ChangeQuality_legendary_pos e 1 hl (by decide)]
      exact ChangeQuality_one_inRange e h
    · by_cases h1 : delta = 1
      · rw [h1]
        exact ChangeQuality_one_inRange e h
      · rw [ChangeQuality_loop_up e delta (by omega) hl]
        exact iterate_inRange _ ChangeQuality_one_inRange _ e h

/-- C11 (counterexample). The Uncommon wand with `uses = totalUses = 0`
satisfies `0 ≤ uses ≤ totalUses`; after `ChangeQuality(-1)` its `uses` is 0 and
its `totalUses` is -1, so `uses ≤ totalUses` no longer holds. -/
theorem ChangeQuality_down_with_zero_totalUses :
    spentWand.quality = EquipmentQualityUncommon ∧
    0 ≤ spentWand.uses ∧ spentWand.uses ≤ spentWand.totalUses ∧
    (spentWand.ChangeQuality (-1)).uses = 0 ∧
    (spentWand.ChangeQuality (-1)).totalUses = -1 := by
  rw [ChangeQuality_neg_one]
  decide

/-- C11 (amended). For every equipment with quality in Common..Legendary,
`0 ≤ uses ≤ totalUses` and `quality ≤ totalUses`, and every integer delta,
`ChangeQuality(delta)` (a total function) leaves the quality in
Common..Legendary, `0 ≤ uses ≤ totalUses` and `quality ≤ totalUses`; a negative
delta at Common leaves quality and totalUses unchanged and lowers uses by
exactly one when `uses > 0`, and a positive delta at Legendary leaves quality
and totalUses unchanged and raises uses by exactly one when
`uses < totalUses`. -/
theorem ChangeQuality_keeps_ranges (e : Equipment) (delta : Int)
    (hq : EquipmentQualityCommon ≤ e.quality ∧ e.quality ≤ EquipmentQualityLegendary)
    (hu : 0 ≤ e.uses ∧ e.uses ≤ e.totalUses) (ht : e.quality ≤ e.totalUses) :
    (EquipmentQualityCommon ≤ (e.ChangeQuality delta).quality ∧
      (e.ChangeQuality delta).quality ≤ EquipmentQualityLegendary) ∧
    (0 ≤ (e.ChangeQuality delta).uses ∧
      (e.ChangeQuality delta).uses ≤ (e.ChangeQuality delta).totalUses) ∧
    (e.ChangeQuality delta).quality ≤ (e.ChangeQuality delta).totalUses ∧
    (e.quality = EquipmentQualityCommon → delta < 0 →
      (e.ChangeQuality delta).quality = e.quality ∧
      (e.ChangeQuality delta).totalUses = e.totalUses ∧
      (0 < e.uses → (e.ChangeQuality delta).uses = e.uses - 1)) ∧
    (e.quality = EquipmentQualityLegendary → 0 < delta →
      (e.ChangeQuality delta).quality = e.quality ∧
      (e.ChangeQuality delta).totalUses = e.totalUses ∧
      (e.uses < e.totalUses → (e.ChangeQuality delta).uses = e.uses + 1)) := by
  obtain ⟨h1, h2, h3⟩ := ChangeQuality_inRange e delta ⟨hq, hu, ht⟩
  refine ⟨h1, h2, h3, ?_, ?_⟩
  · intro hc hd
    rw [ChangeQuality_common_neg e delta hc hd]
    split_ifs with hpos
    · exact ⟨rfl, rfl, fun _ => rfl⟩
    · exact ⟨rfl, rfl, fun h => absurd h hpos⟩
  · intro hl hd
    rw [ChangeQuality_legendary_pos e delta hl hd]
    split_ifs with hlt
    · exact ⟨rfl, rfl, fun _ => rfl⟩
    · exact ⟨rfl, rfl, fun h => absurd h hlt⟩

theorem ChangeQuality_keeps_ranges_witness :
    (EquipmentQualityCommon ≤ (epicStaff.ChangeQuality (-5)).quality ∧
      (epicStaff.ChangeQuality (-5)).quality ≤ EquipmentQualityLegendary) ∧
    (0 ≤ (epicStaff.ChangeQuality (-5)).uses ∧
      (epicStaff.ChangeQuality (-5)).uses ≤ (epicStaff.ChangeQuality (-5)).totalUses) ∧
    (legendaryAmulet.ChangeQuality 3).uses = 4 :=
  ⟨(ChangeQuality_keeps_ranges epicStaff (-5) (by decide) (by decide) (by decide)).1,
   (ChangeQuality_keeps_ranges epicStaff (-5) (by decide) (by decide) (by decide)).2.1,
   ((ChangeQuality_keeps_ranges legendaryAmulet 3 (by decide) (by decide) (by decide)).2.2.2.2
      (by decide) (by decide)).2.2 (by decide)⟩

/-! ## Activating a perk (C12) -/

theorem Activate_eq_traced (w : World) (e : Equipment) (event : Event) :
    e.Activate w event = (e.ActivateTraced w event).1 := by
  unfold Equipment.Activate Equipment.ActivateTraced
  cases e.perk with
  | none => rfl
  | some p =>
    simp only
    split_ifs <;> rfl

/-- C12. For an equipment with `uses ≥ 0` and any event: `Activate(event)`
returns the equipment unchanged, without any call of `Check`, when it has no
perk or `uses == 0`; unchanged when the perk's `Check(event)` is false; and
otherwise with `uses` lowered by exactly 1 and every other field as before.
In all cases `uses` is not negative afterwards. -/
theorem Activate_spec (w : World) (e : Equipment) (event : Event) (h0 : 0 ≤ e.uses) :
    ((e.perk = none ∨ e.uses = 0) →
      e.Activate w event = e ∧ (e.ActivateTraced w event).2 = []) ∧
    (∀ p : Perk, e.perk = some p → e.uses ≠ 0 → w.Check p event = false →
      e.Activate w event = e) ∧
    (∀ p : Perk, e.perk = some p → e.uses ≠ 0 → w.Check p event = true →
      e.Activate w event = { e with uses := e.uses - 1 }) ∧
    0 ≤ (e.Activate w event).uses := by
  refine ⟨?_, ?_, ?_, ?_⟩
  · intro h
    unfold Equipment.Activate Equipment.ActivateTraced
    cases hp : e.perk with
    | none => exact ⟨rfl, rfl⟩
    | some p =>
      have hu : e.uses = 0 := by
        rcases h with h | h
        · rw [hp] at h
          cases h
        · exact h
      simp [hu]
  · intro p hp hu hc
    unfold Equipment.Activate
    simp [hp, hu, hc]
  · intro p hp hu hc
    unfold Equipment.Activate
    have hneg : ¬ e.uses - 1 < 0 := by omega
    simp [hp, hu, hc, hneg]
  · unfold Equipment.Activate
    cases hp : e.perk with
    | none => simpa using h0
    | some p =>
      simp only
      split_ifs <;> first | exact h0 | (simp; omega) | simp

theorem Activate_spec_witness :
    healingCharm.Activate eagerWorld Event.EnterRoom = { healingCharm with uses := 1 } ∧
    healingCharm.Activate sampleWorld Event.EnterRoom = healingCharm ∧
    commonSword.Activate eagerWorld Event.EnterRoom = commonSword ∧
    (commonSword.ActivateTraced eagerWorld Event.EnterRoom).2 = [] :=
  ⟨(Activate_spec eagerWorld healingCharm Event.EnterRoom (by decide)).2.2.1 _ rfl
      (by decide) rfl,
   (Activate_spec sampleWorld healingCharm Event.EnterRoom (by decide)).2.1 _ rfl
      (by decide) rfl,
   ((Activate_spec eagerWorld commonSword Event.EnterRoom (by decide)).1 (Or.inl rfl)).1,
   ((Activate_spec eagerWorld commonSword Event.EnterRoom (by decide)).1 (Or.inl rfl)).2⟩

/-! ## Hit points: damage and healing (C13 to C17) -/

theorem IsDead_not_invincible (d : Dude) (h : d.invincible = false) :
    d.IsDead = (d, decide (d.stats.currentHp ≤ 0 ∨ d.activity = DudeActivity.Ded)) := by
  simp [Dude.IsDead, h]

theorem IsDead_alive (d : Dude) (hhp : 0 < d.stats.currentHp)
    (hact : d.activity ≠ DudeActivity.Ded) : d.IsDead = (d, false) := by
  have h1 : ¬ d.stats.currentHp ≤ 0 := by omega
  simp [Dude.IsDead, h1, hact]


/-- C14. For a unit that is not invincible and for which `IsDead()` is false,
when the dodge roll fails, with `reduced` the amount `ApplyDefense` returns on
the calculated stats: if `reduced` is at least `currentHp` then after
`ApplyDamage(amount)` the hit points are 0, the activity is `Ded` with timer 0,
`IsDead()` is true and the call returns `(reduced, false)`; if `reduced` is
smaller than `currentHp` then the activity is unchanged, `currentHp` has
dropped by exactly `reduced` and the call returns `(reduced, false)`. -/
theorem ApplyDamage_hit (w : World) (r : Rolls) (d : Dude) (amount : Int)
    (hinv : d.invincible = false) (hlive : d.IsDead.2 = false)
    (hdodge : r.dodgeRoll = false) :
    (d.stats.currentHp ≤ w.ApplyDefense (d.GetCalculatedStats w) amount →
      (d.ApplyDamage w r amount).1.stats.currentHp = 0 ∧
      (d.ApplyDamage w r amount).1.activity = DudeActivity.Ded ∧
      (d.ApplyDamage w r amount).1.timer = 0 ∧
      (d.ApplyDamage w r amount).1.IsDead.2 = true ∧
      (d.ApplyDamage w r amount).2 =
        (w.ApplyDefense (d.GetCalculatedStats w) amount, false)) ∧
    (w.ApplyDefense (d.GetCalculatedStats w) amount < d.stats.currentHp →
      (d.ApplyDamage w r amount).1.activity = d.activity ∧
      (d.ApplyDamage w r amount).1.stats.currentHp =
        d.stats.currentHp - w.ApplyDefense (d.GetCalculatedStats w) amount ∧
      (d.ApplyDamage w r amount).2 =
        (w.ApplyDefense (d.GetCalculatedStats w) amount, false)) := by
  have hd : d.IsDead = (d, false) := by
    rw [IsDead_not_invincible d hinv] at hlive ⊢
    simp only at hlive
    rw [hlive]
  constructor
  · intro hle
    have h1 : d.stats.currentHp - w.ApplyDefense (d.GetCalculatedStats w) amount ≤ 0 := by
      omega
    have hres : d.ApplyDamage w r amount =
        ({ d with stats := { d.stats with currentHp := 0 }, activity := DudeActivity.Ded,
                  timer := 0, dirtyStats := true },
          w.ApplyDefense (d.GetCalculatedStats w) amount, false) := by
      simp [Dude.ApplyDamage, hd, hdodge, hinv, h1, Dude.SetActivity]
    rw [hres]
    simp [Dude.IsDead, hinv]
  · intro hlt
    have h1 : ¬ d.stats.currentHp - w.ApplyDefense (d.GetCalculatedStats w) amount ≤ 0 := by
      omega
    have h2 : ¬ d.stats.currentHp - w.ApplyDefense (d.GetCalculatedStats w) amount = 0 := by
      omega
    simp [Dude.ApplyDamage, hd, hdodge, h1, h2]

theorem ApplyDamage_hit_witness :
    (fightingKnight.ApplyDamage sampleWorld {} 12).1.stats.currentHp = 0 ∧
    (fightingKnight.ApplyDamage sampleWorld {} 12).1.activity = DudeActivity.Ded ∧
    (fightingKnight.ApplyDamage sampleWorld {} 12).1.timer = 0 ∧
    (fightingKnight.ApplyDamage sampleWorld {} 12).1.IsDead.2 = true ∧
    (fightingKnight.ApplyDamage sampleWorld {} 12).2 = (9, false) :=
  (ApplyDamage_hit sampleWorld {} fightingKnight 12 rfl rfl rfl).1 (by decide)

theorem IsDead_invincible (d : Dude) (hinv : d.invincible = true)
    (hact : d.activity ≠ DudeActivity.Ded) (htot : 0 < d.stats.totalHp) :
    ∃ d0 : Dude, d.IsDead = (d0, false) ∧ 0 < d0.stats.currentHp ∧
      d0.activity = d.activity ∧ d0.invincible = true ∧
      d0.stats.totalHp = d.stats.totalHp := by
  by_cases hhp : d.stats.currentHp ≤ 0
  · refine ⟨{ d with stats := { d.stats with currentHp := d.stats.totalHp } }, ?_,
      htot, rfl, hinv, rfl⟩
    have h1 : ¬ d.stats.totalHp ≤ 0 := by omega
    simp [Dude.IsDead, hinv, hhp, h1, hact]
  · refine ⟨d, ?_, by omega, rfl, hinv, rfl⟩
    simp [Dude.IsDead, hhp, hact]

/-- C15 (counterexample). The invincible unit with `totalHp` 0 at 0 hit
points, in activity `Moving`: after `ApplyDamage(3)` its `currentHp` is 0. -/
theorem ApplyDamage_invincible_without_totalHp :
    invincibleHusk.invincible = true ∧
    invincibleHusk.activity = DudeActivity.Moving ∧
    (invincibleHusk.ApplyDamage sampleWorld {} 3).1.stats.currentHp = 0 := by
  decide

/-- C15 (amended). For every invincible unit with `totalHp > 0` that is not in
activity `Ded`, every amount and every dodge outcome (in a world whose
`Stats.LevelUp` keeps a positive `currentHp` positive): after
`ApplyDamage(amount)` the `currentHp` is above 0 and the activity is the one
before the call, so never newly `Ded`; and when the dodge fails and the
reduced damage brings `currentHp` to 0 or below, `currentHp` is set to
`totalHp`. -/
theorem ApplyDamage_invincible_stays_alive (w : World) (r : Rolls) (d : Dude) (amount : Int)
    (hinv : d.invincible = true) (hact : d.activity ≠ DudeActivity.Ded)
    (htot : 0 < d.stats.totalHp)
    (hlvl : ∀ (s : Stats) (b : Bool), 0 < s.currentHp → 0 < (w.LevelUp s b).currentHp) :
    0 < (d.ApplyDamage w r amount).1.stats.currentHp ∧
    (d.ApplyDamage w r amount).1.activity = d.activity ∧
    (r.dodgeRoll = false →
      d.IsDead.1.stats.currentHp -
          w.ApplyDefense (d.IsDead.1.GetCalculatedStats w) amount ≤ 0 →
      (d.ApplyDamage w r amount).1.stats.currentHp = d.stats.totalHp) := by
  obtain ⟨d0, hd, hpos, hact0, hinv0, htot0⟩ := IsDead_invincible d hinv hact htot
  rw [hd]
  by_cases hdodge : r.dodgeRoll = true
  · have hres : d.ApplyDamage w r amount = (d0.AddXP w 1, 0, true) := by
      simp [Dude.ApplyDamage, hd, hdodge]
    rw [hres]
    refine ⟨?_, ?_, ?_⟩
    · simp only [Dude.AddXP]
      split_ifs
      · exact hlvl _ _ hpos
      · exact hpos
    · simp only [Dude.AddXP]
      split_ifs <;> exact hact0
    · intro h
      rw [hdodge] at h
      cases h
  · have hdodge' : r.dodgeRoll = false := by
      cases h : r.dodgeRoll with
      | true => exact absurd h hdodge
      | false => rfl
    by_cases hle : d0.stats.currentHp - w.ApplyDefense (d0.GetCalculatedStats w) amount ≤ 0
    · have hne : ¬ d0.stats.totalHp = 0 := by omega
      have hres : d.ApplyDamage w r amount =
          ({ d0 with stats := { d0.stats with currentHp := d0.stats.totalHp },
                     dirtyStats := true },
            w.ApplyDefense (d0.GetCalculatedStats w) amount, false) := by
        simp [Dude.ApplyDamage, hd, hdodge', hle, hinv0, hne]
      rw [hres]
      refine ⟨?_, hact0, fun _ _ => htot0⟩
      simp only
      omega
    · have hne : ¬ d0.stats.currentHp -
          w.ApplyDefense (d0.GetCalculatedStats w) amount = 0 := by omega
      have hres : d.ApplyDamage w r amount =
          ({ d0 with
              stats := { d0.stats with
                currentHp :=
                  (d0.stats.currentHp - w.ApplyDefense (d0.GetCalculatedStats w) amount) },
              dirtyStats := true },
            w.ApplyDefense (d0.GetCalculatedStats w) amount, false) := by
        simp [Dude.ApplyDamage, hd, hdodge', hle, hne]
      rw [hres]
      refine ⟨?_, hact0, fun _ h => absurd h hle⟩
      simp only
      omega

theorem ApplyDamage_invincible_stays_alive_witness :
    0 < (invincibleKnight.ApplyDamage sampleWorld {} 12).1.stats.currentHp ∧
    (invincibleKnight.ApplyDamage sampleWorld {} 12).1.activity = DudeActivity.Moving ∧
    (invincibleKnight.ApplyDamage sampleWorld {} 12).1.stats.currentHp = 7 :=
  ⟨(ApplyDamage_invincible_stays_alive sampleWorld {} invincibleKnight 12 rfl (by decide)
      (by decide) (fun _ _ h => h)).1,
   (ApplyDamage_invincible_stays_alive sampleWorld {} invincibleKnight 12 rfl (by decide)
      (by decide) (fun _ _ h => h)).2.1,
   (ApplyDamage_invincible_stays_alive sampleWorld {} invincibleKnight 12 rfl (by decide)
      (by decide) (fun _ _ h => h)).2.2 rfl (by decide)⟩

theorem IsDead_keeps_range (d : Dude)
    (h : 0 ≤ d.stats.currentHp ∧ d.stats.currentHp ≤ d.stats.totalHp) :
    (0 ≤ d.IsDead.1.stats.currentHp ∧ d.IsDead.1.stats.currentHp ≤ d.IsDead.1.stats.totalHp) ∧
    d.IsDead.1.stats.totalHp = d.stats.totalHp ∧
    d.IsDead.1.invincible = d.invincible := by
  unfold Dude.IsDead
  simp only
  split_ifs
  · exact ⟨⟨by simp only; omega, le_refl _⟩, rfl, rfl⟩
  · exact ⟨h, rfl, rfl⟩

/-- C13 (counterexample). The knight wearing the plate armour (own `totalHp`
7, calculated `totalHp` 10) at 7 hit points: after `Heal(5)` its `currentHp` is
10, above its own `totalHp`, which is still 7. -/
theorem Heal_exceeds_own_totalHp :
    (0 ≤ platedKnight.stats.currentHp ∧
      platedKnight.stats.currentHp ≤ platedKnight.stats.totalHp) ∧
    (platedKnight.Heal sampleWorld 5).1.stats.currentHp = 10 ∧
    (platedKnight.Heal sampleWorld 5).1.stats.totalHp = 7 := by
  have hc : platedKnight.GetCalculatedStats sampleWorld =
      { level := 1, totalHp := 10, currentHp := 7, strength := 2, wisdom := 1,
        defense := 4, agility := 1, cowardice := 5 } := by
    simp [Dude.GetCalculatedStats, platedKnight, fightingKnight, plateArmor, sampleWorld,
      Equipped.values, Equipment.Stats, applyMultiplier, Equipment.multiplier,
      EquipmentQualityCommon]
  have hd : platedKnight.IsDead = (platedKnight, false) := by decide
  refine ⟨by decide, ?_, ?_⟩
  · simp only [Dude.Heal, hd, hc]
    decide
  · simp only [Dude.Heal, hd, hc]
    decide

theorem ApplyDamage_keeps_range (w : World) (r : Rolls) (d : Dude) (amount : Int)
    (ha : 0 ≤ amount)
    (hrange : 0 ≤ d.stats.currentHp ∧ d.stats.currentHp ≤ d.stats.totalHp)
    (hdef : ∀ (s : Stats) (a : Int), 0 ≤ a → 0 ≤ w.ApplyDefense s a)
    (hlvl : ∀ (s : Stats) (b : Bool), 0 ≤ s.currentHp ∧ s.currentHp ≤ s.totalHp →
      0 ≤ (w.LevelUp s b).currentHp ∧ (w.LevelUp s b).currentHp ≤ (w.LevelUp s b).totalHp) :
    0 ≤ (d.ApplyDamage w r amount).1.stats.currentHp ∧
    (d.ApplyDamage w r amount).1.stats.currentHp ≤
      (d.ApplyDamage w r amount).1.stats.totalHp := by
  obtain ⟨hr0, -, -⟩ := IsDead_keeps_range d hrange
  rcases hd : d.IsDead with ⟨d0, dead⟩
  rw [hd] at hr0
  simp only at hr0
  have hred := hdef (d0.GetCalculatedStats w) amount ha
  simp only [Dude.ApplyDamage, hd]
  cases dead with
  | true => simpa using hr0
  | false =>
    simp only [Bool.false_eq_true, if_false]
    by_cases hdodge : r.dodgeRoll = true
    · simp only [hdodge, if_true, Dude.AddXP]
      split_ifs
      · exact hlvl _ _ hr0
      · exact hr0
    · simp only [hdodge, Bool.false_eq_true, if_false, Dude.SetActivity]
      split_ifs <;> simp only <;> omega

theorem Heal_keeps_calculated_range (w : World) (d : Dude) (amount : Int)
    (ha : 0 ≤ amount)
    (hrange : 0 ≤ d.stats.currentHp ∧ d.stats.currentHp ≤ d.stats.totalHp)
    (hwis : 0 ≤ (d.IsDead.1.GetCalculatedStats w).wisdom)
    (htot : d.stats.totalHp ≤ (d.IsDead.1.GetCalculatedStats w).totalHp) :
    0 ≤ (d.Heal w amount).1.stats.currentHp ∧
    (d.Heal w amount).1.stats.currentHp ≤ (d.IsDead.1.GetCalculatedStats w).totalHp ∧
    (d.Heal w amount).1.stats.totalHp = d.stats.totalHp := by
  obtain ⟨hr0, ht0, -⟩ := IsDead_keeps_range d hrange
  rcases hd : d.IsDead with ⟨d0, dead⟩
  rw [hd] at hr0 ht0 hwis htot
  simp only at hr0 ht0 hwis htot
  have hfac : 0 ≤ amount * (Int.tdiv (d0.GetCalculatedStats w).wisdom 10 + 1) := by
    have h1 : 0 ≤ Int.tdiv (d0.GetCalculatedStats w).wisdom 10 :=
      Int.tdiv_nonneg hwis (by decide)
    positivity
  simp only [Dude.Heal, hd]
  cases dead with
  | true =>
    simp only [if_true]
    exact ⟨hr0.1, by omega, ht0⟩
  | false =>
    simp only [Bool.false_eq_true, if_false]
    split_ifs <;> simp only <;> refine ⟨?_, ?_, ?_⟩ <;> omega

/-- C13 (amended). For a unit with `0 ≤ currentHp ≤ totalHp` on its own stats
and an amount `≥ 0`, in a world whose `ApplyDefense` returns no negative amount
and whose `Stats.LevelUp` preserves the predicate: `ApplyDamage(amount)`
preserves the predicate, whatever is equipped. `Heal(amount)` clamps at the
calculated `totalHp` `T` of `GetCalculatedStats()`: when the calculated wisdom
is `≥ 0` and `T` is at least the own `totalHp`, it leaves `0 ≤ currentHp ≤ T`
and the own `totalHp` as it was; so it preserves the predicate when `T` equals
the own `totalHp`. -/
theorem hp_range_preserved (w : World) (r : Rolls) (d : Dude) (amount : Int)
    (ha : 0 ≤ amount)
    (hrange : 0 ≤ d.stats.currentHp ∧ d.stats.currentHp ≤ d.stats.totalHp)
    (hdef : ∀ (s : Stats) (a : Int), 0 ≤ a → 0 ≤ w.ApplyDefense s a)
    (hlvl : ∀ (s : Stats) (b : Bool), 0 ≤ s.currentHp ∧ s.currentHp ≤ s.totalHp →
      0 ≤ (w.LevelUp s b).currentHp ∧ (w.LevelUp s b).currentHp ≤ (w.LevelUp s b).totalHp) :
    (0 ≤ (d.ApplyDamage w r amount).1.stats.currentHp ∧
      (d.ApplyDamage w r amount).1.stats.currentHp ≤
        (d.ApplyDamage w r amount).1.stats.totalHp) ∧
    (0 ≤ (d.IsDead.1.GetCalculatedStats w).wisdom →
      d.stats.totalHp ≤ (d.IsDead.1.GetCalculatedStats w).totalHp →
        0 ≤ (d.Heal w amount).1.stats.currentHp ∧
        (d.Heal w amount).1.stats.currentHp ≤ (d.IsDead.1.GetCalculatedStats w).totalHp ∧
        (d.Heal w amount).1.stats.totalHp = d.stats.totalHp) ∧
    (0 ≤ (d.IsDead.1.GetCalculatedStats w).wisdom →
      (d.IsDead.1.GetCalculatedStats w).totalHp = d.stats.totalHp →
        0 ≤ (d.Heal w amount).1.stats.currentHp ∧
        (d.Heal w amount).1.stats.currentHp ≤ (d.Heal w amount).1.stats.totalHp) := by
  refine ⟨ApplyDamage_keeps_range w r d amount ha hrange hdef hlvl, ?_, ?_⟩
  · intro hwis htot
    exact Heal_keeps_calculated_range w d amount ha hrange hwis htot
  · intro hwis htot
    obtain ⟨h1, h2, h3⟩ :=
      Heal_keeps_calculated_range w d amount ha hrange hwis (le_of_eq htot.symm)
    exact ⟨h1, by omega⟩

theorem hp_range_preserved_witness :
    (0 ≤ (fightingKnight.ApplyDamage sampleWorld {} 5).1.stats.currentHp ∧
      (fightingKnight.ApplyDamage sampleWorld {} 5).1.stats.currentHp ≤
        (fightingKnight.ApplyDamage sampleWorld {} 5).1.stats.totalHp) ∧
    (0 ≤ (fightingKnight.Heal sampleWorld 5).1.stats.currentHp ∧
      (fightingKnight.Heal sampleWorld 5).1.stats.currentHp ≤
        (fightingKnight.Heal sampleWorld 5).1.stats.totalHp) :=
  ⟨(hp_range_preserved sampleWorld {} fightingKnight 5 (by decide) (by decide)
      (fun _ _ _ => le_max_of_le_right (by decide)) (fun _ _ h => h)).1,
   (hp_range_preserved sampleWorld {} fightingKnight 5 (by decide) (by decide)
      (fun _ _ _ => le_max_of_le_right (by decide)) (fun _ _ h => h)).2.2
      (by decide) (by decide)⟩

/-- C16 (counterexample). For the invincible unit at 0 hit points in activity
`Ded`, `IsDead()` holds; `Heal(3)` returns 0 and `FullHeal()` returns, but
both leave `currentHp` at 5 instead of 0. -/
theorem Heal_refills_invincible_dead :
    invincibleFallen.IsDead.2 = true ∧
    invincibleFallen.stats.currentHp = 0 ∧
    (invincibleFallen.Heal sampleWorld 3).2 = 0 ∧
    (invincibleFallen.Heal sampleWorld 3).1.stats.currentHp = 5 ∧
    (invincibleFallen.FullHeal sampleWorld).stats.currentHp = 5 := by
  decide

/-- C16 (amended). For every unit for which `IsDead()` holds and that is not
an invincible unit at `currentHp ≤ 0` (so: not invincible, or in activity `Ded`
with `currentHp > 0`), and every amount: `Heal(amount)` returns 0 and
`FullHeal()` returns, each leaving the unit exactly as it was, `currentHp` and
activity included. -/
theorem Heal_dead_is_noop (w : World) (d : Dude) (amount : Int)
    (hdead : d.IsDead.2 = true)
    (hnot : d.invincible = false ∨ 0 < d.stats.currentHp) :
    d.Heal w amount = (d, 0) ∧ d.FullHeal w = d := by
  have h1 : d.IsDead.1 = d := by
    unfold Dude.IsDead
    rcases hnot with h | h
    · simp [h]
    · have h2 : ¬ d.stats.currentHp ≤ 0 := by omega
      simp [h2]
  have hd : d.IsDead = (d, true) := Prod.ext h1 hdead
  constructor
  · simp [Dude.Heal, hd]
  · simp [Dude.FullHeal, hd]

theorem Heal_dead_is_noop_witness :
    fallenCleric.Heal sampleWorld 3 = (fallenCleric, 0) ∧
    fallenCleric.FullHeal sampleWorld = fallenCleric :=
  Heal_dead_is_noop sampleWorld fallenCleric 3 rfl (Or.inl rfl)

/-- C17 (counterexample). The living knight with 10 hit points over a
calculated `totalHp` of 7: `Heal(1)` sets `currentHp` to 7 and returns -3. -/
theorem Heal_returns_negative_when_over_total :
    overhealedKnight.IsDead.2 = false ∧
    (overhealedKnight.GetCalculatedStats sampleWorld).totalHp = 7 ∧
    overhealedKnight.stats.currentHp = 10 ∧
    (overhealedKnight.Heal sampleWorld 1).1.stats.currentHp = 7 ∧
    (overhealedKnight.Heal sampleWorld 1).2 = -3 := by
  decide

/-- C17 (amended). For every unit for which `IsDead()` is false and every
amount `≥ 0`, with `w` and `T` the wisdom and `totalHp` of
`GetCalculatedStats()` and `currentHp` read after the `IsDead()` check (it is
the unit's own value when that is above 0): `Heal(amount)` sets `currentHp` to
`min(currentHp + amount × (w/10 + 1), T)` and returns the new minus the old
`currentHp`; the returned difference is not negative when `w ≥ 0` and
`currentHp ≤ T`. -/
theorem Heal_living (w : World) (d : Dude) (amount : Int)
    (hlive : d.IsDead.2 = false) (ha : 0 ≤ amount) :
    (d.Heal w amount).1.stats.currentHp =
      min (d.IsDead.1.stats.currentHp +
            amount * (Int.tdiv (d.IsDead.1.GetCalculatedStats w).wisdom 10 + 1))
          (d.IsDead.1.GetCalculatedStats w).totalHp ∧
    (d.Heal w amount).2 =
      (d.Heal w amount).1.stats.currentHp - d.IsDead.1.stats.currentHp ∧
    (0 ≤ (d.IsDead.1.GetCalculatedStats w).wisdom →
      d.IsDead.1.stats.currentHp ≤ (d.IsDead.1.GetCalculatedStats w).totalHp →
        0 ≤ (d.Heal w amount).2) ∧
    (0 < d.stats.currentHp → d.IsDead.1 = d) := by
  rcases hd : d.IsDead with ⟨d0, dead⟩
  rw [hd] at hlive
  simp only at hlive
  subst hlive
  refine ⟨?_, ?_, ?_, ?_⟩
  · simp only [Dude.Heal, hd, Bool.false_eq_true, if_false]
    split_ifs <;> simp only <;> omega
  · simp only [Dude.Heal, hd, Bool.false_eq_true, if_false]
    split_ifs <;> rfl
  · intro hwis hle
    simp only at hwis hle
    have hfac : 0 ≤ amount * (Int.tdiv (d0.GetCalculatedStats w).wisdom 10 + 1) := by
      have h1 : 0 ≤ Int.tdiv (d0.GetCalculatedStats w).wisdom 10 :=
        Int.tdiv_nonneg hwis (by decide)
      positivity
    simp only [Dude.Heal, hd, Bool.false_eq_true, if_false]
    split_ifs <;> simp only <;> omega
  · intro hpos
    have h2 : ¬ d.stats.currentHp ≤ 0 := by omega
    have h3 : d.IsDead.1 = d := by
      unfold Dude.IsDead
      simp [h2]
    rw [hd] at h3
    exact h3

theorem Heal_living_witness :
    (invincibleKnight.Heal sampleWorld 3).1.stats.currentHp = 5 ∧
    (invincibleKnight.Heal sampleWorld 3).2 = 3 ∧
    0 ≤ (invincibleKnight.Heal sampleWorld 3).2 :=
  ⟨(Heal_living sampleWorld invincibleKnight 3 rfl (by decide)).1,
   by
     have h := (Heal_living sampleWorld invincibleKnight 3 rfl (by decide)).2.1
     rw [h]
     decide,
   (Heal_living sampleWorld invincibleKnight 3 rfl (by decide)).2.2.1 (by decide) (by decide)⟩

/-! ## Experience (C18) -/

/-- C18. For every unit, with `L` its level and `x` its xp, and every gain
`n`: `NextLevelXP()` is `50·L`; if `x + n ≥ 50·L` then `AddXP(n)` leaves
`xp = x + n − 50·L` and stats that are exactly one `Stats.LevelUp(false)` step
away from the old ones, whatever the remainder; otherwise it leaves
`xp = x + n` and the stats, so the level, unchanged. -/
theorem AddXP_spec (w : World) (d : Dude) (n : Int) :
    d.NextLevelXP = 50 * d.stats.level ∧
    (50 * d.stats.level ≤ d.xp + n →
      (d.AddXP w n).xp = d.xp + n - 50 * d.stats.level ∧
      (d.AddXP w n).stats = w.LevelUp d.stats false) ∧
    (d.xp + n < 50 * d.stats.level →
      (d.AddXP w n).xp = d.xp + n ∧
      (d.AddXP w n).stats = d.stats ∧
      (d.AddXP w n).stats.level = d.stats.level) := by
  refine ⟨rfl, ?_, ?_⟩
  · intro h
    simp [Dude.AddXP, Dude.NextLevelXP, Dude.Level, h]
  · intro h
    have h1 : ¬ 50 * d.stats.level ≤ d.xp + n := by omega
    simp [Dude.AddXP, Dude.NextLevelXP, Dude.Level, h1]

theorem AddXP_spec_witness :
    (fightingKnight.AddXP sampleWorld 200).xp = 150 ∧
    (fightingKnight.AddXP sampleWorld 200).stats.level = 2 ∧
    (fightingKnight.AddXP sampleWorld 20).xp = 20 ∧
    (fightingKnight.AddXP sampleWorld 20).stats.level = 1 :=
  ⟨((AddXP_spec sampleWorld fightingKnight 200).2.1 (by decide)).1,
   by
     rw [((AddXP_spec sampleWorld fightingKnight 200).2.1 (by decide)).2]
     decide,
   ((AddXP_spec sampleWorld fightingKnight 20).2.2 (by decide)).1,
   ((AddXP_spec sampleWorld fightingKnight 20).2.2 (by decide)).2.2⟩

/-! ## The combat exchange (C19, C20) -/

theorem Trigger_killed_eq (w : World) (r : Rolls) (d : Dude) (enemy : Enemy)
    (hhp : 0 < d.stats.currentHp) (hact : d.activity ≠ DudeActivity.Ded)
    (henemy : d.enemy = some enemy)
    (hkill : (w.Damage enemy
      ((d.activateEquipped w Event.CombatRoom).rollAttack w r).1.stats.strength).2 = true) :
    d.Trigger w r Event.CombatRoom =
      { dude := (w.GetRoomEffect
          ((((d.activateEquipped w Event.CombatRoom).rollAttack w r).1.killedBranch w
            (w.Damage enemy
              ((d.activateEquipped w Event.CombatRoom).rollAttack w r).1.stats.strength).1).1.room)
          (((d.activateEquipped w Event.CombatRoom).rollAttack w r).1.killedBranch w
            (w.Damage enemy
              ((d.activateEquipped w Event.CombatRoom).rollAttack w r).1.stats.strength).1).1
          Event.CombatRoom).1,
        activity := (w.GetRoomEffect
          ((((d.activateEquipped w Event.CombatRoom).rollAttack w r).1.killedBranch w
            (w.Damage enemy
              ((d.activateEquipped w Event.CombatRoom).rollAttack w r).1.stats.strength).1).1.room)
          (((d.activateEquipped w Event.CombatRoom).rollAttack w r).1.killedBranch w
            (w.Damage enemy
              ((d.activateEquipped w Event.CombatRoom).rollAttack w r).1.stats.strength).1).1
          Event.CombatRoom).2,
        calls :=
          [Call.Damage ((d.activateEquipped w Event.CombatRoom).rollAttack w r).1.stats.strength]
          ++ (((d.activateEquipped w Event.CombatRoom).rollAttack w r).1.killedBranch w
            (w.Damage enemy
              ((d.activateEquipped w Event.CombatRoom).rollAttack w r).1.stats.strength).1).2
          ++ [Call.GetRoomEffect Event.CombatRoom] } := by
  have hd : (d.activateEquipped w Event.CombatRoom).IsDead =
      (d.activateEquipped w Event.CombatRoom, false) :=
    IsDead_alive _ hhp hact
  have he : (d.activateEquipped w Event.CombatRoom).enemy = some enemy := henemy
  unfold Dude.Trigger Dude.killedBranch
  simp only [hd, he, hkill, Bool.false_eq_true, if_true, if_false]

theorem TriggerLeaf_Unequip_frame (w : World) (d : Dude) (e : Equipment) :
    (d.TriggerLeaf w (Event.Unequip e)).dude.stats = d.stats ∧
    (d.TriggerLeaf w (Event.Unequip e)).dude.xp = d.xp ∧
    (d.TriggerLeaf w (Event.Unequip e)).dude.gold = d.gold :=
  ⟨rfl, rfl, rfl⟩

theorem TriggerLeaf_Equip_frame (w : World) (d : Dude) (e : Equipment) :
    (d.TriggerLeaf w (Event.Equip e)).dude.stats = d.stats ∧
    (d.TriggerLeaf w (Event.Equip e)).dude.xp = d.xp ∧
    (d.TriggerLeaf w (Event.Equip e)).dude.gold = d.gold :=
  ⟨rfl, rfl, rfl⟩

theorem Unequip_frame (w : World) (d : Dude) (t : EquipmentType) :
    (d.Unequip w t).1.stats = d.stats ∧ (d.Unequip w t).1.xp = d.xp ∧
    (d.Unequip w t).1.gold = d.gold := by
  unfold Dude.Unequip
  cases d.equipped.get t with
  | none => exact ⟨rfl, rfl, rfl⟩
  | some e => exact ⟨rfl, rfl, rfl⟩

theorem Equip_frame (w : World) (d : Dude) (eq : Equipment) :
    (d.Equip w eq).1.stats = d.stats ∧ (d.Equip w eq).1.xp = d.xp ∧
    (d.Equip w eq).1.gold = d.gold := by
  obtain ⟨h1, h2, h3⟩ := Unequip_frame w d eq.equipmentType
  unfold Dude.Equip
  cases h : (d.Unequip w eq.equipmentType) with
  | mk d1 old =>
    rw [h] at h1 h2 h3
    cases old with
    | none => exact ⟨h1, h2, h3⟩
    | some o => exact ⟨h1, h2, h3⟩

theorem AddToInventory_frame (w : World) (d : Dude) (eq : Equipment) :
    (d.AddToInventory w eq).stats = d.stats ∧ (d.AddToInventory w eq).xp = d.xp ∧
    (d.AddToInventory w eq).gold = d.gold := by
  unfold Dude.AddToInventory
  simp only
  split_ifs
  all_goals first | exact Equip_frame w _ eq | exact ⟨rfl, rfl, rfl⟩

theorem AddXP_gold (w : World) (d : Dude) (n : Int) : (d.AddXP w n).gold = d.gold := by
  unfold Dude.AddXP
  simp only
  split_ifs <;> rfl

theorem AddXP_congr (w : World) (d d' : Dude) (n : Int) (hxp : d'.xp = d.xp)
    (hstats : d'.stats = d.stats) :
    (d'.AddXP w n).xp = (d.AddXP w n).xp ∧ (d'.AddXP w n).stats = (d.AddXP w n).stats := by
  unfold Dude.AddXP Dude.NextLevelXP Dude.Level
  simp only [hxp, hstats]
  split_ifs <;> exact ⟨rfl, rfl⟩

theorem AddXP_currentHp (w : World) (d : Dude) (n : Int)
    (hlvl : ∀ (s : Stats) (b : Bool), (w.LevelUp s b).currentHp = s.currentHp) :
    (d.AddXP w n).stats.currentHp = d.stats.currentHp := by
  unfold Dude.AddXP
  simp only
  split_ifs
  · exact hlvl _ _
  · rfl

theorem rollAttack_frame (w : World) (r : Rolls) (d : Dude) :
    (d.rollAttack w r).1.gold = d.gold ∧
    ((∀ (s : Stats) (b : Bool), (w.LevelUp s b).currentHp = s.currentHp) →
      (d.rollAttack w r).1.stats.currentHp = d.stats.currentHp) := by
  unfold Dude.rollAttack Dude.GetDamage
  simp only
  split_ifs
  all_goals first
    | exact ⟨AddXP_gold w d 1, fun h => AddXP_currentHp w d 1 h⟩
    | exact ⟨rfl, fun _ => rfl⟩

theorem killedBranch_spec (w : World) (d : Dude) (enemy1 : Enemy) :
    (d.killedBranch w enemy1).1.enemy = none ∧
    (d.killedBranch w enemy1).1.gold =
      (if d.gold + w.Gold enemy1 < 0 then 0 else d.gold + w.Gold enemy1) ∧
    (d.killedBranch w enemy1).1.xp = (d.AddXP w (w.XP enemy1)).xp ∧
    (d.killedBranch w enemy1).1.stats = (d.AddXP w (w.XP enemy1)).stats ∧
    Call.Hit ∉ (d.killedBranch w enemy1).2 := by
  have h5 : ∀ d5 : Dude,
      d5 = (({ d with enemy := some enemy1 } : Dude).TriggerLeaf w
        (Event.GoldGain (w.Gold enemy1))).dude →
      d5.gold = (if d.gold + w.Gold enemy1 < 0 then 0 else d.gold + w.Gold enemy1) ∧
      d5.xp = d.xp ∧ d5.stats = d.stats := by
    intro d5 h
    subst h
    simp only [Dude.TriggerLeaf, Dude.UpdateGold, Dude.activateEquipped]
    split_ifs <;> exact ⟨rfl, rfl, rfl⟩
  unfold Dude.killedBranch
  simp only
  generalize hd5 : (({ d with enemy := some enemy1 } : Dude).TriggerLeaf w
    (Event.GoldGain (w.Gold enemy1))).dude = d5
  obtain ⟨hg, hx, hs⟩ := h5 d5 hd5.symm
  obtain ⟨hx6, hs6⟩ := AddXP_congr w d d5 (w.XP enemy1) hx hs
  have hg6 : (d5.AddXP w (w.XP enemy1)).gold = d5.gold := AddXP_gold w d5 _
  split
  · split
    · obtain ⟨f1, f2, f3⟩ := AddToInventory_frame w (d5.AddXP w (w.XP enemy1)) ‹Equipment›
      refine ⟨trivial, ?_, ?_, ?_, by simp⟩
      · simp only [f3, hg6, hg]
      · simp only [f2, hx6]
      · simp only [f1, hs6]
    · refine ⟨trivial, ?_, hx6, hs6, by simp⟩
      simp only [hg6, hg]
  · refine ⟨trivial, ?_, hx6, hs6, by simp⟩
    simp only [hg6, hg]

/-- C19 (counterexample). The invincible knight at 0 hit points, not in
activity `Ded`, is living (`IsDead()` is false) and kills its enemy in the
call; after the call its `currentHp` is 7, not the 0 it had before. -/
theorem Trigger_kill_refills_invincible :
    invincibleAtKill.IsDead.2 = false ∧
    invincibleAtKill.stats.currentHp = 0 ∧
    (invincibleAtKill.Trigger sampleWorld {} Event.CombatRoom).dude.enemy = none ∧
    (invincibleAtKill.Trigger sampleWorld {} Event.CombatRoom).calls =
      [Call.Damage 2, Call.GetRoomEffect Event.CombatRoom] ∧
    (invincibleAtKill.Trigger sampleWorld {} Event.CombatRoom).dude.stats.currentHp = 7 := by
  decide

/-- C19 (amended). For a unit with `currentHp > 0` that is not in activity
`Ded` and has an enemy, when the enemy's `Damage` reports it was killed and the
room's effect hook does nothing in that call: the gold becomes the old gold
plus the enemy's `Gold()` (0 if that sum is negative); xp and stats are those
that `AddXP` with the enemy's `XP()` produces after the attack roll; the enemy
reference is `nil`; `Hit()` is not called; no activity is returned; and
`currentHp` is unchanged when `Stats.LevelUp` leaves `currentHp` alone. -/
theorem Trigger_enemy_killed (w : World) (r : Rolls) (d : Dude) (enemy : Enemy)
    (hhp : 0 < d.stats.currentHp) (hact : d.activity ≠ DudeActivity.Ded)
    (henemy : d.enemy = some enemy)
    (hkill : (w.Damage enemy
      ((d.activateEquipped w Event.CombatRoom).rollAttack w r).1.stats.strength).2 = true)
    (hroom : ∀ d' : Dude, w.GetRoomEffect d'.room d' Event.CombatRoom = (d', none)) :
    (d.Trigger w r Event.CombatRoom).dude.gold =
      (if d.gold + w.Gold (w.Damage enemy
            ((d.activateEquipped w Event.CombatRoom).rollAttack w r).1.stats.strength).1 < 0
       then 0
       else d.gold + w.Gold (w.Damage enemy
            ((d.activateEquipped w Event.CombatRoom).rollAttack w r).1.stats.strength).1) ∧
    (d.Trigger w r Event.CombatRoom).dude.xp =
      (((d.activateEquipped w Event.CombatRoom).rollAttack w r).1.AddXP w
        (w.XP (w.Damage enemy
          ((d.activateEquipped w Event.CombatRoom).rollAttack w r).1.stats.strength).1)).xp ∧
    (d.Trigger w r Event.CombatRoom).dude.stats =
      (((d.activateEquipped w Event.CombatRoom).rollAttack w r).1.AddXP w
        (w.XP (w.Damage enemy
          ((d.activateEquipped w Event.CombatRoom).rollAttack w r).1.stats.strength).1)).stats ∧
    (d.Trigger w r Event.CombatRoom).dude.enemy = none ∧
    Call.Hit ∉ (d.Trigger w r Event.CombatRoom).calls ∧
    (d.Trigger w r Event.CombatRoom).activity = none ∧
    ((∀ (s : Stats) (b : Bool), (w.LevelUp s b).currentHp = s.currentHp) →
      (d.Trigger w r Event.CombatRoom).dude.stats.currentHp = d.stats.currentHp) := by
  rw [Trigger_killed_eq w r d enemy hhp hact henemy hkill]
  simp only [hroom]
  obtain ⟨k1, k2, k3, k4, k5⟩ :=
    killedBranch_spec w ((d.activateEquipped w Event.CombatRoom).rollAttack w r).1
      (w.Damage enemy
        ((d.activateEquipped w Event.CombatRoom).rollAttack w r).1.stats.strength).1
  obtain ⟨g1, g2⟩ := rollAttack_frame w r (d.activateEquipped w Event.CombatRoom)
  have hg : (d.activateEquipped w Event.CombatRoom).gold = d.gold := rfl
  have hc : (d.activateEquipped w Event.CombatRoom).stats.currentHp = d.stats.currentHp := rfl
  refine ⟨?_, k3, k4, k1, ?_, trivial, ?_⟩
  · rw [k2, g1, hg]
  · simp only [List.mem_append, List.mem_singleton, not_or]
    exact ⟨⟨by simp, k5⟩, by simp⟩
  · intro hlvl
    rw [k4, AddXP_currentHp w _ _ hlvl, g2 hlvl, hc]

theorem Trigger_enemy_killed_witness :
    (knightAtKill.Trigger sampleWorld {} Event.CombatRoom).dude.gold = 12 ∧
    (knightAtKill.Trigger sampleWorld {} Event.CombatRoom).dude.xp = 3 ∧
    (knightAtKill.Trigger sampleWorld {} Event.CombatRoom).dude.enemy = none ∧
    (knightAtKill.Trigger sampleWorld {} Event.CombatRoom).activity = none ∧
    (knightAtKill.Trigger sampleWorld {} Event.CombatRoom).dude.stats.currentHp = 7 :=
  ⟨((Trigger_enemy_killed sampleWorld {} knightAtKill _ (by decide) (by decide) rfl
      (by decide) (fun _ => rfl)).1).trans (by decide),
   ((Trigger_enemy_killed sampleWorld {} knightAtKill _ (by decide) (by decide) rfl
      (by decide) (fun _ => rfl)).2.1).trans (by decide),
   (Trigger_enemy_killed sampleWorld {} knightAtKill _ (by decide) (by decide) rfl
      (by decide) (fun _ => rfl)).2.2.2.1,
   (Trigger_enemy_killed sampleWorld {} knightAtKill _ (by decide) (by decide) rfl
      (by decide) (fun _ => rfl)).2.2.2.2.2.1,
   (Trigger_enemy_killed sampleWorld {} knightAtKill _ (by decide) (by decide) rfl
      (by decide) (fun _ => rfl)).2.2.2.2.2.2 (fun _ _ => rfl)⟩

/-- C20. In the sample world, for the living knight with an enemy: when the
enemy survives the attack and hits back, the calls of the handler are
`Damage`, `Hit` and then the room's `GetRoomEffect`; and when the enemy is
killed they are `Damage` and then `GetRoomEffect`. The room hook is called in
the same call as the attack exchange. -/
theorem Trigger_combat_calls_room_hook_with_enemy :
    fightingKnight.enemy.isSome = true ∧
    fightingKnight.IsDead.2 = false ∧
    (fightingKnight.Trigger sampleWorld {} Event.CombatRoom).calls =
      [Call.Damage 2, Call.Hit, Call.GetRoomEffect Event.CombatRoom] ∧
    knightAtKill.enemy.isSome = true ∧
    (knightAtKill.Trigger sampleWorld {} Event.CombatRoom).calls =
      [Call.Damage 2, Call.GetRoomEffect Event.CombatRoom] := by
  decide

/-! ## The relation between `totalUses` and quality (C30) -/

theorem ChangeQuality_one_totalUses (e : Equipment) (h : e.totalUses = e.quality + 1) :
    (e.ChangeQuality 1).totalUses = (e.ChangeQuality 1).quality + 1 := by
  rw [ChangeQuality_one]
  by_cases hl : e.quality = EquipmentQualityLegendary
  · simp only [hl, if_true]
    split_ifs <;> first | omega | (simp only; omega)
  · simp only [hl, if_false]
    split_ifs <;> first | omega | (simp only; omega)

theorem ChangeQuality_neg_one_totalUses (e : Equipment) (h : e.totalUses = e.quality + 1) :
    (e.ChangeQuality (-1)).totalUses = (e.ChangeQuality (-1)).quality + 1 := by
  rw [ChangeQuality_neg_one]
  by_cases hc : e.quality = EquipmentQualityCommon
  · simp only [hc, if_true]
    split_ifs <;> first | omega | (simp only; omega)
  · simp only [hc, if_false]
    split_ifs <;> first | omega | (simp only; omega)

theorem iterate_totalUses (f : Equipment → Equipment)
    (hf : ∀ x : Equipment, x.totalUses = x.quality + 1 → (f x).totalUses = (f x).quality + 1)
    (n : Nat) (e : Equipment) (h : e.totalUses = e.quality + 1) :
    (Nat.iterate f n e).totalUses = (Nat.iterate f n e).quality + 1 := by
  induction n generalizing e with
  | zero => simpa using h
  | succ k ih =>
    rw [Function.iterate_succ_apply]
    exact ih (f e) (hf e h)

theorem ChangeQuality_totalUses (e : Equipment) (delta : Int)
    (h : e.totalUses = e.quality + 1) :
    (e.ChangeQuality delta).totalUses = (e.ChangeQuality delta).quality + 1 := by
  by_cases h0 : delta = 0
  · rw [Equipment.ChangeQuality]
    simpa [h0] using h
  rcases lt_or_gt_of_ne h0 with hneg | hpos
  · by_cases hc : e.quality = EquipmentQualityCommon
    · rw [ChangeQuality_common_neg e delta hc hneg,
        ← ChangeQuality_common_neg e (-1) hc (by decide)]
      exact ChangeQuality_neg_one_totalUses e h
    · by_cases h1 : delta = -1
      · rw [h1]
        exact ChangeQuality_neg_one_totalUses e h
      · rw [ChangeQuality_loop_down e delta (by omega) hc]
        exact iterate_totalUses _ ChangeQuality_neg_one_totalUses _ e h
  · by_cases hl : e.quality = EquipmentQualityLegendary
    · rw [ChangeQuality_legendary_pos e delta hl hpos,
        ← ChangeQuality_legendary_pos e 1 hl (by decide)]
      exact ChangeQuality_one_totalUses e h
    · by_cases h1 : delta = 1
      · rw [h1]
        exact ChangeQuality_one_totalUses e h
      · rw [ChangeQuality_loop_up e delta (by omega) hl]
        exact iterate_totalUses _ ChangeQuality_one_totalUses _ e h

/-- C30. `NewEquipment` creates equipment with `uses = totalUses = quality + 1`,
and for every equipment with `totalUses = quality + 1` (whatever its quality)
the relation still holds after `ChangeQuality(delta)` for every integer delta,
after `LevelUp()`, after `LevelDown()` and after `Activate(event)`. -/
theorem totalUses_is_quality_plus_one (e : Equipment) (h : e.totalUses = e.quality + 1) :
    (∀ (id : Nat) (base : Option BaseEquipment) (heal : Perk) (level quality : Int)
        (perk : Option Perk) (n : Equipment),
        NewEquipment id base heal level quality perk = some n →
          n.uses = n.totalUses ∧ n.totalUses = n.quality + 1) ∧
    (∀ delta : Int, (e.ChangeQuality delta).totalUses = (e.ChangeQuality delta).quality + 1) ∧
    e.LevelUp.totalUses = e.LevelUp.quality + 1 ∧
    e.LevelDown.totalUses = e.LevelDown.quality + 1 ∧
    (∀ (w : World) (event : Event),
      (e.Activate w event).totalUses = (e.Activate w event).quality + 1) := by
  refine ⟨?_, fun delta => ChangeQuality_totalUses e delta h, ?_, ?_, ?_⟩
  · intro id base heal level quality perk n hn
    unfold NewEquipment at hn
    cases base with
    | none => cases hn
    | some b =>
      simp only [Option.some.injEq] at hn
      subst hn
      exact ⟨rfl, rfl⟩
  · unfold Equipment.LevelUp
    simp only
    split_ifs
    · exact h
    · exact ChangeQuality_one_totalUses _ h
    · exact h
  · unfold Equipment.LevelDown
    simp only
    split_ifs
    · exact h
    · exact ChangeQuality_neg_one_totalUses _ h
    · exact h
  · intro w event
    unfold Equipment.Activate
    cases e.perk with
    | none => exact h
    | some p =>
      simp only
      split_ifs <;> exact h

theorem totalUses_is_quality_plus_one_witness :
    (NewEquipment 10 (some bowEntry) { Name := "Heal On Room Enter", Quality := 1 } 1
        EquipmentQualityRare none).map (fun n => (n.uses, n.totalUses, n.quality))
      = some (3, 3, 2) ∧
    (commonSword.ChangeQuality 3).totalUses = (commonSword.ChangeQuality 3).quality + 1 ∧
    commonSword.LevelDown.totalUses = commonSword.LevelDown.quality + 1 :=
  ⟨by decide,
   (totalUses_is_quality_plus_one commonSword (by decide)).2.1 3,
   (totalUses_is_quality_plus_one commonSword (by decide)).2.2.2.1⟩

/-! ## The attack roll chances (C24) -/

theorem logisticScaling_bounds (x m : ℝ) (hm : 0 < m) :
    0 < logisticScaling x m ∧ logisticScaling x m < m := by
  unfold logisticScaling
  have he : 0 < Real.exp (-0.1 * (x - 50)) := Real.exp_pos _
  have hden : 0 < 1 + Real.exp (-0.1 * (x - 50)) := by linarith
  refine ⟨div_pos hm hden, ?_⟩
  rw [div_lt_iff₀ hden]
  nlinarith

theorem logisticScaling_mono (x y m : ℝ) (hm : 0 ≤ m) (hxy : x ≤ y) :
    logisticScaling x m ≤ logisticScaling y m := by
  unfold logisticScaling
  have hy : 0 < Real.exp (-0.1 * (y - 50)) := Real.exp_pos _
  have hexp : Real.exp (-0.1 * (y - 50)) ≤ Real.exp (-0.1 * (x - 50)) := by
    apply Real.exp_le_exp.mpr
    linarith
  apply div_le_div_of_nonneg_left hm (by linarith) (by linarith)

/-- C24. Over the real numbers, for every luck (negative ones included): the
crit chance
`0.05 + logistic(luck, 0.20)` lies in `[0.05, 0.25)`, the miss chance
`max(0.10 − logistic(luck, 0.09), 0.01)` lies in `[0.01, 0.10]`, and for
`luck ≤ luck'` the crit chance at `luck` is at most the one at `luck'` and the
miss chance at `luck'` is at most the one at `luck`. -/
theorem chances_bounded_and_monotone (luck : ℝ) :
    (0.05 ≤ critChance luck ∧ critChance luck < 0.25) ∧
    (0.01 ≤ missChance luck ∧ missChance luck ≤ 0.10) ∧
    (∀ luck' : ℝ, luck ≤ luck' →
      critChance luck ≤ critChance luck' ∧ missChance luck' ≤ missChance luck) := by
  have hc := logisticScaling_bounds luck (0.25 - 0.05) (by norm_num)
  have hm := logisticScaling_bounds luck (0.1 - 0.01) (by norm_num)
  refine ⟨⟨?_, ?_⟩, ⟨?_, ?_⟩, ?_⟩
  · unfold critChance
    linarith [hc.1]
  · unfold critChance
    linarith [hc.2]
  · unfold missChance
    exact le_max_right _ _
  · unfold missChance
    apply max_le
    · linarith [hm.1]
    · norm_num
  · intro luck' hle
    constructor
    · unfold critChance
      have := logisticScaling_mono luck luck' (0.25 - 0.05) (by norm_num) hle
      linarith
    · unfold missChance
      have := logisticScaling_mono luck luck' (0.1 - 0.01) (by norm_num) hle
      apply max_le_max _ (le_refl _)
      linarith

theorem chances_bounded_and_monotone_witness :
    critChance 50 = 0.15 ∧ missChance 50 = 0.055 ∧
    (0.05 ≤ critChance 50 ∧ critChance 50 < 0.25) ∧
    (0.01 ≤ missChance 50 ∧ missChance 50 ≤ 0.10) :=
  ⟨by simp [critChance, logisticScaling]; norm_num,
   by simp [missChance, logisticScaling]; norm_num,
   (chances_bounded_and_monotone 50).1,
   (chances_bounded_and_monotone 50).2.1⟩

/-! ## Speed (C25) -/

/-- C25 (counterexample). The ranger with calculated agility 15 and no enemy
has speed `0.011`, the speed of agility 10, and not
`0.01 × (1 + 15/10 × 0.1) = 0.0115`. -/
theorem Speed_truncates_agility :
    swiftRanger.enemy = none ∧
    (swiftRanger.GetCalculatedStats sampleWorld).agility = 15 ∧
    swiftRanger.Speed sampleWorld = 11 / 1000 ∧
    (1 / 100 : ℚ) * (1 + (15 : ℚ) / 10 * (1 / 10)) = 23 / 2000 ∧
    (11 / 1000 : ℚ) ≠ 23 / 2000 := by
  refine ⟨rfl, by decide, ?_, by norm_num, by norm_num⟩
  have h : (swiftRanger.GetCalculatedStats sampleWorld).agility = 15 := by decide
  have he : swiftRanger.enemy.isSome = false := rfl
  have ht : Int.tdiv 15 10 = 1 := by decide
  simp only [Dude.Speed, he, h, ht]
  norm_num

/-- C25 (amended). With the arithmetic taken as exact: `Speed()` is
`0.01 × 1.1` whenever the unit has an enemy, whatever its agility and
equipment, so two units that both have an enemy have the same speed; without
an enemy it is `0.01 × (1 + q × 0.1)` where `q` is the calculated agility
divided by 10 as integers (truncated). -/
theorem Speed_formula (w : World) (d : Dude) :
    (d.enemy ≠ none → d.Speed w = (1 / 100) * (11 / 10)) ∧
    (∀ d' : Dude, d.enemy ≠ none → d'.enemy ≠ none → d.Speed w = d'.Speed w) ∧
    (d.enemy = none →
      d.Speed w = (1 / 100) * (1 + ((Int.tdiv (d.GetCalculatedStats w).agility 10 : Int) : ℚ)
        * (1 / 10))) := by
  have hfight : ∀ x : Dude, x.enemy ≠ none → x.Speed w = (1 / 100) * (11 / 10) := by
    intro x hx
    have hs : x.enemy.isSome = true := by
      cases h : x.enemy with
      | none => exact absurd h hx
      | some e => rfl
    simp only [Dude.Speed, hs, if_true]
    norm_num
  refine ⟨hfight d, ?_, ?_⟩
  · intro d' h h'
    rw [hfight d h, hfight d' h']
  · intro h
    simp [Dude.Speed, h]

theorem Speed_formula_witness :
    fightingKnight.Speed sampleWorld = (1 / 100) * (11 / 10) ∧
    fightingKnight.Speed sampleWorld = invincibleAtKill.Speed sampleWorld ∧
    swiftRanger.Speed sampleWorld =
      (1 / 100) * (1 + ((Int.tdiv (swiftRanger.GetCalculatedStats sampleWorld).agility 10 : Int) : ℚ)
        * (1 / 10)) :=
  ⟨(Speed_formula sampleWorld fightingKnight).1 (by decide),
   (Speed_formula sampleWorld fightingKnight).2.1 invincibleAtKill (by decide) (by decide),
   (Speed_formula sampleWorld swiftRanger).2.2 rfl⟩

/-! ## Weighted choice of a profession (C23) -/

theorem professionCount_fold (dudes : List Dude) (m : ProfessionKind → Int)
    (p : ProfessionKind) :
    dudes.foldl (fun m d => Function.update m d.profession (m d.profession + 1)) m p =
      m p + (countProfession p dudes : Int) := by
  induction dudes generalizing m with
  | nil => simp [countProfession]
  | cons d ds ih =>
    rw [List.foldl_cons, ih]
    unfold countProfession
    by_cases h : d.profession = p
    · subst h
      simp [Function.update_same]
      omega
    · have h' : p ≠ d.profession := fun e => h e.symm
      simp [Function.update_noteq h', h]

theorem weight_eq (dudes : List Dude) (p : ProfessionKind) :
    (if (0 : Int) + (countProfession p dudes : Int) = 0 then (1 : ℚ)
      else 1 / (((0 + (countProfession p dudes : Int)) * (0 + (countProfession p dudes : Int))
        : Int) : ℚ)) = professionWeight (countProfession p dudes) := by
  unfold professionWeight
  by_cases h : countProfession p dudes = 0
  · simp [h]
  · have h' : ¬ ((0 : Int) + (countProfession p dudes : Int) = 0) := by omega
    simp only [h, h', if_false]
    push_cast
    ring

theorem professionWeight_pos (n : Nat) : 0 < professionWeight n := by
  unfold professionWeight
  split_ifs with h
  · norm_num
  · positivity

theorem WeightedRandomProfessionKind_eq (dudes : List Dude) (r : ℚ) (h1 : r < 1) :
    some (WeightedRandomProfessionKind dudes r) =
      firstExceeding (fun p => countProfession p dudes) r := by
  have hV := professionWeight_pos (countProfession ProfessionKind.Vagabond dudes)
  have hK := professionWeight_pos (countProfession ProfessionKind.Knight dudes)
  have hC := professionWeight_pos (countProfession ProfessionKind.Cleric dudes)
  have hR := professionWeight_pos (countProfession ProfessionKind.Ranger dudes)
  unfold WeightedRandomProfessionKind firstExceeding
  simp only [List.map, professionCount_fold, weight_eq, runningSums, List.getLastD,
    List.getLast?, List.getLast, List.zip, List.zipWith, List.find?]
  generalize professionWeight (countProfession ProfessionKind.Vagabond dudes) = a at *
  generalize professionWeight (countProfession ProfessionKind.Knight dudes) = b at *
  generalize professionWeight (countProfession ProfessionKind.Cleric dudes) = c at *
  generalize professionWeight (countProfession ProfessionKind.Ranger dudes) = e at *
  have hlast : r * (a + b + c + e) < a + b + c + e := by nlinarith
  by_cases c1 : r * (a + b + c + e) < a
  · simp [c1]
  · by_cases c2 : r * (a + b + c + e) < a + b
    · simp [c1, c2]
    · by_cases c3 : r * (a + b + c + e) < a + b + c
      · simp [c1, c2, c3]
      · simp [c1, c2, c3, hlast]

/-- C23. For every roster and every draw `r < 1`, with the arithmetic
taken as exact: `WeightedRandomProfessionKind` returns the first profession in
the order Vagabond, Knight, Cleric, Ranger whose cumulative weight exceeds `r`
times the sum of the weights (weight 1 for a profession nobody has, `1/count²`
otherwise); such a profession exists, so the fallback is not reached; the
result is the same for two rosters with the same per-profession counts; and
for three knights and nobody else Knight is returned exactly when
`1 ≤ r × 28/9 < 10/9`, that is for `r` in `[9/28, 10/28)`. -/
theorem WeightedRandomProfessionKind_spec (dudes : List Dude) (r : ℚ) (h1 : r < 1) :
    firstExceeding (fun p => countProfession p dudes) r =
      some (WeightedRandomProfessionKind dudes r) ∧
    firstExceeding (fun p => countProfession p dudes) r ≠ none ∧
    (∀ dudes' : List Dude, (∀ p, countProfession p dudes' = countProfession p dudes) →
      WeightedRandomProfessionKind dudes' r = WeightedRandomProfessionKind dudes r) ∧
    (WeightedRandomProfessionKind threeKnights r = ProfessionKind.Knight ↔
      1 ≤ r * (28 / 9) ∧ r * (28 / 9) < 10 / 9) ∧
    (WeightedRandomProfessionKind threeKnights r = ProfessionKind.Knight ↔
      9 / 28 ≤ r ∧ r < 10 / 28) := by
  have heq := WeightedRandomProfessionKind_eq dudes r h1
  have hk : WeightedRandomProfessionKind threeKnights r = ProfessionKind.Knight ↔
      1 ≤ r * (28 / 9) ∧ r * (28 / 9) < 10 / 9 := by
    have h3 := WeightedRandomProfessionKind_eq threeKnights r h1
    have cV : countProfession ProfessionKind.Vagabond threeKnights = 0 := by decide
    have cK : countProfession ProfessionKind.Knight threeKnights = 3 := by decide
    have cC : countProfession ProfessionKind.Cleric threeKnights = 0 := by decide
    have cR : countProfession ProfessionKind.Ranger threeKnights = 0 := by decide
    have e : (1 : ℚ) + 1 / 3 ^ 2 + 1 + 1 = 28 / 9 := by norm_num
    have e2 : (1 : ℚ) + 1 / 3 ^ 2 = 10 / 9 := by norm_num
    simp only [firstExceeding, cV, cK, cC, cR, professionWeight] at h3
    norm_num at h3
    constructor
    · intro hres
      rw [hres] at h3
      by_cases c1 : r * (28 / 9) < 1
      · simp [c1] at h3
      · by_cases c2 : r * (28 / 9) < 10 / 9
        · exact ⟨not_lt.mp c1, c2⟩
        · simp [c1, c2] at h3
          split_ifs at h3 <;> simp at h3
    · rintro ⟨g1, g2⟩
      have c1 : ¬ r * (28 / 9) < 1 := not_lt.mpr g1
      simp [c1, g2] at h3
      exact h3
  refine ⟨heq.symm, ?_, ?_, hk, ?_⟩
  · rw [← heq]
    exact Option.some_ne_none _
  · intro dudes' hc
    have h' := WeightedRandomProfessionKind_eq dudes' r h1
    have hfun : (fun p => countProfession p dudes') = (fun p => countProfession p dudes) :=
      funext hc
    rw [hfun, ← heq] at h'
    exact Option.some.inj h'
  · rw [hk]
    constructor
    · rintro ⟨g1, g2⟩
      constructor <;> linarith
    · rintro ⟨g1, g2⟩
      constructor <;> linarith

theorem WeightedRandomProfessionKind_spec_witness :
    (1 / 3 : ℚ) < 1 ∧
    WeightedRandomProfessionKind threeKnights (1 / 3) = ProfessionKind.Knight ∧
    firstExceeding (fun p => countProfession p threeKnights) (1 / 3) =
      some (WeightedRandomProfessionKind threeKnights (1 / 3)) :=
  ⟨by norm_num,
   (WeightedRandomProfessionKind_spec threeKnights (1 / 3) (by norm_num)).2.2.2.2.mpr
     ⟨by norm_num, by norm_num⟩,
   (WeightedRandomProfessionKind_spec threeKnights (1 / 3) (by norm_num)).1⟩

/-! ## Curses (C21) -/

/-- The sub-effects of `Dude.Cursify` that ran, read off the conditions. -/
theorem Cursify_trace (w : World) (log10 : Int → ℚ) (r : Rolls) (cr : CurseRolls) (d : Dude)
    (roomLevel : Int) :
    (d.Cursify w log10 r cr roomLevel).2 =
      if cr.curseRoll > curseThreshold log10 cr then []
      else
        (if cr.curseRoll ≤ curseThreshold log10 cr * (3 / 4) then [CurseEffect.GoldLoss] else []) ++
        (if cr.curseRoll ≤ curseThreshold log10 cr * (1 / 2) then [CurseEffect.EquipmentDelevel]
          else []) ++
        (if cr.curseRoll ≤ curseThreshold log10 cr * (1 / 4) then [CurseEffect.PerkDelevel]
          else []) ++
        (if cr.curseRoll ≤ curseThreshold log10 cr * (1 / 10) then [CurseEffect.DudeDelevel]
          else []) := by
  unfold Dude.Cursify
  simp only
  split_ifs <;> simp

/-- C21. In `Cursify`, for every draw `curseRoll ≥ 0` and
`threshold = 1 − log10(highestRoll+1)`: the unit is unchanged and no sub-effect
runs when `curseRoll > threshold`; the conditions are nested (`≤ 0.1·threshold`
implies `≤ 0.25·threshold`, which implies `≤ 0.5·threshold`, which implies
`≤ 0.75·threshold`, which implies `≤ threshold`); each branch runs exactly
under its condition; so whenever the unit-delevel branch ran in a call, the
perk, equipment and gold-loss branches ran in that call too. -/
theorem Cursify_effects_nested (w : World) (log10 : Int → ℚ) (r : Rolls) (cr : CurseRolls)
    (d : Dude) (roomLevel : Int) (h0 : 0 ≤ cr.curseRoll) :
    (curseThreshold log10 cr < cr.curseRoll →
      d.Cursify w log10 r cr roomLevel = (d, [])) ∧
    (cr.curseRoll ≤ curseThreshold log10 cr * (1 / 10) →
      cr.curseRoll ≤ curseThreshold log10 cr * (1 / 4)) ∧
    (cr.curseRoll ≤ curseThreshold log10 cr * (1 / 4) →
      cr.curseRoll ≤ curseThreshold log10 cr * (1 / 2)) ∧
    (cr.curseRoll ≤ curseThreshold log10 cr * (1 / 2) →
      cr.curseRoll ≤ curseThreshold log10 cr * (3 / 4)) ∧
    (cr.curseRoll ≤ curseThreshold log10 cr * (3 / 4) →
      cr.curseRoll ≤ curseThreshold log10 cr) ∧
    (CurseEffect.DudeDelevel ∈ (d.Cursify w log10 r cr roomLevel).2 ↔
      cr.curseRoll ≤ curseThreshold log10 cr * (1 / 10)) ∧
    (CurseEffect.PerkDelevel ∈ (d.Cursify w log10 r cr roomLevel).2 ↔
      cr.curseRoll ≤ curseThreshold log10 cr * (1 / 4)) ∧
    (CurseEffect.EquipmentDelevel ∈ (d.Cursify w log10 r cr roomLevel).2 ↔
      cr.curseRoll ≤ curseThreshold log10 cr * (1 / 2)) ∧
    (CurseEffect.GoldLoss ∈ (d.Cursify w log10 r cr roomLevel).2 ↔
      cr.curseRoll ≤ curseThreshold log10 cr * (3 / 4)) ∧
    (CurseEffect.DudeDelevel ∈ (d.Cursify w log10 r cr roomLevel).2 →
      CurseEffect.PerkDelevel ∈ (d.Cursify w log10 r cr roomLevel).2 ∧
      CurseEffect.EquipmentDelevel ∈ (d.Cursify w log10 r cr roomLevel).2 ∧
      CurseEffect.GoldLoss ∈ (d.Cursify w log10 r cr roomLevel).2) := by
  have n1 : cr.curseRoll ≤ curseThreshold log10 cr * (1 / 10) →
      cr.curseRoll ≤ curseThreshold log10 cr * (1 / 4) := fun h => by linarith
  have n2 : cr.curseRoll ≤ curseThreshold log10 cr * (1 / 4) →
      cr.curseRoll ≤ curseThreshold log10 cr * (1 / 2) := fun h => by linarith
  have n3 : cr.curseRoll ≤ curseThreshold log10 cr * (1 / 2) →
      cr.curseRoll ≤ curseThreshold log10 cr * (3 / 4) := fun h => by linarith
  have n4 : cr.curseRoll ≤ curseThreshold log10 cr * (3 / 4) →
      cr.curseRoll ≤ curseThreshold log10 cr := fun h => by linarith
  have m1 : CurseEffect.DudeDelevel ∈ (d.Cursify w log10 r cr roomLevel).2 ↔
      cr.curseRoll ≤ curseThreshold log10 cr * (1 / 10) := by
    rw [Cursify_trace]
    constructor
    · intro h
      by_cases hs : cr.curseRoll > curseThreshold log10 cr
      · rw [if_pos hs] at h
        simp at h
      · rw [if_neg hs] at h
        simp only [List.mem_append] at h
        rcases h with ((h | h) | h) | h <;>
          split_ifs at h with hc <;> first | exact hc | simp at h
    · intro h
      have h4 := n4 (n3 (n2 (n1 h)))
      rw [if_neg (not_lt.mpr h4), if_pos h]
      simp
  have m2 : CurseEffect.PerkDelevel ∈ (d.Cursify w log10 r cr roomLevel).2 ↔
      cr.curseRoll ≤ curseThreshold log10 cr * (1 / 4) := by
    rw [Cursify_trace]
    constructor
    · intro h
      by_cases hs : cr.curseRoll > curseThreshold log10 cr
      · rw [if_pos hs] at h
        simp at h
      · rw [if_neg hs] at h
        simp only [List.mem_append] at h
        rcases h with ((h | h) | h) | h <;>
          split_ifs at h with hc <;> first | exact hc | simp at h
    · intro h
      have h4 := n4 (n3 (n2 h))
      rw [if_neg (not_lt.mpr h4), if_pos h]
      simp
  have m3 : CurseEffect.EquipmentDelevel ∈ (d.Cursify w log10 r cr roomLevel).2 ↔
      cr.curseRoll ≤ curseThreshold log10 cr * (1 / 2) := by
    rw [Cursify_trace]
    constructor
    · intro h
      by_cases hs : cr.curseRoll > curseThreshold log10 cr
      · rw [if_pos hs] at h
        simp at h
      · rw [if_neg hs] at h
        simp only [List.mem_append] at h
        rcases h with ((h | h) | h) | h <;>
          split_ifs at h with hc <;> first | exact hc | simp at h
    · intro h
      have h4 := n4 (n3 h)
      rw [if_neg (not_lt.mpr h4), if_pos h]
      simp
  have m4 : CurseEffect.GoldLoss ∈ (d.Cursify w log10 r cr roomLevel).2 ↔
      cr.curseRoll ≤ curseThreshold log10 cr * (3 / 4) := by
    rw [Cursify_trace]
    constructor
    · intro h
      by_cases hs : cr.curseRoll > curseThreshold log10 cr
      · rw [if_pos hs] at h
        simp at h
      · rw [if_neg hs] at h
        simp only [List.mem_append] at h
        rcases h with ((h | h) | h) | h <;>
          split_ifs at h with hc <;> first | exact hc | simp at h
    · intro h
      have h4 := n4 h
      rw [if_neg (not_lt.mpr h4), if_pos h]
      simp
  refine ⟨?_, n1, n2, n3, n4, m1, m2, m3, m4, ?_⟩
  · intro h
    unfold Dude.Cursify
    simp only [gt_iff_lt, h, if_true]
  · intro h
    have h1 := m1.mp h
    exact ⟨m2.mpr (n1 h1), m3.mpr (n2 (n1 h1)), m4.mpr (n3 (n2 (n1 h1)))⟩

/-- A full curse on the sample knight: every branch runs, and the unit-delevel
branch implies the other three. -/
theorem Cursify_effects_nested_witness :
    0 ≤ fullCurse.curseRoll ∧
    (fightingKnight.Cursify sampleWorld sampleLog10 {} fullCurse 2).2 =
      [CurseEffect.GoldLoss, CurseEffect.EquipmentDelevel, CurseEffect.PerkDelevel,
       CurseEffect.DudeDelevel] ∧
    (CurseEffect.DudeDelevel ∈ (fightingKnight.Cursify sampleWorld sampleLog10 {} fullCurse 2).2 →
      CurseEffect.PerkDelevel ∈ (fightingKnight.Cursify sampleWorld sampleLog10 {} fullCurse 2).2 ∧
      CurseEffect.EquipmentDelevel ∈
        (fightingKnight.Cursify sampleWorld sampleLog10 {} fullCurse 2).2 ∧
      CurseEffect.GoldLoss ∈ (fightingKnight.Cursify sampleWorld sampleLog10 {} fullCurse 2).2) :=
  ⟨by decide,
   by
     rw [Cursify_trace]
     norm_num [curseThreshold, sampleLog10, fullCurse],
   (Cursify_effects_nested sampleWorld sampleLog10 {} fullCurse fightingKnight 2
      (by decide)).2.2.2.2.2.2.2.2.2⟩

/-! ## Traps (C22) -/

/-- A second `IsDead()` check answers as the first and changes nothing more. -/
theorem IsDead_idem (d : Dude) : d.IsDead.1.IsDead = d.IsDead := by
  by_cases hi : d.invincible = true
  · by_cases hhp : d.stats.currentHp ≤ 0
    · by_cases ht : d.stats.totalHp ≤ 0 <;> simp [Dude.IsDead, hi, hhp, ht]
    · simp [Dude.IsDead, hi, hhp]
  · simp [Dude.IsDead, hi]

/-- A unit put in activity `Ded` is reported dead. -/
theorem IsDead_of_Ded (d : Dude) : (d.SetActivity DudeActivity.Ded).IsDead.2 = true := by
  simp [Dude.IsDead, Dude.SetActivity]
  split_ifs <;> simp

/-- The `IsDead()` check leaves the agility alone. -/
theorem IsDead_agility (d : Dude) : d.IsDead.1.stats.agility = d.stats.agility := by
  unfold Dude.IsDead
  simp only
  split_ifs <;> rfl

/-- `ApplyDamage` starts with the `IsDead()` check, so it does the same to the
unit that check leaves. -/
theorem ApplyDamage_after_IsDead (w : World) (r : Rolls) (d : Dude) (amount : Int) :
    d.IsDead.1.ApplyDamage w r amount = d.ApplyDamage w r amount := by
  unfold Dude.ApplyDamage
  rw [IsDead_idem]

/-- On a living unit an `ApplyDamage` that was not dodged has set `dirtyStats`,
so setting it again changes nothing. -/
theorem ApplyDamage_living_dirty (w : World) (r : Rolls) (d : Dude) (amount : Int)
    (hlive : d.IsDead.2 = false) :
    (if (!(d.ApplyDamage w r amount).2.2) = true then
        { (d.ApplyDamage w r amount).1 with dirtyStats := true }
      else (d.ApplyDamage w r amount).1) = (d.ApplyDamage w r amount).1 := by
  rcases hd : d.IsDead with ⟨d0, dead⟩
  rw [hd] at hlive
  simp only at hlive
  subst hlive
  by_cases hdodge : r.dodgeRoll = true
  · simp [Dude.ApplyDamage, hd, hdodge]
  · simp [Dude.ApplyDamage, hd, hdodge]

/-- A living unit of agility `≥ 0` whose float draw is above the threshold is
spared: nil, no `ApplyDamage`, and the unit as the `IsDead()` check left it. -/
theorem TrapDamage_spared (w : World) (log10 : Int → ℚ) (r : Rolls) (tr : TrapRolls) (d : Dude)
    (roomLevel : Int) (hlive : d.IsDead.2 = false) (hagi : 0 ≤ d.stats.agility)
    (h : trapThreshold log10 tr.agilityRoll < tr.trapRoll) :
    d.TrapDamage w log10 r tr roomLevel =
      some { dude := d.IsDead.1, activity := none, damage := [] } := by
  have ha := IsDead_agility d
  rcases hd : d.IsDead with ⟨d0, dead⟩
  rw [hd] at hlive ha
  simp only at hlive ha
  subst hlive
  have hnp : ¬ d0.stats.agility + 1 ≤ 0 := by omega
  simp only [Dude.TrapDamage, hd, Bool.false_eq_true, if_false, hnp, gt_iff_lt, h, if_true]

/-- A living unit of agility `≥ 0` whose float draw is not above the threshold
is hit: one `ApplyDamage` with `(roomLevel+1)×3`, then the closing `IsDead()`
check on what `ApplyDamage` left. -/
theorem TrapDamage_hit (w : World) (log10 : Int → ℚ) (r : Rolls) (tr : TrapRolls) (d : Dude)
    (roomLevel : Int) (hlive : d.IsDead.2 = false) (hagi : 0 ≤ d.stats.agility)
    (h : tr.trapRoll ≤ trapThreshold log10 tr.agilityRoll) :
    d.TrapDamage w log10 r tr roomLevel =
      some (if (d.ApplyDamage w r ((roomLevel + 1) * 3)).1.IsDead.2 = true then
          { dude := (d.ApplyDamage w r ((roomLevel + 1) * 3)).1.IsDead.1.SetActivity
              DudeActivity.Ded,
            activity := some Activity.DudeDead, damage := [(roomLevel + 1) * 3] }
        else
          { dude := (d.ApplyDamage w r ((roomLevel + 1) * 3)).1.IsDead.1, activity := none,
            damage := [(roomLevel + 1) * 3] }) := by
  have hdirty := ApplyDamage_living_dirty w r d ((roomLevel + 1) * 3) hlive
  have hsame := ApplyDamage_after_IsDead w r d ((roomLevel + 1) * 3)
  have ha := IsDead_agility d
  rcases hd : d.IsDead with ⟨d0, dead⟩
  rw [hd] at hlive ha hsame
  simp only at hlive ha hsame
  subst hlive
  have hnp : ¬ d0.stats.agility + 1 ≤ 0 := by omega
  have hn : ¬ trapThreshold log10 tr.agilityRoll < tr.trapRoll := not_lt.mpr h
  rw [← hsame] at hdirty ⊢
  rcases hap : d0.ApplyDamage w r ((roomLevel + 1) * 3) with ⟨d1, amount, miss⟩
  rw [hap] at hdirty
  simp only at hdirty
  rcases h3 : d1.IsDead with ⟨d3, dead3⟩
  cases dead3 <;>
    simp only [Dude.TrapDamage, hd, Bool.false_eq_true, if_false, hnp, gt_iff_lt, hn, hap,
      hdirty, h3, if_true]

/-- C22 (counterexample). The invincible knight at 0 hit points, not in
activity `Ded`, is living (`IsDead()` is false); with the agility roll 1 and
the float draw 9/10 the trap is avoided, nil is returned and `ApplyDamage` is
not called, and yet the knight's `currentHp` is 7 after the call, not the 0 it
had before. -/
theorem TrapDamage_spared_refills_invincible :
    invincibleAtKill.IsDead.2 = false ∧
    invincibleAtKill.stats.currentHp = 0 ∧
    invincibleAtKill.TrapDamage sampleWorld sampleLog10 {} luckyTrapRolls 2 =
      some { dude := { invincibleAtKill with
                       stats := { invincibleAtKill.stats with currentHp := 7 } },
             activity := none, damage := [] } :=
  ⟨by decide, by decide,
   (TrapDamage_spared sampleWorld sampleLog10 {} luckyTrapRolls invincibleAtKill 2
      (by decide) (by decide)
      (by norm_num [trapThreshold, sampleLog10, luckyTrapRolls])).trans (by decide)⟩

/-- C22 (amended). In `TrapDamage(roomLevel)` for a living dude (`IsDead()` is
false) with agility `a ≥ 0`, the call returns. It returns nil, calls no
`ApplyDamage` and leaves the dude as the `IsDead()` check left it (the dude
itself when `currentHp > 0`) iff `trapRoll > 1 − log10(agilityRoll+1)`.
Otherwise `ApplyDamage` is called exactly once, with `(roomLevel+1)×3`; the
dude afterwards is the one `ApplyDamage` and the closing `IsDead()` check
leave, put in activity `Ded` when that check reports death; a
`DudeDeadActivity` is returned exactly then. In both cases a
`DudeDeadActivity` is returned iff the dude is dead afterwards. With
`log10 1 = 0`, a dude of agility 0 (so `agilityRoll = 0`) is hit for every
`trapRoll < 1`; with `log10 n > 1` for `n ≥ 11`, a roll `agilityRoll ≥ 10`
avoids the trap for every `trapRoll ≥ 0`. -/
theorem TrapDamage_spec (w : World) (log10 : Int → ℚ) (r : Rolls) (tr : TrapRolls) (d : Dude)
    (roomLevel : Int) (hlive : d.IsDead.2 = false) (hagi : 0 ≤ d.stats.agility) :
    (d.TrapDamage w log10 r tr roomLevel =
        some { dude := d.IsDead.1, activity := none, damage := [] } ↔
      trapThreshold log10 tr.agilityRoll < tr.trapRoll) ∧
    (0 < d.stats.currentHp → d.IsDead.1 = d) ∧
    (tr.trapRoll ≤ trapThreshold log10 tr.agilityRoll →
      ∃ T : TrapOutcome, d.TrapDamage w log10 r tr roomLevel = some T ∧
        T.damage = [(roomLevel + 1) * 3] ∧
        (T.activity = some Activity.DudeDead ↔
          (d.ApplyDamage w r ((roomLevel + 1) * 3)).1.IsDead.2 = true) ∧
        T.dude =
          (if (d.ApplyDamage w r ((roomLevel + 1) * 3)).1.IsDead.2 = true then
            (d.ApplyDamage w r ((roomLevel + 1) * 3)).1.IsDead.1.SetActivity DudeActivity.Ded
          else (d.ApplyDamage w r ((roomLevel + 1) * 3)).1.IsDead.1)) ∧
    (∃ T : TrapOutcome, d.TrapDamage w log10 r tr roomLevel = some T ∧
      (T.activity = some Activity.DudeDead ↔ T.dude.IsDead.2 = true) ∧
      (T.activity = none ↔ T.dude.IsDead.2 = false)) ∧
    (d.stats.agility = 0 → 0 ≤ tr.agilityRoll → tr.agilityRoll ≤ d.stats.agility →
      log10 1 = 0 → tr.trapRoll < 1 →
      ∃ T : TrapOutcome, d.TrapDamage w log10 r tr roomLevel = some T ∧
        T.damage = [(roomLevel + 1) * 3]) ∧
    (10 ≤ tr.agilityRoll → (∀ n : Int, 11 ≤ n → 1 < log10 n) → 0 ≤ tr.trapRoll →
      d.TrapDamage w log10 r tr roomLevel =
        some { dude := d.IsDead.1, activity := none, damage := [] }) := by
  have havoid := TrapDamage_spared w log10 r tr d roomLevel hlive hagi
  have hidem0 := IsDead_idem d
  have hhit : tr.trapRoll ≤ trapThreshold log10 tr.agilityRoll →
      ∃ T : TrapOutcome, d.TrapDamage w log10 r tr roomLevel = some T ∧
        T.damage = [(roomLevel + 1) * 3] ∧
        (T.activity = some Activity.DudeDead ↔
          (d.ApplyDamage w r ((roomLevel + 1) * 3)).1.IsDead.2 = true) ∧
        T.dude =
          (if (d.ApplyDamage w r ((roomLevel + 1) * 3)).1.IsDead.2 = true then
            (d.ApplyDamage w r ((roomLevel + 1) * 3)).1.IsDead.1.SetActivity DudeActivity.Ded
          else (d.ApplyDamage w r ((roomLevel + 1) * 3)).1.IsDead.1) ∧
        (T.activity = some Activity.DudeDead ↔ T.dude.IsDead.2 = true) ∧
        (T.activity = none ↔ T.dude.IsDead.2 = false) := by
    intro h
    have heq := TrapDamage_hit w log10 r tr d roomLevel hlive hagi h
    have hidem := IsDead_idem (d.ApplyDamage w r ((roomLevel + 1) * 3)).1
    rcases h3 : (d.ApplyDamage w r ((roomLevel + 1) * 3)).1.IsDead with ⟨d3, dead3⟩
    rw [h3] at heq hidem
    simp only at heq hidem
    cases dead3
    · simp only [Bool.false_eq_true, if_false] at heq ⊢
      refine ⟨_, heq, rfl, by simp, rfl, ?_, ?_⟩
      · simp only [hidem]
        simp
      · simp only [hidem]
    · simp only [if_true] at heq ⊢
      refine ⟨_, heq, rfl, by simp, rfl, ?_, ?_⟩
      · simp only [IsDead_of_Ded]
      · simp only [IsDead_of_Ded]
        simp
  refine ⟨⟨?_, havoid⟩, ?_, ?_, ?_, ?_, ?_⟩
  · intro hres
    by_contra hn
    obtain ⟨T, hT, hdmg, _⟩ := hhit (not_lt.mp hn)
    rw [hres] at hT
    injection hT with hT
    rw [← hT] at hdmg
    simp at hdmg
  · intro hhp
    have h1 : ¬ d.stats.currentHp ≤ 0 := by omega
    simp [Dude.IsDead, h1]
  · intro h
    obtain ⟨T, hT, hdmg, hact, hdude, _⟩ := hhit h
    exact ⟨T, hT, hdmg, hact, hdude⟩
  · by_cases h : trapThreshold log10 tr.agilityRoll < tr.trapRoll
    · refine ⟨_, havoid h, ?_, ?_⟩
      · simp only [hidem0, hlive]
        simp
      · simp only [hidem0, hlive]
    · obtain ⟨T, hT, _, _, _, hdead⟩ := hhit (not_lt.mp h)
      exact ⟨T, hT, hdead⟩
  · intro ha0 hr0 hr1 hlog htrap
    have hroll : tr.agilityRoll = 0 := by omega
    have hthr : trapThreshold log10 tr.agilityRoll = 1 := by
      simp [trapThreshold, hroll, hlog]
    obtain ⟨T, hT, hdmg, _⟩ := hhit (by rw [hthr]; exact le_of_lt htrap)
    exact ⟨T, hT, hdmg⟩
  · intro hroll hlog htrap
    apply havoid
    have h1 := hlog (tr.agilityRoll + 1) (by omega)
    unfold trapThreshold
    linarith

/-- The sample knight (7 hit points, defense 3) at a trap of a room of level 2:
for the draws `(0, 1/2)` it is hit with 9, which `ApplyDamage` turns into a
loss of 6, and lives on with 1 hit point; for the draws `(1, 9/10)` it is
spared and unchanged. -/
theorem TrapDamage_spec_witness :
    (∃ T : TrapOutcome,
      fightingKnight.TrapDamage sampleWorld sampleLog10 {} hitTrapRolls 2 = some T ∧
        T.damage = [(2 + 1) * 3] ∧
        (T.activity = some Activity.DudeDead ↔
          (fightingKnight.ApplyDamage sampleWorld {} ((2 + 1) * 3)).1.IsDead.2 = true) ∧
        T.dude =
          (if (fightingKnight.ApplyDamage sampleWorld {} ((2 + 1) * 3)).1.IsDead.2 = true then
            (fightingKnight.ApplyDamage sampleWorld {} ((2 + 1) * 3)).1.IsDead.1.SetActivity
              DudeActivity.Ded
          else (fightingKnight.ApplyDamage sampleWorld {} ((2 + 1) * 3)).1.IsDead.1)) ∧
    (fightingKnight.ApplyDamage sampleWorld {} ((2 + 1) * 3)).1.IsDead.2 = false ∧
    (fightingKnight.ApplyDamage sampleWorld {} ((2 + 1) * 3)).1.IsDead.1.stats.currentHp = 1 ∧
    fightingKnight.TrapDamage sampleWorld sampleLog10 {} luckyTrapRolls 2 =
      some { dude := fightingKnight.IsDead.1, activity := none, damage := [] } ∧
    fightingKnight.IsDead.1 = fightingKnight :=
  ⟨(TrapDamage_spec sampleWorld sampleLog10 {} hitTrapRolls fightingKnight 2
      (by decide) (by decide)).2.2.1
      (by norm_num [trapThreshold, sampleLog10, hitTrapRolls]),
   by decide, by decide,
   (TrapDamage_spec sampleWorld sampleLog10 {} luckyTrapRolls fightingKnight 2
      (by decide) (by decide)).1.mpr
      (by norm_num [trapThreshold, sampleLog10, luckyTrapRolls]),
   (TrapDamage_spec sampleWorld sampleLog10 {} luckyTrapRolls fightingKnight 2
      (by decide) (by decide)).2.1 (by decide)⟩

/-! ## The stair climb (C26) -/

/-- One `Update` in activity `StairsToUp` with the raised timer below 40. -/
theorem Update_stairs_before (w : World) (i : TickInput) (d : Dude) (s : Stack)
    (hen : ∀ (e : Enemy) (d : Dude) (s : Stack),
      (w.EnemyUpdate e d s).1.activity = d.activity ∧
      (w.EnemyUpdate e d s).1.timer = d.timer ∧
      (w.EnemyUpdate e d s).2.VgroupOffset = s.VgroupOffset)
    (ha : d.activity = DudeActivity.StairsToUp) (ht : d.timer + 1 < 40) :
    (d.Update w i s).1.activity = DudeActivity.StairsToUp ∧
    (d.Update w i s).1.timer = d.timer + 1 ∧
    (d.Update w i s).2.2 = [Request.Move] := by
  cases d
  simp only at ha ht
  subst ha
  unfold Dude.Update
  simp only [ht, if_true]
  split
  · exact ⟨(hen _ _ _).1, (hen _ _ _).2.1, rfl⟩
  · exact ⟨rfl, rfl, rfl⟩

/-- One `Update` in activity `StairsToUp` with the raised timer at 40 or above. -/
theorem Update_stairs_last (w : World) (i : TickInput) (d : Dude) (s : Stack)
    (hen : ∀ (e : Enemy) (d : Dude) (s : Stack),
      (w.EnemyUpdate e d s).1.activity = d.activity ∧
      (w.EnemyUpdate e d s).1.timer = d.timer ∧
      (w.EnemyUpdate e d s).2.VgroupOffset = s.VgroupOffset)
    (ha : d.activity = DudeActivity.StairsToUp) (ht : ¬ d.timer + 1 < 40) :
    (d.Update w i s).1.activity = DudeActivity.StairsFromDown ∧
    (d.Update w i s).1.timer = 0 ∧
    (d.Update w i s).2.1.VgroupOffset = 0 ∧
    (d.Update w i s).2.2 = [Request.StoryEnterNext] := by
  cases d
  simp only at ha ht
  subst ha
  unfold Dude.Update
  simp only [ht, if_false]
  split
  · exact ⟨(hen _ _ _).1, (hen _ _ _).2.1, (hen _ _ _).2.2, rfl⟩
  · exact ⟨rfl, rfl, rfl, rfl⟩

/-- The unfolding of `Dude.UpdateN` at a successor. -/
theorem UpdateN_succ (w : World) (g : Nat → TickInput) (d : Dude) (s : Stack) (n : Nat) :
    Dude.UpdateN w g d s (n + 1) =
      Dude.Update w (g n) (Dude.UpdateN w g d s n).1 (Dude.UpdateN w g d s n).2.1 := rfl

/-- The climb keeps activity `StairsToUp` and counts the calls in the timer
for the first 39 calls. -/
theorem UpdateN_stairs (w : World) (g : Nat → TickInput) (d : Dude) (s : Stack)
    (hen : ∀ (e : Enemy) (d : Dude) (s : Stack),
      (w.EnemyUpdate e d s).1.activity = d.activity ∧
      (w.EnemyUpdate e d s).1.timer = d.timer ∧
      (w.EnemyUpdate e d s).2.VgroupOffset = s.VgroupOffset)
    (n : Nat) (hn : n < 40) :
    (Dude.UpdateN w g (d.SetActivity DudeActivity.StairsToUp) s n).1.activity =
      DudeActivity.StairsToUp ∧
    (Dude.UpdateN w g (d.SetActivity DudeActivity.StairsToUp) s n).1.timer = n := by
  induction n with
  | zero => exact ⟨rfl, rfl⟩
  | succ k ih =>
    have hk := ih (by omega)
    have hstep := Update_stairs_before w (g k)
      (Dude.UpdateN w g (d.SetActivity DudeActivity.StairsToUp) s k).1
      (Dude.UpdateN w g (d.SetActivity DudeActivity.StairsToUp) s k).2.1 hen hk.1
      (by rw [hk.2]; omega)
    refine ⟨hstep.1, ?_⟩
    show (Dude.Update w (g k) _ _).1.timer = _
    rw [hstep.2.1, hk.2]
    push_cast
    rfl

/-- C26. Starting from `SetActivity(StairsToUp)`, for an `Enemy.Update` that
leaves activity, timer and `VgroupOffset` alone: each of the first 39 `Update`
calls keeps the activity `StairsToUp` and adds exactly one `MoveActivity` and
nothing else; the 40th adds exactly one `StoryEnterNextActivity` and nothing
else, resets `VgroupOffset` to 0 and sets the activity to `StairsFromDown`
with timer 0. An `Update` in activity `Ded` or `Idle` adds no request and
leaves activity and timer unchanged; an `Update` in `BornAgain` sets the
activity to `Moving`. -/
theorem Update_stairs_climb (w : World) (g : Nat → TickInput) (d : Dude) (s : Stack)
    (hen : ∀ (e : Enemy) (d : Dude) (s : Stack),
      (w.EnemyUpdate e d s).1.activity = d.activity ∧
      (w.EnemyUpdate e d s).1.timer = d.timer ∧
      (w.EnemyUpdate e d s).2.VgroupOffset = s.VgroupOffset) :
    (∀ n : Nat, 1 ≤ n → n < 40 →
      (Dude.UpdateN w g (d.SetActivity DudeActivity.StairsToUp) s n).1.activity =
        DudeActivity.StairsToUp ∧
      (Dude.UpdateN w g (d.SetActivity DudeActivity.StairsToUp) s n).2.2 = [Request.Move]) ∧
    (Dude.UpdateN w g (d.SetActivity DudeActivity.StairsToUp) s 40).2.2 =
      [Request.StoryEnterNext] ∧
    (Dude.UpdateN w g (d.SetActivity DudeActivity.StairsToUp) s 40).2.1.VgroupOffset = 0 ∧
    (Dude.UpdateN w g (d.SetActivity DudeActivity.StairsToUp) s 40).1.activity =
      DudeActivity.StairsFromDown ∧
    (Dude.UpdateN w g (d.SetActivity DudeActivity.StairsToUp) s 40).1.timer = 0 ∧
    (∀ i : TickInput, d.activity = DudeActivity.Ded ∨ d.activity = DudeActivity.Idle →
      (d.Update w i s).2.2 = [] ∧ (d.Update w i s).1.activity = d.activity ∧
      (d.Update w i s).1.timer = d.timer) ∧
    (∀ i : TickInput, d.activity = DudeActivity.BornAgain →
      (d.Update w i s).1.activity = DudeActivity.Moving) := by
  have hstairs : ∀ n : Nat, 1 ≤ n → n < 40 →
      (Dude.UpdateN w g (d.SetActivity DudeActivity.StairsToUp) s n).1.activity =
        DudeActivity.StairsToUp ∧
      (Dude.UpdateN w g (d.SetActivity DudeActivity.StairsToUp) s n).2.2 = [Request.Move] := by
    intro n h1 h40
    obtain ⟨k, rfl⟩ : ∃ k, n = k + 1 := ⟨n - 1, by omega⟩
    have hk := UpdateN_stairs w g d s hen k (by omega)
    have hstep := Update_stairs_before w (g k)
      (Dude.UpdateN w g (d.SetActivity DudeActivity.StairsToUp) s k).1
      (Dude.UpdateN w g (d.SetActivity DudeActivity.StairsToUp) s k).2.1 hen hk.1
      (by rw [hk.2]; omega)
    exact ⟨hstep.1, hstep.2.2⟩
  have hk := UpdateN_stairs w g d s hen 39 (by omega)
  have hstep := Update_stairs_last w (g 39)
    (Dude.UpdateN w g (d.SetActivity DudeActivity.StairsToUp) s 39).1
    (Dude.UpdateN w g (d.SetActivity DudeActivity.StairsToUp) s 39).2.1 hen hk.1
    (by rw [hk.2]; omega)
  have h40 : Dude.UpdateN w g (d.SetActivity DudeActivity.StairsToUp) s 40 =
      Dude.Update w (g 39) (Dude.UpdateN w g (d.SetActivity DudeActivity.StairsToUp) s 39).1
        (Dude.UpdateN w g (d.SetActivity DudeActivity.StairsToUp) s 39).2.1 :=
    UpdateN_succ w g (d.SetActivity DudeActivity.StairsToUp) s 39
  rw [h40]
  refine ⟨hstairs, hstep.2.2.2, hstep.2.2.1, hstep.1, hstep.2.1, ?_, ?_⟩
  · intro i h
    cases d
    simp only at h
    rcases h with h | h
    · subst h
      unfold Dude.Update
      simp only
      split
      · exact ⟨rfl, (hen _ _ _).1, (hen _ _ _).2.1⟩
      · exact ⟨rfl, rfl, rfl⟩
    · subst h
      unfold Dude.Update
      simp only
      split
      · exact ⟨rfl, (hen _ _ _).1, (hen _ _ _).2.1⟩
      · exact ⟨rfl, rfl, rfl⟩
  · intro i h
    cases d
    simp only at h
    subst h
    unfold Dude.Update
    simp only
    split
    · exact (hen _ _ _).1
    · rfl

/-- The sample knight climbs the stairs: 39 moves, then the request to enter
the next story, in `StairsFromDown` with timer 0. -/
theorem Update_stairs_climb_witness :
    (Dude.UpdateN sampleWorld (fun _ => {})
      (fightingKnight.SetActivity DudeActivity.StairsToUp) {} 39).2.2 = [Request.Move] ∧
    (Dude.UpdateN sampleWorld (fun _ => {})
      (fightingKnight.SetActivity DudeActivity.StairsToUp) {} 40).2.2 =
      [Request.StoryEnterNext] ∧
    (Dude.UpdateN sampleWorld (fun _ => {})
      (fightingKnight.SetActivity DudeActivity.StairsToUp) {} 40).1.activity =
      DudeActivity.StairsFromDown ∧
    (Dude.UpdateN sampleWorld (fun _ => {})
      (fightingKnight.SetActivity DudeActivity.StairsToUp) {} 40).1.timer = 0 :=
  ⟨((Update_stairs_climb sampleWorld (fun _ => {}) fightingKnight {}
      (fun _ _ _ => ⟨rfl, rfl, rfl⟩)).1 39 (by decide) (by decide)).2,
   (Update_stairs_climb sampleWorld (fun _ => {}) fightingKnight {}
      (fun _ _ _ => ⟨rfl, rfl, rfl⟩)).2.1,
   (Update_stairs_climb sampleWorld (fun _ => {}) fightingKnight {}
      (fun _ _ _ => ⟨rfl, rfl, rfl⟩)).2.2.2.1,
   (Update_stairs_climb sampleWorld (fun _ => {}) fightingKnight {}
      (fun _ _ _ => ⟨rfl, rfl, rfl⟩)).2.2.2.2.1⟩

/-! ## Taking an item (C27, C29) -/

/-- Activation keeps the identity of the item. -/
theorem Activate_id (w : World) (e : Equipment) (ev : Event) : (e.Activate w ev).id = e.id := by
  unfold Equipment.Activate
  split
  · rfl
  · simp only
    split_ifs <;> rfl

/-- Where `Equip(eq)` leaves the items: `eq` in the slot of its type, the
other slots with the items they had, the inventory without `eq`. -/
theorem Equip_slots (w : World) (d : Dude) (eq : Equipment) :
    (d.Equip w eq).1.equipped.get eq.equipmentType = some (eq.Activate w (Event.Equip eq)) ∧
    (∀ t : EquipmentType, t ≠ eq.equipmentType →
      (d.Equip w eq).1.slotId t = d.slotId t) ∧
    (d.Equip w eq).1.inventory = d.inventory.eraseP (fun x => x.id == eq.id) := by
  rcases d with ⟨_, _, _, _, _, _, ⟨wp, ar, ac⟩, _, _, _, _, _, _, _, _, _⟩
  rcases eq with ⟨id, nm, lv, q, u, tu, ds, t, pk, st, pr⟩
  refine ⟨?_, ?_, ?_⟩
  · cases t <;> cases wp <;> cases ar <;> cases ac <;>
      simp [Dude.Equip, Dude.Unequip, Dude.TriggerLeaf, Dude.activateEquipped, Equipped.get,
        Equipped.set, Equipped.mapItems]
  · intro t2 ht
    cases t <;> cases t2 <;> cases wp <;> cases ar <;> cases ac <;>
      simp [Dude.Equip, Dude.Unequip, Dude.TriggerLeaf, Dude.activateEquipped, Equipped.get,
        Equipped.set, Equipped.mapItems, Dude.slotId, Activate_id] at ht ⊢
  · cases t <;> cases wp <;> cases ar <;> cases ac <;>
      simp [Dude.Equip, Dude.Unequip, Dude.TriggerLeaf, Dude.activateEquipped, Equipped.get,
        Equipped.set, Equipped.mapItems]

/-- An item that should be equipped passes the profession check of
`AddToInventory` as well. -/
theorem ShouldEquip_hasProfession (w : World) (d : Dude) (eq : Equipment)
    (h : d.ShouldEquip w eq = true) :
    (if eq.professions.length = 0 then true
      else eq.professions.any (fun p => p == d.profession)) = true := by
  have he : (decide (eq.professions.length = 0) ||
      eq.professions.any (fun p => p == d.profession)) = true := by
    unfold Dude.ShouldEquip at h
    simp only at h
    split at h
    · exact h
    · split at h
      · simp only [Bool.and_eq_true] at h
        exact h.1
      · exact absurd h (by simp)
      · simp only [Bool.and_eq_true] at h
        exact h.1.1
  by_cases hl : eq.professions.length = 0
  · simp only [hl, if_true]
  · simp only [hl, if_false, decide_False, Bool.false_or] at he ⊢
    exact he

/-- The two outcomes of `AddToInventory`. -/
theorem AddToInventory_eq (w : World) (d : Dude) (eq : Equipment) :
    d.AddToInventory w eq =
      if d.ShouldEquip w eq = true then
        (Dude.Equip w { d with inventory := d.inventory ++ [eq] } eq).1
      else { d with inventory := d.inventory ++ [eq] } := by
  have hs : Dude.ShouldEquip w { d with inventory := d.inventory ++ [eq] } eq =
      d.ShouldEquip w eq := rfl
  cases h : d.ShouldEquip w eq
  · simp only [Dude.AddToInventory, hs, h, Bool.false_and, Bool.false_eq_true, if_false]
  · have hp := ShouldEquip_hasProfession w d eq h
    simp only [Dude.AddToInventory, hs, h, hp, Bool.and_self, if_true]

/-- The identities a unit holds, slot by slot. -/
theorem heldIds_eq (d : Dude) :
    d.heldIds = (d.slotId EquipmentType.Weapon).toList ++ (d.slotId EquipmentType.Armor).toList ++
      (d.slotId EquipmentType.Accessory).toList ++ d.inventory.map (fun e => e.id) := by
  rcases d with ⟨_, _, _, _, _, _, ⟨wp, ar, ac⟩, _, _, _, _, _, _, _, _, _⟩
  cases wp <;> cases ar <;> cases ac <;>
    simp [Dude.heldIds, Dude.slotId, Equipped.values, Equipped.get]

/-- C27. For every dude and every equipment `eq` the dude does not already
hold (no held item has its identity), after `AddToInventory(eq)`: when
`ShouldEquip(eq)` held on entry, `eq` is in the equipped slot of its type, the
other slots hold the items they held and the inventory is the old one, so
without `eq`; otherwise `eq` is the last element of the inventory and the
equipped map is unchanged; in both cases `eq` occurs exactly once among the
equipped items and the inventory. -/
theorem AddToInventory_places_item (w : World) (d : Dude) (eq : Equipment)
    (hnew : eq.id ∉ d.heldIds) :
    (d.ShouldEquip w eq = true →
      (d.AddToInventory w eq).slotId eq.equipmentType = some eq.id ∧
      (∀ t : EquipmentType, t ≠ eq.equipmentType →
        (d.AddToInventory w eq).slotId t = d.slotId t) ∧
      (d.AddToInventory w eq).inventory = d.inventory) ∧
    (d.ShouldEquip w eq = false →
      (d.AddToInventory w eq).inventory = d.inventory ++ [eq] ∧
      (d.AddToInventory w eq).equipped = d.equipped) ∧
    (d.AddToInventory w eq).heldIds.count eq.id = 1 := by
  have hinv : ∀ x ∈ d.inventory, ¬ (x.id == eq.id) = true := by
    intro x hx hid
    apply hnew
    have hxid : x.id = eq.id := by simpa using hid
    rw [← hxid]
    simp only [Dude.heldIds, List.map_append, List.mem_append, List.mem_map]
    exact Or.inr ⟨x, hx, rfl⟩
  have htrue : d.ShouldEquip w eq = true →
      (d.AddToInventory w eq).slotId eq.equipmentType = some eq.id ∧
      (∀ t : EquipmentType, t ≠ eq.equipmentType →
        (d.AddToInventory w eq).slotId t = d.slotId t) ∧
      (d.AddToInventory w eq).inventory = d.inventory := by
    intro h
    obtain ⟨h1, h2, h3⟩ := Equip_slots w { d with inventory := d.inventory ++ [eq] } eq
    rw [AddToInventory_eq, if_pos h]
    refine ⟨?_, h2, ?_⟩
    · simp only [Dude.slotId, h1, Option.map_some', Activate_id]
    · rw [h3]
      simp only
      rw [List.eraseP_append_right _ hinv]
      simp
  have hfalse : d.ShouldEquip w eq = false →
      (d.AddToInventory w eq).inventory = d.inventory ++ [eq] ∧
      (d.AddToInventory w eq).equipped = d.equipped := by
    intro h
    rw [AddToInventory_eq, h]
    exact ⟨rfl, rfl⟩
  refine ⟨htrue, hfalse, ?_⟩
  cases h : d.ShouldEquip w eq
  · have hd : d.AddToInventory w eq = { d with inventory := d.inventory ++ [eq] } := by
      rw [AddToInventory_eq, h]
      rfl
    have hids : (d.AddToInventory w eq).heldIds = d.heldIds ++ [eq.id] := by
      rw [hd]
      simp [Dude.heldIds]
    rw [hids, List.count_append, List.count_eq_zero_of_not_mem hnew]
    simp
  · obtain ⟨h1, h2, h3⟩ := htrue h
    rw [heldIds_eq] at hnew ⊢
    rw [h3]
    simp only [List.mem_append, not_or] at hnew
    obtain ⟨⟨⟨hw, har⟩, hac⟩, hin⟩ := hnew
    have hcw := List.count_eq_zero_of_not_mem hw
    have hcar := List.count_eq_zero_of_not_mem har
    have hcac := List.count_eq_zero_of_not_mem hac
    have hcin := List.count_eq_zero_of_not_mem hin
    simp only [List.count_append, hcin]
    rcases hty : eq.equipmentType with _ | _ | _
    · rw [hty] at h1 h2
      rw [h1, h2 EquipmentType.Armor (by decide), h2 EquipmentType.Accessory (by decide),
        hcar, hcac]
      simp
    · rw [hty] at h1 h2
      rw [h1, h2 EquipmentType.Weapon (by decide), h2 EquipmentType.Accessory (by decide),
        hcw, hcac]
      simp
    · rw [hty] at h1 h2
      rw [h1, h2 EquipmentType.Weapon (by decide), h2 EquipmentType.Armor (by decide),
        hcw, hcar]
      simp

/-- The unarmed sample knight takes the Common sword: it goes to the weapon
slot and not to the inventory, and is held exactly once. -/
theorem AddToInventory_places_item_witness :
    (fightingKnight.AddToInventory sampleWorld commonSword).slotId commonSword.equipmentType =
      some commonSword.id ∧
    (fightingKnight.AddToInventory sampleWorld commonSword).inventory =
      fightingKnight.inventory ∧
    (fightingKnight.AddToInventory sampleWorld commonSword).heldIds.count commonSword.id = 1 :=
  ⟨((AddToInventory_places_item sampleWorld fightingKnight commonSword (by decide)).1
      (by decide)).1,
   ((AddToInventory_places_item sampleWorld fightingKnight commonSword (by decide)).1
      (by decide)).2.2,
   (AddToInventory_places_item sampleWorld fightingKnight commonSword (by decide)).2.2⟩

/-- C29. The knight that holds the Common sword in the weapon slot is handed
the finer sword: `ShouldEquip` holds, the finer sword takes the slot, and the
Common sword is neither equipped nor in the inventory afterwards; the knight
holds one item where the claim has two. -/
theorem AddToInventory_drops_replaced_item :
    armedKnight.equipped.get EquipmentType.Weapon = some commonSword ∧
    armedKnight.ShouldEquip sampleWorld fineSword = true ∧
    (armedKnight.AddToInventory sampleWorld fineSword).equipped.get EquipmentType.Weapon =
      some fineSword ∧
    (armedKnight.AddToInventory sampleWorld fineSword).inventory = [] ∧
    (armedKnight.AddToInventory sampleWorld fineSword).heldIds = [fineSword.id] ∧
    (armedKnight.AddToInventory sampleWorld fineSword).heldIds.count commonSword.id = 0 := by
  decide

/-! ## Sorting the roster (C28) -/

/-- C28. Sorting Cid, Abe, Bea by name returns Abe, Cid, Bea: a permutation of
the input that is not ascending by name, as Bea is below Cid. The comparison
reads the names at the given indices of the unsorted input, not of the slice
being sorted. -/
theorem SortDudes_by_name_not_sorted :
    SortDudes sampleWorld SortProperty.Name rosterCidAbeBea =
      some [{ name := "Abe" }, { name := "Cid" }, { name := "Bea" }] ∧
    "Bea" < "Cid" := by
  have h3 : "Bea" < "Cid" := by
    rw [String.lt_iff_toList_lt]
    decide
  refine ⟨?_, h3⟩
  simp +decide [SortDudes, sliceStable, insertionLoop, swapAt, rosterCidAbeBea, List.range']

end Game
